import Mathlib

/-
Verification development for the turtle text editor.

The definitions below are a shallow embedding of the editor's Go source
(package main).  Go slices become Lean lists, Go `int` becomes `Int`,
Go runes become `Nat` code points, and in-place mutation becomes explicit
state passing on immutable records.  Functions that can panic in Go
(out-of-range slice indexing reached through `charidx`'s "must not happen"
branch, or negative line indices) are modelled in the `Option` monad, with
`none` standing for a panic.  Go slice indexing that is always in range at
its call sites is modelled totally with an explicit default; each such spot
is commented.

File contents, in order: characters and lines; the per-line tokenizer and
the highlighter; the screen (buffer) with its cursor and edit operations and
the keystroke handler; theorems about the claims.
-/

namespace Turtle

/-- Go slice read `xs[i]` at an `Int` index.  Go panics when `i` is out of
range; the default `d` is only reachable where the embedded code would have
panicked, and every use below is either guarded or wrapped in `Option`. -/
def geti {α : Type} (xs : List α) (i : Int) (d : α) : α :=
  if 0 ≤ i then xs.getD i.toNat d else d

/-- Go slice read `xs[i]` as an `Option`, `none` modelling the panic. -/
def geti? {α : Type} (xs : List α) (i : Int) : Option α :=
  if h : 0 ≤ i ∧ i.toNat < xs.length then some (xs.get ⟨i.toNat, h.2⟩) else none

/-- Go slice write `xs[i] = a` at an `Int` index.  Out-of-range writes (a Go
panic) leave the list unchanged; all call sites below are in range. -/
def seti {α : Type} (xs : List α) (i : Int) (a : α) : List α :=
  if 0 ≤ i then xs.set i.toNat a else xs

/-
 * character
-/

/-- The source struct `character`: a display unit holding its code point `r`,
the `tab` and `nl` flags and the display `width`.  The cached display string
`disp` is omitted: `character.equal` in the source ignores it, and every
embedded operation below is determined by `r`, `tab`, `nl` and `width`
(where the source compares `disp` substrings against operator tables, the
embedding compares the corresponding code-point sequences; no operator or
keyword contains a space or the zero code point, so the outcomes agree). -/
structure character where
  r : Nat
  tab : Bool
  nl : Bool
  width : Int
deriving DecidableEq, Repr

/-- Range table `fullwidth` of the source function `fullwidth` (inclusive
code-point intervals, R16 entries, all with stride 1). -/
def fullwidthtable : List (Nat × Nat) := [
  (12288, 12288),
  (65281, 65376),
  (65504, 65510)
]

/-- Range table `wide` of the source function `fullwidth` (R16 and R32
entries merged, all with stride 1). -/
def widetable : List (Nat × Nat) := [
  (4352, 4447),
  (9001, 9002),
  (11904, 12283),
  (12289, 12350),
  (12353, 13311),
  (13312, 19893),
  (19968, 40891),
  (40960, 42182),
  (44032, 55203),
  (63744, 64217),
  (65040, 65049),
  (65072, 65131),
  (131072, 173782),
  (173783, 194559),
  (194560, 195101),
  (195102, 196605),
  (196608, 262141)
]

/-- Range table `ambiguous` of the source function `fullwidth` (R16 and R32
entries merged, all with stride 1). -/
def ambiguoustable : List (Nat × Nat) := [
  (161, 161),
  (164, 164),
  (167, 168),
  (170, 170),
  (173, 174),
  (176, 180),
  (182, 186),
  (188, 191),
  (198, 198),
  (208, 208),
  (215, 216),
  (222, 225),
  (230, 230),
  (232, 234),
  (236, 237),
  (240, 240),
  (242, 243),
  (247, 250),
  (252, 252),
  (254, 254),
  (257, 257),
  (273, 273),
  (275, 275),
  (283, 283),
  (294, 295),
  (299, 299),
  (305, 307),
  (312, 312),
  (319, 322),
  (324, 324),
  (328, 331),
  (333, 333),
  (338, 339),
  (358, 359),
  (363, 363),
  (462, 462),
  (464, 464),
  (466, 466),
  (468, 468),
  (470, 470),
  (472, 472),
  (474, 474),
  (476, 476),
  (593, 593),
  (609, 609),
  (708, 708),
  (711, 711),
  (713, 715),
  (717, 717),
  (720, 720),
  (728, 731),
  (733, 733),
  (735, 735),
  (768, 879),
  (913, 937),
  (945, 961),
  (963, 969),
  (1025, 1025),
  (1040, 1103),
  (1105, 1105),
  (8208, 8208),
  (8211, 8214),
  (8216, 8217),
  (8220, 8221),
  (8224, 8226),
  (8228, 8231),
  (8240, 8240),
  (8242, 8243),
  (8245, 8245),
  (8251, 8251),
  (8254, 8254),
  (8308, 8308),
  (8319, 8319),
  (8321, 8324),
  (8364, 8364),
  (8451, 8451),
  (8453, 8453),
  (8457, 8457),
  (8467, 8467),
  (8470, 8470),
  (8481, 8482),
  (8486, 8486),
  (8491, 8491),
  (8531, 8532),
  (8539, 8542),
  (8544, 8555),
  (8560, 8569),
  (8592, 8601),
  (8632, 8633),
  (8658, 8658),
  (8660, 8660),
  (8679, 8679),
  (8704, 8704),
  (8706, 8707),
  (8711, 8712),
  (8715, 8715),
  (8719, 8719),
  (8721, 8721),
  (8725, 8725),
  (8730, 8730),
  (8733, 8736),
  (8739, 8739),
  (8741, 8741),
  (8743, 8748),
  (8750, 8750),
  (8756, 8759),
  (8764, 8765),
  (8776, 8776),
  (8780, 8780),
  (8786, 8786),
  (8800, 8801),
  (8804, 8807),
  (8810, 8811),
  (8814, 8815),
  (8834, 8835),
  (8838, 8839),
  (8853, 8853),
  (8857, 8857),
  (8869, 8869),
  (8895, 8895),
  (8978, 8978),
  (9312, 9449),
  (9451, 9547),
  (9552, 9587),
  (9600, 9615),
  (9618, 9621),
  (9632, 9633),
  (9635, 9641),
  (9650, 9651),
  (9654, 9655),
  (9660, 9661),
  (9664, 9665),
  (9670, 9672),
  (9675, 9675),
  (9678, 9681),
  (9698, 9701),
  (9711, 9711),
  (9733, 9734),
  (9737, 9737),
  (9742, 9743),
  (9748, 9749),
  (9756, 9756),
  (9758, 9758),
  (9792, 9792),
  (9794, 9794),
  (9824, 9825),
  (9827, 9829),
  (9831, 9834),
  (9836, 9837),
  (9839, 9839),
  (10045, 10045),
  (10102, 10111),
  (57344, 63743),
  (65024, 65039),
  (65533, 65533),
  (917760, 917999),
  (983040, 1048573),
  (1048576, 1114109)
]

/-- Membership of a code point in one of the range tables. -/
def inranges (t : List (Nat × Nat)) (r : Nat) : Bool :=
  t.any (fun p => decide (p.1 ≤ r) && decide (r ≤ p.2))

/-- The source function `fullwidth`: whether a code point renders two cells
wide (`unicode.Is` on the three tables). -/
def fullwidth (r : Nat) : Bool :=
  inranges fullwidthtable r || inranges widetable r || inranges ambiguoustable r

/-- The source constructor `newcharacter`.  A tab is four spaces wide, a
newline is materialized one cell wide, full-width code points are two cells
wide, everything else one.  The Go struct literal leaves `r` at its zero
value for tabs and newlines. -/
def newcharacter (r : Nat) : character :=
  if r = 9 then { r := 0, tab := true, nl := false, width := 4 }
  else if r = 10 then { r := 0, tab := false, nl := true, width := 1 }
  else if fullwidth r then { r := r, tab := false, nl := false, width := 2 }
  else { r := r, tab := false, nl := false, width := 1 }

/-- The source method `character.isspace`. -/
def character.isspace (c : character) : Bool :=
  c.r == 32 || c.tab

/-- The source method `character.equal` (display-string cache ignored). -/
def character.equal (c c2 : character) : Bool :=
  if c.tab then c2.tab
  else if c.nl then c2.nl
  else c.r == c2.r

/-
 * line
-/

/-- The source struct `line`: an ordered buffer of characters. -/
structure line where
  buffer : List character
deriving DecidableEq, Repr

/-- The source constructor `newemptyline`: a single newline character. -/
def newemptyline : line := ⟨[newcharacter 10]⟩

/-- The source constructor `newline`, taking the line's text as a list of
code points (the Go version takes a string and converts it to runes). -/
def newline (s : List Nat) : line := ⟨s.map newcharacter ++ [newcharacter 10]⟩

/-- The source method `line.length` (element count, trailing newline
included). -/
def line.length (l : line) : Int := (l.buffer.length : Int)

/-- The loop body of the source method `line.charidx`: starting from the
accumulator `x`, add widths until the accumulated width reaches `cursor + 1`
and return how many characters were stepped over; falling off the end is the
source's `panic("must not happen")`, modelled as `none`. -/
def charidxgo : List character → Int → Int → Option Int
  | [], _, _ => none
  | c :: cs, cursor, x =>
      if cursor + 1 ≤ x + c.width then some 0
      else (charidxgo cs cursor (x + c.width)).map (fun i => i + 1)

/-- The source method `line.charidx`, `none` modelling its panic. -/
def line.charidx? (l : line) (cursor offsetx : Int) : Option Int :=
  charidxgo l.buffer cursor (-offsetx)

/-- The source method `line.widthto`: sum of the widths of the first `idx`
characters.  The Go loop `for i := range idx` runs zero times for a negative
`idx`, and would panic past the end of the buffer; `List.take` truncates
instead, and every call site below passes `idx ≤ length`. -/
def line.widthto (l : line) (idx : Int) : Int :=
  ((l.buffer.take idx.toNat).map character.width).sum

/-- The source method `line.width`. -/
def line.width (l : line) : Int := l.widthto l.length

/-- The source method `line.replacech`.  Go panics out of range; `seti`
leaves the line unchanged there (all call sites are in range). -/
def line.replacech (l : line) (ch : character) (at_ : Int) : line :=
  ⟨seti l.buffer at_ ch⟩

/-- The source method `line.inschars` (sequential `slices.Insert` of each
character, equivalent to splicing the list in at `at_`).  Go panics when
`at_` is out of range; every call site below passes an aligned in-range
index. -/
def line.inschars (l : line) (chars : List character) (at_ : Int) : line :=
  ⟨l.buffer.take at_.toNat ++ chars ++ l.buffer.drop at_.toNat⟩

/-- The source method `line.delchar` (`slices.Delete(buffer, at, at+1)`).
Go panics when `at_` is out of range; the embedding returns the line
unchanged there (`deletecursorchar` and `delnl` always pass an existing
index, except through states that are themselves the subject of the claims
below). -/
def line.delchar (l : line) (at_ : Int) : line :=
  if 0 ≤ at_ ∧ at_ < l.length then ⟨l.buffer.eraseIdx at_.toNat⟩ else l

/-- The source method `line.delnl`. -/
def line.delnl (l : line) : line :=
  l.delchar (l.length - 1)

/-- The source method `line.clear`. -/
def line.clear (_ : line) : line := newemptyline

/-- The source method `line.empty`. -/
def line.empty (l : line) : Bool :=
  l.length == 1 && (geti l.buffer 0 (newcharacter 10)).nl

/-
 * tokenizer
-/

/-- The source enum `tokentype`. -/
inductive tokentype
  | tk_unknown
  | tk_ident
  | tk_keyword
  | tk_string
  | tk_multilinestring
  | tk_number
  | tk_operator
  | tk_symbol
  | tk_linecomment
  | tk_blockcomment
  | tk_whitespace
  | tk_nl
deriving DecidableEq, Repr

export tokentype (tk_unknown tk_ident tk_keyword tk_string tk_multilinestring
  tk_number tk_operator tk_symbol tk_linecomment tk_blockcomment tk_whitespace tk_nl)

/-- The source struct `token`.  The Go field `end` is a reserved word in
Lean and is embedded as `end_`. -/
structure token where
  typ : tokentype
  start : Int
  end_ : Int
  blockcommentterminated : Bool := false
  multilinestrterminated : Bool := false
  multilinestrstart : List Nat := []
  multilinestrend : List Nat := []
deriving DecidableEq, Repr

/-- The source struct `lineattribute`: the per-line colors and the tokenizer
carry flags. -/
structure lineattribute where
  colors : List Int := []
  inblockcomment : Bool := false
  inmultilinestr : Bool := false
  multilinestrstart : List Nat := []
  multilinestrend : List Nat := []
deriving DecidableEq, Repr

/-- The language-configuration fields of the source struct
`clikelanglinetokenizer` (the mutable `line` and `pos` fields are threaded
explicitly through the functions below).  Strings are embedded as code-point
sequences. -/
structure clikelanglinetokenizer where
  linecommentstart : List Nat := []
  blockcommentstart : List Nat := []
  blockcommentend : List Nat := []
  stringstarts : List (List Nat) := []
  stringends : List (List Nat) := []
  rawstringstarts : List (List Nat) := []
  rawstringends : List (List Nat) := []
  multilinestringstarts : List (List Nat) := []
  multilinestringends : List (List Nat) := []
  keywords : List (List Nat) := []
  symbols : List (List Nat) := []
  operators : List (List Nat) := []
  operators2 : List (List Nat) := []
  operators3 : List (List Nat) := []
deriving DecidableEq, Repr

/-- Go's `unicode.IsSpace` restricted to the Latin-1 range (the full table
additionally contains the higher Zs code points; the language
configurations, the concrete inputs of the theorems below, and the
structural theorems about the tokenizer do not depend on which code points
beyond this range count as spaces). -/
def unicodeisspace (r : Nat) : Bool :=
  r == 9 || r == 10 || r == 11 || r == 12 || r == 13 ||
  r == 32 || r == 133 || r == 160

/-- Go's `unicode.IsDigit` restricted to the ASCII digits (the full Nd
category adds only higher code points, on which no theorem below
depends). -/
def unicodeisdigit (r : Nat) : Bool :=
  48 ≤ r && r ≤ 57

/-- Go's `unicode.IsLetter` restricted to the ASCII letters (the full L
category adds only higher code points, on which no theorem below
depends). -/
def unicodeisletter (r : Nat) : Bool :=
  (65 ≤ r && r ≤ 90) || (97 ≤ r && r ≤ 122)

/-- The zero-value `&character{}` returned by `peek`/`peek2` past the end
of the line. -/
def emptycharacter : character :=
  { r := 0, tab := false, nl := false, width := 0 }

/-- Read `line.buffer[i]`; Go panics out of range, every use below is
guarded by the same bounds checks as the source. -/
def bufat (l : line) (i : Int) : character :=
  geti l.buffer i emptycharacter

/-- The source method `clikelanglinetokenizer.peek`. -/
def peekch (l : line) (pos : Int) : character :=
  if l.length ≤ pos + 1 then emptycharacter else bufat l (pos + 1)

/-- The source method `clikelanglinetokenizer.peek2`. -/
def peek2ch (l : line) (pos : Int) : character :=
  if l.length ≤ pos + 2 then emptycharacter else bufat l (pos + 2)

/-- The inner matching loops of `readblockcomment`, `readstring` and
`readmultilinestring`: whether the code points of `seq` occur in the buffer
starting at `pos` (the call sites guarantee `pos + seq.length ≤ length - 1`,
mirroring the source's bounds guard). -/
def matchesat (l : line) : List Nat → Int → Bool
  | [], _ => true
  | q :: qs, pos => (bufat l pos).r == q && matchesat l qs (pos + 1)

/-- The loop of the source method `readwhitespace`, written structurally on
a fuel counter so that the kernel can evaluate it.  The wrapper passes
`(length - pos).toNat`, which dominates the remaining iteration count; at
fuel 0 the guard `pos < length - 1` is false anyway, so the 0 case returns
`pos` exactly as the exhausted loop would. -/
def wsscanF (l : line) : Nat → Int → Int
  | 0, pos => pos
  | fuel + 1, pos =>
      if pos < l.length - 1 ∧ (unicodeisspace (bufat l pos).r || (bufat l pos).tab) = true then
        wsscanF l fuel (pos + 1)
      else pos

/-- The loop of the source method `readwhitespace`: advance while the
character is a space or a tab and the terminal newline has not been
reached. -/
def wsscan (l : line) (pos : Int) : Int :=
  wsscanF l (l.length - pos).toNat pos

/-- The source method `readwhitespace` (entered with `start = t.pos`). -/
def readwhitespace (l : line) (start : Int) : token × Int :=
  let p := wsscan l start
  ({ typ := tk_whitespace, start := start, end_ := p }, p)

/-- The source method `readlinecomment`: skip the comment opener, then the
loop advances to the terminal newline (a no-op when already past it). -/
def readlinecomment (cfg : clikelanglinetokenizer) (l : line) (start : Int) :
    token × Int :=
  let p := start + (cfg.linecommentstart.length : Int)
  let p2 := if p < l.length - 1 then l.length - 1 else p
  ({ typ := tk_linecomment, start := start, end_ := p2 }, p2)

/-- The loop of the source method `readblockcomment`, structurally on fuel
(the wrapper's fuel dominates the iteration count; at fuel 0 the loop guard
is false, so the 0 case returns the loop-exit value). -/
def bcscanF (l : line) (endseq : List Nat) : Nat → Int → Int × Bool
  | 0, pos => (pos, false)
  | fuel + 1, pos =>
      if pos < l.length - 1 then
        if l.length - 1 < pos + (endseq.length : Int) then bcscanF l endseq fuel (pos + 1)
        else if matchesat l endseq pos then (pos + (endseq.length : Int), true)
        else bcscanF l endseq fuel (pos + 1)
      else (pos, false)

/-- The loop of the source method `readblockcomment`: scan for the comment
closer, returning the final position and whether it was found. -/
def bcscan (l : line) (endseq : List Nat) (pos : Int) : Int × Bool :=
  bcscanF l endseq (l.length - pos).toNat pos

/-- The source method `readblockcomment`.  `tkstart` is the `start`
argument (0 on the carry path), `pos` the current scan position. -/
def readblockcomment (cfg : clikelanglinetokenizer) (l : line)
    (tkstart pos : Int) (firstline : Bool) : token × Int :=
  let pos := if firstline then pos + (cfg.blockcommentstart.length : Int) else pos
  let sc := bcscan l cfg.blockcommentend pos
  ({ typ := tk_blockcomment, start := tkstart, end_ := sc.1,
     blockcommentterminated := sc.2 }, sc.1)

/-- The loop of the source method `readstring`, structurally on fuel (the
wrapper's fuel dominates the iteration count; at fuel 0 the loop guard is
false, so the 0 case returns the loop-exit value). -/
def strscanF (l : line) (endq : List Nat) (esc : Bool) : Nat → Int → Int
  | 0, pos => pos
  | fuel + 1, pos =>
      if pos < l.length - 1 then
        if l.length - 1 < pos + (endq.length : Int) then strscanF l endq esc fuel (pos + 1)
        else if matchesat l endq pos then pos + (endq.length : Int)
        else if esc ∧ (bufat l pos).r = 92 ∧ pos + 1 < l.length - 1 then
          strscanF l endq esc fuel (pos + 2)
        else strscanF l endq esc fuel (pos + 1)
      else pos

/-- The loop of the source method `readstring`: scan for the closing quote,
honouring backslash escapes when `esc` is set. -/
def strscan (l : line) (endq : List Nat) (esc : Bool) (pos : Int) : Int :=
  strscanF l endq esc (l.length - pos).toNat pos

/-- The source method `readstring`. -/
def readstring (l : line) (start : Int) (startquote endquote : List Nat)
    (considerescape : Bool) : token × Int :=
  let p := strscan l endquote considerescape (start + (startquote.length : Int))
  ({ typ := tk_string, start := start, end_ := p }, p)

/-- The loop of the source method `readmultilinestring`, structurally on
fuel (textually the same loop as `readblockcomment`'s, kept separate to
mirror the source). -/
def mlscanF (l : line) (endq : List Nat) : Nat → Int → Int × Bool
  | 0, pos => (pos, false)
  | fuel + 1, pos =>
      if pos < l.length - 1 then
        if l.length - 1 < pos + (endq.length : Int) then mlscanF l endq fuel (pos + 1)
        else if matchesat l endq pos then (pos + (endq.length : Int), true)
        else mlscanF l endq fuel (pos + 1)
      else (pos, false)

/-- The loop of the source method `readmultilinestring`. -/
def mlscan (l : line) (endq : List Nat) (pos : Int) : Int × Bool :=
  mlscanF l endq (l.length - pos).toNat pos

/-- The source method `readmultilinestring`. -/
def readmultilinestring (l : line) (tkstart pos : Int) (firstline : Bool)
    (startquote endquote : List Nat) : token × Int :=
  let pos := if firstline then pos + (startquote.length : Int) else pos
  let sc := mlscan l endquote pos
  ({ typ := tk_multilinestring, start := tkstart, end_ := sc.1,
     multilinestrterminated := sc.2, multilinestrstart := startquote,
     multilinestrend := endquote }, sc.1)

/-- The digit/underscore run loop of `readnumber`, structurally on fuel
(at fuel 0 the bound `pos < length` is false, so the 0 case returns the
loop-exit value). -/
def digitscanF (l : line) : Nat → Int → Int
  | 0, pos => pos
  | fuel + 1, pos =>
      if pos < l.length ∧ (unicodeisdigit (bufat l pos).r || (bufat l pos).r == 95) = true then
        digitscanF l fuel (pos + 1)
      else pos

/-- The digit/underscore run loop shared by the three phases of the source
method `readnumber` (bounded by `length`, not `length - 1`; the terminal
newline's zero code point stops it). -/
def digitscan (l : line) (pos : Int) : Int :=
  digitscanF l (l.length - pos).toNat pos

/-- The source method `readnumber`: integer part, optional fraction,
optional exponent. -/
def readnumber (l : line) (start : Int) : token × Int :=
  let p1 := digitscan l start
  let p2 := if p1 < l.length ∧ (bufat l p1).r = 46 then digitscan l (p1 + 1) else p1
  let p3 :=
    if p2 < l.length ∧ ((bufat l p2).r = 101 ∨ (bufat l p2).r = 69) then
      let q := p2 + 1
      let q2 := if q < l.length ∧ ((bufat l q).r = 43 ∨ (bufat l q).r = 45) then q + 1 else q
      digitscan l q2
    else p2
  ({ typ := tk_number, start := start, end_ := p3 }, p3)

/-- The identifier run loop of `readident`, structurally on fuel. -/
def identscanF (l : line) : Nat → Int → Int
  | 0, pos => pos
  | fuel + 1, pos =>
      if pos < l.length ∧ (unicodeisletter (bufat l pos).r || unicodeisdigit (bufat l pos).r || (bufat l pos).r == 95) = true then
        identscanF l fuel (pos + 1)
      else pos

/-- The identifier run loop of the source method `readident`. -/
def identscan (l : line) (pos : Int) : Int :=
  identscanF l (l.length - pos).toNat pos

/-- The source method `line.substring` in code points: the display strings
of the characters `from_ ≤ i < to_`, which for the identifier and operator
characters reaching it are exactly their code points (tabs and newlines
display as spaces and carry code point 0, and no keyword or operator
contains a space or code point 0, so membership tests agree with the
source's string comparison). -/
def subrunes (l : line) (from_ to_ : Int) : List Nat :=
  (List.range (to_ - from_).toNat).map (fun i => (bufat l (from_ + (i : Int))).r)

/-- The source method `readident`: consume the identifier, then retag as a
keyword when the consumed text is in the keyword table. -/
def readident (cfg : clikelanglinetokenizer) (l : line) (start : Int) :
    token × Int :=
  let p := identscan l start
  let typ := if cfg.keywords.contains (subrunes l start p) then tk_keyword else tk_ident
  ({ typ := typ, start := start, end_ := p }, p)

/-- The source method `readsymbol`: three- then two-character operator
lookup (guarded by the source's bounds tests), then one-character operator,
symbol, and finally an unknown token of width one. -/
def readsymbol (cfg : clikelanglinetokenizer) (l : line) (start : Int) :
    token × Int :=
  if start + 3 < l.length - 1 ∧ cfg.operators3.contains (subrunes l start (start + 3)) then
    ({ typ := tk_operator, start := start, end_ := start + 3 }, start + 3)
  else if start + 2 < l.length - 1 ∧ cfg.operators2.contains (subrunes l start (start + 2)) then
    ({ typ := tk_operator, start := start, end_ := start + 2 }, start + 2)
  else if cfg.operators.contains [(bufat l start).r] then
    ({ typ := tk_operator, start := start, end_ := start + 1 }, start + 1)
  else if cfg.symbols.contains [(bufat l start).r] then
    ({ typ := tk_symbol, start := start, end_ := start + 1 }, start + 1)
  else
    ({ typ := tk_unknown, start := start, end_ := start + 1 }, start + 1)

/-- The per-start-sequence dispatch of the source's
`for i, start := range ...` loops: a 1-, 2- or 3-rune start sequence
matches via the current character, `peek` and `peek2`; other lengths never
match (the Go switch has no default case). -/
def startmatches (l : line) (pos : Int) : List Nat → Bool
  | [a] => (bufat l pos).r == a
  | [a, b] => (bufat l pos).r == a && (peekch l pos).r == b
  | [a, b, c] => (bufat l pos).r == a && (peekch l pos).r == b && (peek2ch l pos).r == c
  | _ => false

/-- First start/end pair whose start sequence matches at `pos`, in
configuration order (the source pairs `starts[i]` with `ends[i]`). -/
def firstmatch (l : line) (pos : Int) : List (List Nat × List Nat) → Option (List Nat × List Nat)
  | [] => none
  | (sq, eq_) :: rest =>
      if startmatches l pos sq then some (sq, eq_) else firstmatch l pos rest

/-- The source method `clikelanglinetokenizer.nexttoken` (entered with
`pos < length - 1`). -/
def nexttoken (cfg : clikelanglinetokenizer) (l : line) (pos : Int) : token × Int :=
  let c := bufat l pos
  if c.tab || unicodeisspace c.r then readwhitespace l pos
  else if (match cfg.linecommentstart with
           | [a] => c.r == a
           | [a, b] => c.r == a && (peekch l pos).r == b
           | _ => false) then readlinecomment cfg l pos
  else if (match cfg.blockcommentstart with
           | [a, b] => c.r == a && (peekch l pos).r == b
           | _ => false) then readblockcomment cfg l pos pos true
  else match firstmatch l pos (cfg.multilinestringstarts.zip cfg.multilinestringends) with
  | some (sq, eq_) => readmultilinestring l pos pos true sq eq_
  | none =>
    match firstmatch l pos (cfg.stringstarts.zip cfg.stringends) with
    | some (sq, eq_) => readstring l pos sq eq_ true
    | none =>
      match firstmatch l pos (cfg.rawstringstarts.zip cfg.rawstringends) with
      | some (sq, eq_) => readstring l pos sq eq_ false
      | none =>
        if unicodeisdigit c.r || (c.r == 46 && unicodeisdigit (peekch l pos).r) then
          readnumber l pos
        else if unicodeisletter c.r || c.r == 95 then
          readident cfg l pos
        else
          readsymbol cfg l pos

/-- The loop of `tokenizeline`, with an explicit fuel parameter; `none`
models non-termination and is refuted by `tokenizeloop_isSome` below.  The
state mirrors the Go locals `inmultilinecomment`, `inmultilinestring`,
`multilinestrstart`, `multilinestrend`; `acc` accumulates the emitted
tokens. -/
def tokenizeloop (cfg : clikelanglinetokenizer) (l : line) :
    Nat → Int → Bool → Bool → List Nat → List Nat → List token →
    Option (List token × lineattribute)
  | 0, _, _, _, _, _, _ => none
  | fuel + 1, pos, inbc, inml, mss, mse, acc =>
      if pos < l.length - 1 then
        if inbc then
          let tp := readblockcomment cfg l 0 pos false
          tokenizeloop cfg l fuel tp.2 (!tp.1.blockcommentterminated) inml mss mse
            (acc ++ [tp.1])
        else if inml then
          let tp := readmultilinestring l 0 pos false mss mse
          tokenizeloop cfg l fuel tp.2 inbc (!tp.1.multilinestrterminated)
            tp.1.multilinestrstart tp.1.multilinestrend (acc ++ [tp.1])
        else
          let tp := nexttoken cfg l pos
          if tp.1.typ = tk_blockcomment then
            tokenizeloop cfg l fuel tp.2 (!tp.1.blockcommentterminated) inml mss mse
              (acc ++ [tp.1])
          else if tp.1.typ = tk_multilinestring then
            tokenizeloop cfg l fuel tp.2 inbc (!tp.1.multilinestrterminated)
              tp.1.multilinestrstart tp.1.multilinestrend (acc ++ [tp.1])
          else
            tokenizeloop cfg l fuel tp.2 inbc inml mss mse (acc ++ [tp.1])
      else
        some (acc ++ [{ typ := tk_nl, start := l.length, end_ := l.length - 1 }],
              { colors := [], inblockcomment := inbc, inmultilinestr := inml,
                multilinestrstart := mss, multilinestrend := mse })

/-- Fuel that always suffices for `tokenizeloop` (proved below). -/
def tokenizefuel (l : line) : Nat := 2 * l.buffer.length + 2

/-- The source method `tokenizeline` with explicit fuel. -/
def tokenizelineF (fuel : Nat) (cfg : clikelanglinetokenizer) (l : line)
    (prevlinestate : lineattribute) : Option (List token × lineattribute) :=
  tokenizeloop cfg l fuel 0 prevlinestate.inblockcomment
    prevlinestate.inmultilinestr prevlinestate.multilinestrstart
    prevlinestate.multilinestrend []

/-- The source method `tokenizeline`.  The default is unreachable: by
`tokenizeloop_isSome` the fuel `tokenizefuel l` always completes the
loop. -/
def tokenizeline (cfg : clikelanglinetokenizer) (l : line)
    (prevlinestate : lineattribute) : List token × lineattribute :=
  (tokenizelineF (tokenizefuel l) cfg l prevlinestate).getD
    ([{ typ := tk_nl, start := l.length, end_ := l.length - 1 }],
     { colors := [], inblockcomment := prevlinestate.inblockcomment,
       inmultilinestr := prevlinestate.inmultilinestr,
       multilinestrstart := prevlinestate.multilinestrstart,
       multilinestrend := prevlinestate.multilinestrend })


/-
 * highlighter
-/

/-- The source struct `theme`. -/
structure theme where
  colorident : Int
  colorkeyword : Int
  coloroperator : Int
  colorsymbol : Int
  colorstring : Int
  colormultilinestring : Int
  colornumber : Int
  colorlinecomment : Int
  colorblockcomment : Int
deriving DecidableEq, Repr

/-- The source value `theme_doraemon`. -/
def theme_doraemon : theme :=
  { colorident := 32, colorkeyword := -1, coloroperator := 220,
    colorsymbol := 220, colorstring := 160, colormultilinestring := 160,
    colornumber := 202, colorlinecomment := 240, colorblockcomment := 240 }

/-- The source value `theme_nobita`. -/
def theme_nobita : theme :=
  { colorident := 11, colorkeyword := -1, coloroperator := 27,
    colorsymbol := 27, colorstring := 180, colormultilinestring := 180,
    colornumber := 38, colorlinecomment := 240, colorblockcomment := 240 }

/-- The source value `theme_shizuka`. -/
def theme_shizuka : theme :=
  { colorident := 176, colorkeyword := 217, coloroperator := 125,
    colorsymbol := 125, colorstring := 125, colormultilinestring := 125,
    colornumber := 11, colorlinecomment := 240, colorblockcomment := 240 }

/-- The source value `theme_suneo`. -/
def theme_suneo : theme :=
  { colorident := 34, colorkeyword := 217, coloroperator := 130,
    colorsymbol := 130, colorstring := 220, colormultilinestring := 220,
    colornumber := -1, colorlinecomment := 240, colorblockcomment := 240 }

/-- The source value `theme_gian`. -/
def theme_gian : theme :=
  { colorident := 208, colorkeyword := 186, coloroperator := 21,
    colorsymbol := 21, colorstring := 216, colormultilinestring := 216,
    colornumber := 172, colorlinecomment := 240, colorblockcomment := 240 }

/-- The keywords list of the golang tokenizer configuration, as code-point sequences. -/
def golangkeywords : List (List Nat) := [
  [97,112,112,101,110,100],
  [99,111,112,121],
  [100,101,108,101,116,101],
  [108,101,110],
  [99,97,112],
  [109,97,107,101],
  [109,97,120],
  [109,105,110],
  [110,101,119],
  [99,111,109,112,108,101,120],
  [114,101,97,108],
  [105,109,97,103],
  [99,108,101,97,114],
  [99,108,111,115,101],
  [112,97,110,105,99],
  [114,101,99,111,118,101,114],
  [112,114,105,110,116],
  [112,114,105,110,116,108,110],
  [112,97,99,107,97,103,101],
  [105,109,112,111,114,116],
  [102,117,110,99],
  [100,101,102,101,114],
  [114,101,116,117,114,110],
  [102,111,114],
  [114,97,110,103,101],
  [102,111,114],
  [105,102],
  [101,108,115,101],
  [118,97,114],
  [99,111,110,115,116],
  [115,119,105,116,99,104],
  [99,97,115,101],
  [103,111,116,111],
  [102,97,108,108,116,104,114,111,117,103,104],
  [100,101,102,97,117,108,116],
  [116,121,112,101],
  [115,116,114,117,99,116],
  [105,110,116,101,114,102,97,99,101],
  [109,97,112],
  [115,101,108,101,99,116],
  [103,111],
  [99,104,97,110],
  [105,111,116,97],
  [110,105,108],
  [116,114,117,101],
  [102,97,108,115,101],
  [98,111,111,108],
  [117,105,110,116,56],
  [117,105,110,116,49,54],
  [117,105,110,116,51,50],
  [117,105,110,116,54,52],
  [105,110,116,56],
  [105,110,116,49,54],
  [105,110,116,51,50],
  [105,110,116,54,52],
  [102,108,111,97,116,51,50],
  [102,108,111,97,116,54,52],
  [99,111,109,112,108,101,120,54,52],
  [99,111,109,112,108,101,120,49,50,56],
  [115,116,114,105,110,103],
  [105,110,116],
  [117,105,110,116],
  [117,105,110,116,112,116,114],
  [98,121,116,101],
  [114,117,110,101],
  [97,110,121],
  [101,114,114,111,114],
  [99,111,109,112,97,114,97,98,108,101],
  [97,114,99,104,105,118,101],
  [116,97,114],
  [122,105,112],
  [98,117,102,105,111],
  [98,117,105,108,116,105,110],
  [98,121,116,101,115],
  [99,109,112],
  [99,111,109,112,114,101,115,115],
  [98,122,105,112,50],
  [102,108,97,116,101],
  [103,122,105,112],
  [108,122,119],
  [122,108,105,98],
  [99,111,110,116,97,105,110,101,114],
  [104,101,97,112],
  [108,105,115,116],
  [114,105,110,103],
  [99,111,110,116,101,120,116],
  [99,114,121,112,116,111],
  [97,101,115],
  [99,105,112,104,101,114],
  [100,101,115],
  [100,115,97],
  [101,99,100,104],
  [101,99,100,115,97],
  [101,100,50,53,53,49,57],
  [101,108,108,105,112,116,105,99],
  [102,105,112,115,49,52,48],
  [104,107,100,102],
  [104,109,97,99],
  [109,100,53],
  [109,108,107,101,109],
  [112,98,107,100,102,50],
  [114,97,110,100],
  [114,99,52],
  [114,115,97],
  [115,104,97,49],
  [115,104,97,50,53,54],
  [115,104,97,51],
  [115,104,97,53,49,50],
  [115,117,98,116,108,101],
  [116,108,115],
  [120,53,48,57],
  [112,107,105,120],
  [100,97,116,97,98,97,115,101],
  [115,113,108],
  [100,114,105,118,101,114],
  [100,101,98,117,103],
  [98,117,105,108,100,105,110,102,111],
  [100,119,97,114,102],
  [101,108,102],
  [103,111,115,121,109],
  [109,97,99,104,111],
  [112,101],
  [112,108,97,110,57,111,98,106],
  [101,109,98,101,100],
  [101,110,99,111,100,105,110,103],
  [97,115,99,105,105,56,53],
  [97,115,110,49],
  [98,97,115,101,51,50],
  [98,97,115,101,54,52],
  [98,105,110,97,114,121],
  [99,115,118],
  [103,111,98],
  [104,101,120],
  [106,115,111,110],
  [112,101,109],
  [120,109,108],
  [101,114,114,111,114,115],
  [101,120,112,118,97,114],
  [102,108,97,103],
  [102,109,116],
  [103,111],
  [97,115,116],
  [98,117,105,108,100],
  [99,111,110,115,116,114,97,105,110,116],
  [99,111,110,115,116,97,110,116],
  [100,111,99],
  [99,111,109,109,101,110,116],
  [102,111,114,109,97,116],
  [105,109,112,111,114,116,101,114],
  [112,97,114,115,101,114],
  [112,114,105,110,116,101,114],
  [115,99,97,110,110,101,114],
  [116,111,107,101,110],
  [116,121,112,101,115],
  [118,101,114,115,105,111,110],
  [104,97,115,104],
  [97,100,108,101,114,51,50],
  [99,114,99,51,50],
  [99,114,99,54,52],
  [102,110,118],
  [109,97,112,104,97,115,104],
  [104,116,109,108],
  [116,101,109,112,108,97,116,101],
  [105,109,97,103,101],
  [99,111,108,111,114],
  [112,97,108,101,116,116,101],
  [100,114,97,119],
  [103,105,102],
  [106,112,101,103],
  [112,110,103],
  [105,110,100,101,120],
  [115,117,102,102,105,120,97,114,114,97,121],
  [105,111],
  [102,115],
  [105,111,117,116,105,108],
  [105,116,101,114],
  [108,111,103],
  [115,108,111,103],
  [115,121,115,108,111,103],
  [109,97,112,115],
  [109,97,116,104],
  [98,105,103],
  [98,105,116,115],
  [99,109,112,108,120],
  [114,97,110,100],
  [109,105,109,101],
  [109,117,108,116,105,112,97,114,116],
  [113,117,111,116,101,100,112,114,105,110,116,97,98,108,101],
  [110,101,116],
  [104,116,116,112],
  [99,103,105],
  [99,111,111,107,105,101,106,97,114],
  [102,99,103,105],
  [104,116,116,112,116,101,115,116],
  [104,116,116,112,116,114,97,99,101],
  [104,116,116,112,117,116,105,108],
  [112,112,114,111,102],
  [109,97,105,108],
  [110,101,116,105,112],
  [114,112,99],
  [106,115,111,110,114,112,99],
  [115,109,116,112],
  [116,101,120,116,112,114,111,116,111],
  [117,114,108],
  [111,115],
  [101,120,101,99],
  [115,105,103,110,97,108],
  [117,115,101,114],
  [112,97,116,104],
  [102,105,108,101,112,97,116,104],
  [112,108,117,103,105,110],
  [114,101,102,108,101,99,116],
  [114,101,103,101,120,112],
  [115,121,110,116,97,120],
  [114,117,110,116,105,109,101],
  [99,103,111],
  [99,111,118,101,114,97,103,101],
  [100,101,98,117,103],
  [109,101,116,114,105,99,115],
  [112,112,114,111,102],
  [114,97,99,101],
  [116,114,97,99,101],
  [115,108,105,99,101,115],
  [115,111,114,116],
  [115,116,114,99,111,110,118],
  [115,116,114,105,110,103,115],
  [115,116,114,117,99,116,115],
  [115,121,110,99],
  [97,116,111,109,105,99],
  [115,121,115,99,97,108,108],
  [106,115],
  [116,101,115,116,105,110,103],
  [102,115,116,101,115,116],
  [105,111,116,101,115,116],
  [113,117,105,99,107],
  [115,108,111,103,116,101,115,116],
  [115,121,110,99,116,101,115,116],
  [116,101,120,116],
  [115,99,97,110,110,101,114],
  [116,97,98,119,114,105,116,101,114],
  [116,101,109,112,108,97,116,101],
  [112,97,114,115,101],
  [116,105,109,101],
  [116,122,100,97,116,97],
  [117,110,105,99,111,100,101],
  [117,116,102,49,54],
  [117,116,102,56],
  [117,110,105,113,117,101],
  [117,110,115,97,102,101],
  [119,101,97,107]
]

/-- The symbols list of the golang tokenizer configuration, as code-point sequences
(code points 123 and 125 are the curly brackets). -/
def golangsymbols : List (List Nat) := [
  [91],
  [93],
  [40],
  [41],
  [123],
  [125],
  [58],
  [59],
  [44],
  [46]
]

/-- The operators list of the golang tokenizer configuration, as code-point sequences. -/
def golangoperators : List (List Nat) := [
  [33],
  [43],
  [45],
  [42],
  [47],
  [37],
  [38],
  [124],
  [61],
  [60],
  [62],
  [126]
]

/-- The operators2 list of the golang tokenizer configuration, as code-point sequences. -/
def golangoperators2 : List (List Nat) := [
  [43,43],
  [45,45],
  [58,61],
  [61,61],
  [60,61],
  [62,61],
  [33,61],
  [43,61],
  [45,61],
  [42,61],
  [47,61],
  [124,61],
  [38,61],
  [37,61],
  [38,38],
  [124,124],
  [60,60],
  [62,62]
]

/-- The operators3 list of the golang tokenizer configuration, as code-point sequences. -/
def golangoperators3 : List (List Nat) := [
  [62,62,61],
  [60,60,61],
  [38,94,61]
]

/-- The keywords list of the python tokenizer configuration, as code-point sequences. -/
def pythonkeywords : List (List Nat) := [
  [70,97,108,115,101],
  [78,111,110,101],
  [84,114,117,101],
  [97,110,100],
  [97,115],
  [97,115,115,101,114,116],
  [97,115,121,110,99],
  [97,119,97,105,116],
  [98,114,101,97,107],
  [99,108,97,115,115],
  [99,111,110,116,105,110,117,101],
  [100,101,102],
  [100,101,108],
  [101,108,105,102],
  [101,108,115,101],
  [101,120,99,101,112,116],
  [102,105,110,97,108,108,121],
  [102,111,114],
  [102,114,111,109],
  [103,108,111,98,97,108],
  [105,102],
  [105,109,112,111,114,116],
  [105,110],
  [105,115],
  [108,97,109,98,100,97],
  [110,111,110,108,111,99,97,108],
  [110,111,116],
  [111,114],
  [112,97,115,115],
  [114,97,105,115,101],
  [114,101,116,117,114,110],
  [116,114,121],
  [119,104,105,108,101],
  [119,105,116,104],
  [121,105,101,108,100],
  [97,98,115],
  [97,105,116,101,114],
  [97,108,108],
  [97,110,101,120,116],
  [97,110,121],
  [97,115,99,105,105],
  [98,105,110],
  [98,111,111,108],
  [98,114,101,97,107,112,111,105,110,116],
  [98,121,116,101,97,114,114,97,121],
  [98,121,116,101,115],
  [99,97,108,108,97,98,108,101],
  [99,104,114],
  [99,108,97,115,115,109,101,116,104,111,100],
  [99,111,109,112,105,108,101],
  [99,111,109,112,108,101,120],
  [100,101,108,97,116,116,114],
  [100,105,99,116],
  [100,105,114],
  [100,105,118,109,111,100],
  [101,110,117,109,101,114,97,116,101],
  [101,118,97,108],
  [101,120,101,99],
  [102,105,108,116,101,114],
  [102,108,111,97,116],
  [102,111,114,109,97,116],
  [102,114,111,122,101,110,115,101,116],
  [103,101,116,97,116,116,114],
  [103,108,111,98,97,108,115],
  [104,97,115,97,116,116,114],
  [104,97,115,104],
  [104,101,108,112],
  [104,101,120],
  [105,100],
  [105,110,112,117,116],
  [105,110,116],
  [105,115,105,110,115,116,97,110,99,101],
  [105,115,115,117,98,99,108,97,115,115],
  [105,116,101,114],
  [108,101,110],
  [108,105,115,116],
  [108,111,99,97,108,115],
  [109,97,112],
  [109,97,120],
  [109,101,109,111,114,121,118,105,101,119],
  [109,105,110],
  [110,101,120,116],
  [111,98,106,101,99,116],
  [111,99,116],
  [111,112,101,110],
  [111,114,100],
  [112,111,119],
  [112,114,105,110,116],
  [112,114,111,112,101,114,116,121],
  [114,97,110,103,101],
  [114,101,112,114],
  [114,101,118,101,114,115,101,100],
  [114,111,117,110,100],
  [115,101,116],
  [115,101,116,97,116,116,114],
  [115,108,105,99,101],
  [115,111,114,116,101,100],
  [115,116,97,116,105,99,109,101,116,104,111,100],
  [115,116,114],
  [115,117,109],
  [115,117,112,101,114],
  [116,117,112,108,101],
  [116,121,112,101],
  [118,97,114,115],
  [122,105,112],
  [95,95,105,109,112,111,114,116,95,95]
]

/-- The symbols list of the python tokenizer configuration, as code-point sequences
(code points 123 and 125 are the curly brackets). -/
def pythonsymbols : List (List Nat) := [
  [91],
  [93],
  [40],
  [41],
  [123],
  [125],
  [58],
  [59],
  [44],
  [46]
]

/-- The operators list of the python tokenizer configuration, as code-point sequences. -/
def pythonoperators : List (List Nat) := [
  [43],
  [45],
  [42],
  [47],
  [37],
  [126],
  [38],
  [124],
  [94],
  [61],
  [60],
  [62],
  [64]
]

/-- The operators2 list of the python tokenizer configuration, as code-point sequences. -/
def pythonoperators2 : List (List Nat) := [
  [42,42],
  [47,47],
  [43,61],
  [45,61],
  [42,61],
  [47,61],
  [37,61],
  [38,61],
  [124,61],
  [94,61],
  [61,61],
  [33,61],
  [60,61],
  [62,61],
  [58,61],
  [105,115],
  [105,110],
  [111,114]
]

/-- The operators3 list of the python tokenizer configuration, as code-point sequences. -/
def pythonoperators3 : List (List Nat) := [
  [42,42,61],
  [47,47,61],
  [62,62,61],
  [60,60,61],
  [97,110,100],
  [110,111,116]
]


/-- The tokenizer configuration built by the source constructor
`newgolanghighlighter` (code points: 47 and 42 are slash and star, 34, 39
and 96 are the double, single and back quote). -/
def golangtokenizer : clikelanglinetokenizer :=
  { linecommentstart := [47, 47],
    blockcommentstart := [47, 42],
    blockcommentend := [42, 47],
    stringstarts := [[34], [39]],
    stringends := [[34], [39]],
    multilinestringstarts := [[96]],
    multilinestringends := [[96]],
    keywords := golangkeywords,
    symbols := golangsymbols,
    operators := golangoperators,
    operators2 := golangoperators2,
    operators3 := golangoperators3 }

/-- The tokenizer configuration built by the source constructor
`newpythonhighlighter` (code point 35 is the hash, 98 and 102 are the
letters b and f). -/
def pythontokenizer : clikelanglinetokenizer :=
  { linecommentstart := [35],
    stringstarts := [[34], [39], [98, 34], [102, 34]],
    stringends := [[34], [39], [34], [34]],
    multilinestringstarts := [[34, 34, 34], [39, 39, 39]],
    multilinestringends := [[34, 34, 34], [39, 39, 39]],
    keywords := pythonkeywords,
    symbols := pythonsymbols,
    operators := pythonoperators,
    operators2 := pythonoperators2,
    operators3 := pythonoperators3 }

/-- The polymorphic highlighter of a screen: the source's `nophighlighter`
or a `clikelangbasichighlighter` with its tokenizer configuration and
theme. -/
inductive highlighterty
  | nop
  | clike (cfg : clikelanglinetokenizer) (th : theme)
deriving DecidableEq, Repr

/-- The color the source's `highlightline` switch assigns to each token
type. -/
def tokencolor (th : theme) : tokentype → Int
  | tk_unknown => -1
  | tk_whitespace => -1
  | tk_nl => -1
  | tk_ident => th.colorident
  | tk_keyword => th.colorkeyword
  | tk_string => th.colorstring
  | tk_multilinestring => th.colormultilinestring
  | tk_number => th.colornumber
  | tk_operator => th.coloroperator
  | tk_symbol => th.colorsymbol
  | tk_linecomment => th.colorlinecomment
  | tk_blockcomment => th.colorblockcomment

/-- Integers `a, a+1, ..., b-1`, the index range of a Go
`for i := a; i < b; i++` loop. -/
def intsfromto (a b : Int) : List Int :=
  (List.range (b - a).toNat).map (fun i => a + (i : Int))

/-- The color-filling loops of the source's
`clikelangbasichighlighter.highlightline`: every token writes its color at
the indices `start ≤ i < end + 1`.  Go would panic on an out-of-range
write; `seti` ignores it (for the tokens produced by `tokenizeline` all
writes are in range, the synthetic `nl` token's loop body never runs). -/
def fillcolors (th : theme) (tokens : List token) (colors : List Int) : List Int :=
  tokens.foldl
    (fun cols tk =>
      (intsfromto tk.start (tk.end_ + 1)).foldl
        (fun cs i => seti cs i (tokencolor th tk.typ)) cols)
    colors

/-- The source method `highlightline` of both highlighter implementations
(`nophighlighter` returns an empty color list and no carry;
`clikelangbasichighlighter` tokenizes and colors the line). -/
def highlightline (h : highlighterty) (l : line) (prevlineattr : lineattribute) :
    lineattribute :=
  match h with
  | .nop => { colors := [] }
  | .clike cfg th =>
      let tc := tokenizeline cfg l prevlineattr
      { tc.2 with colors := fillcolors th tc.1 (List.replicate l.buffer.length (0 : Int)) }

/-- The attribute-initialization loop of the source constructor
`newscreen`: a full re-tokenization of every line from line 0, each line
fed the previous line's freshly computed attribute (line 0 gets the zero
attribute). -/
def fullrescango (h : highlighterty) (prev : lineattribute) : List line → List lineattribute
  | [] => []
  | l :: rest =>
      let a := highlightline h l prev
      a :: fullrescango h a rest

/-- Full re-tokenization of a buffer from line 0 (the loop of `newscreen`,
also the reference computation of claim C1). -/
def fullrescan (h : highlighterty) (lines : List line) : List lineattribute :=
  fullrescango h {} lines



/-
 * screen
-/

/-- The source enum `direction`. -/
inductive direction
  | up
  | down
  | left
  | right
deriving DecidableEq, Repr

/-- The source struct `cursor`: desired display column `x`, line index `y`,
and the most recently rendered absolute column `actualx`. -/
structure cursor where
  x : Int
  y : Int
  actualx : Int
deriving DecidableEq, Repr

/-- A zero cursor, used as the default of in-range indexed reads of the
cursor list (Go panics out of range; every indexed read below walks
`0 ≤ i < cursors.length`). -/
def dummycursor : cursor := { x := 0, y := 0, actualx := 0 }

/-- The source struct `screen`.  The terminal handle and the file handle are
out of scope (the file's content and extension enter through `newscreen`,
writing is `content`/`save`). -/
structure screen where
  highlighter : highlighterty
  width : Int
  height : Int
  lines : List line
  lineattrs : List lineattribute
  linenumberwidth : Int
  yankedch : Option character := none
  cursors : List cursor
  xoffset : Int := 0
  yoffset : Int := 0
  scrolled : Bool := false
  linestoberendered : List Int := []
  highlightupdatedlines : List Int := []
  dirty : Bool := false
deriving DecidableEq, Repr

/-- The do-while loop of the source function `calcdigit`, structurally on
fuel (the wrapper's fuel `n` dominates the iteration count, so the 0 case
is unreachable there). -/
def calcdigitF : Nat → Nat → Nat
  | 0, _ => 1
  | fuel + 1, n =>
      let n2 := n / 10
      if n2 = 0 then 1 else 1 + calcdigitF fuel n2

/-- The source function `calcdigit` (a do-while loop dividing by ten). -/
def calcdigit (n : Nat) : Nat := calcdigitF n n

/-- The source method `screen.updatelinenumberwidth`. -/
def updatelinenumberwidth (s : screen) : screen :=
  if s.lines.length < 10000 then { s with linenumberwidth := 4 }
  else { s with linenumberwidth := (calcdigit s.lines.length : Int) }

/-- An empty line value used as the default of in-range indexed reads of
the line list (Go panics out of range). -/
def nullline : line := { buffer := [] }

/-- The source method `screen.curline` (Go panics when `c.y` is out of
range; the call sites below either sit behind `xidx?`, which fails first,
or walk in-range indices). -/
def curline (s : screen) (c : cursor) : line :=
  geti s.lines c.y nullline

/-- `screen.curline` as an `Option`, `none` modelling the out-of-range
panic. -/
def curline? (s : screen) (c : cursor) : Option line :=
  geti? s.lines c.y

/-- The source method `screen.xidx`: the character index under the cursor,
recovered from the last rendered column.  `none` models a panic (cursor on
a nonexistent line, or `charidx` falling off the end of the line). -/
def xidx? (s : screen) (c : cursor) : Option Int := do
  let l ← curline? s c
  l.charidx? (c.actualx - s.linenumberwidth - 1) s.xoffset

/-- The source method `screen.atlinetail`. -/
def atlinetail? (s : screen) (c : cursor) : Option Bool := do
  let i ← xidx? s c
  let l ← curline? s c
  pure (i == l.length - 1)

/-- The source method `screen.registerRenderLine`. -/
def registerRenderLine (s : screen) (y : Int) : screen :=
  { s with linestoberendered := s.linestoberendered ++ [y] }

/-- The source method `screen.registerRenderLineAfter`. -/
def registerRenderLineAfter (s : screen) (after : Int) : screen :=
  { s with linestoberendered :=
      s.linestoberendered ++ intsfromto after s.lines.length }

/-- The source method `screen.movecursorfunc`, acting on the cursor at
index `i` of the cursor list (the Go version receives a pointer into the
list). -/
def movecursorfunc (s : screen) (i : Nat)
    (f : screen → cursor → Option (Int × Int)) : Option screen := do
  let c := s.cursors.getD i dummycursor
  let s := registerRenderLine s c.y
  let xy ← f s c
  let s := { s with cursors := s.cursors.set i { c with x := xy.1, y := xy.2 } }
  pure (if xy.2 ≠ c.y then registerRenderLine s xy.2 else s)

/-- The source method `screen.movecursorsfunc`: apply `f` to every cursor
in order (the Go range loop; the operations used with it do not change the
length of the cursor list). -/
def movecursorsfunc (s : screen)
    (f : screen → cursor → Option (Int × Int)) : Option screen :=
  (List.range s.cursors.length).foldlM (fun s i => movecursorfunc s i f) s

/-- The source method `screen._movecursor`: the coordinate computation of a
cursor move (`left`/`right` go through `xidx`, which can panic). -/
def movecursorgo (s : screen) (c : cursor) (d : direction) (cnt : Int) :
    Option (Int × Int) :=
  match d with
  | .up => some (c.x, max (c.y - cnt) 0)
  | .down => some (c.x, min (c.y + cnt) ((s.lines.length : Int) - 1))
  | .left => do
      let i ← xidx? s c
      let nextx := max 0 (i - cnt)
      pure ((curline s c).widthto nextx, c.y)
  | .right => do
      let i ← xidx? s c
      let nextx := min ((curline s c).length - 1) (i + cnt)
      pure ((curline s c).widthto nextx, c.y)

/-- The source method `screen.movecursors`. -/
def movecursors (s : screen) (d : direction) (cnt : Int) : Option screen :=
  movecursorsfunc s (fun s c => movecursorgo s c d cnt)

/-- The source method `screen.movecursor`, on the cursor at index `i`. -/
def movecursori (s : screen) (i : Nat) (d : direction) (cnt : Int) :
    Option screen :=
  movecursorfunc s i (fun s c => movecursorgo s c d cnt)

/-- The source method `screen.scrollhalf` (the division `(height-1)/2` of
nonnegative heights agrees between Go and `Int.tdiv`). -/
def scrollhalf (s : screen) (d : direction) : Option screen :=
  let s := { s with scrolled := true }
  let move := Int.tdiv (s.height - 1) 2
  match d with
  | .up =>
      let s := { s with yoffset := max 0 (s.yoffset - move) }
      movecursorsfunc s (fun _ c => some (c.x, max 0 (c.y - move)))
  | .down =>
      let s := { s with yoffset := min ((s.lines.length : Int) - 1) (s.yoffset + move) }
      movecursorsfunc s (fun s2 c => some (c.x, min ((s2.lines.length : Int) - 1) (c.y + move)))
  | _ => none

/-- The scanning loop of `movecursorstonextch`, structurally on fuel (at
fuel 0 the bound `i < length` is false, so the 0 case is the not-found
loop exit). -/
def findnextchF (l : line) (ch : character) : Nat → Int → Option Int
  | 0, _ => none
  | fuel + 1, i =>
      if i < l.length then
        if (bufat l i).equal ch then some i else findnextchF l ch fuel (i + 1)
      else none

/-- The scanning loop of the source method `screen.movecursorstonextch`:
the first index `i ≤ j < length` whose character equals `ch`. -/
def findnextch (l : line) (ch : character) (i : Int) : Option Int :=
  findnextchF l ch (l.length - i).toNat i

/-- The scanning loop of `movecursorstoprevch`, structurally on fuel (at
fuel 0 the bound `0 ≤ i` is false, so the 0 case is the not-found loop
exit). -/
def findprevchF (l : line) (ch : character) : Nat → Int → Option Int
  | 0, _ => none
  | fuel + 1, i =>
      if 0 ≤ i then
        if (bufat l i).equal ch then some i else findprevchF l ch fuel (i - 1)
      else none

/-- The scanning loop of the source method `screen.movecursorstoprevch`:
the first index `j ≤ i`, counting down, whose character equals `ch`. -/
def findprevch (l : line) (ch : character) (i : Int) : Option Int :=
  findprevchF l ch (i + 1).toNat i

/-- The source method `screen.movecursorstonextch` (no move when the
character does not occur to the right). -/
def movecursorstonextch (s : screen) (ch : character) : Option screen :=
  movecursorsfunc s (fun s c => do
    let l := curline s c
    let i ← xidx? s c
    let newx := match findnextch l ch (i + 1) with
                | some j => l.widthto j
                | none => c.x
    pure (newx, c.y))

/-- The source method `screen.movecursorstoprevch`. -/
def movecursorstoprevch (s : screen) (ch : character) : Option screen :=
  movecursorsfunc s (fun s c => do
    let l := curline s c
    let i ← xidx? s c
    let newx := match findprevch l ch (i - 1) with
                | some j => l.widthto j
                | none => c.x
    pure (newx, c.y))

/-- The source method `screen.movecursorstotopleft`. -/
def movecursorstotopleft (s : screen) : Option screen :=
  movecursorsfunc s (fun _ _ => some (0, 0))

/-- The source method `screen.movecursorstobottomleft`. -/
def movecursorstobottomleft (s : screen) : Option screen :=
  movecursorsfunc s (fun s _ => some (0, (s.lines.length : Int) - 1))

/-- The source method `screen.movecursorstolinebottom`. -/
def movecursorstolinebottom (s : screen) : Option screen :=
  movecursorsfunc s (fun s c => some ((curline s c).width - 1, c.y))

/-- The accumulation loop of `movecursorstononspacelinehead`: total width
of the leading run of spaces. -/
def nonspaceheadgo : List character → Int
  | [] => 0
  | c :: cs => if c.isspace then c.width + nonspaceheadgo cs else 0

/-- The source method `screen.movecursorstononspacelinehead`. -/
def movecursorstononspacelinehead (s : screen) : Option screen :=
  movecursorsfunc s (fun s c => some (nonspaceheadgo (curline s c).buffer, c.y))

/-- The source method `screen.movecursorstolinehead`. -/
def movecursorstolinehead (s : screen) : Option screen :=
  movecursorsfunc s (fun _ c => some (0, c.y))

/-- The source method `screen.movecursorstoline` (1-based, clamped to the
last line when past the end). -/
def movecursorstoline (s : screen) (ln : Int) : Option screen :=
  let ln := if (s.lines.length : Int) < ln then (s.lines.length : Int) else ln
  movecursorsfunc s (fun _ _ => some (0, ln - 1))

/-- The source method `screen.shiftcursors`: add or subtract `amount` from
the `y` of every cursor of index `≥ from_`, registering the old and new
rows; directions other than up/down are the source's panic.  The source's
in-place loop is embedded as one traversal (distinct indices do not
interact). -/
def shiftcursors (s : screen) (d : direction) (from_ : Nat) (amount : Int) :
    Option screen :=
  match d with
  | .up | .down =>
      let delta := if d = .up then -amount else amount
      some { s with
        cursors := (s.cursors.enum.map (fun p =>
          if from_ ≤ p.1 then { p.2 with y := p.2.y + delta } else p.2)),
        linestoberendered := s.linestoberendered ++
          ((s.cursors.enum.filter (fun p => from_ ≤ p.1)).flatMap
            (fun p => [p.2.y, p.2.y + delta])) }
  | _ => none

/-- The scanning loop of `addcursorbelow`, structurally on fuel (at fuel 0
the bound `i < lines.length` is false, so the 0 case is the not-found loop
exit). -/
def addbelowscanF (s : screen) (lc : cursor) : Nat → Int → Option Int
  | 0, _ => none
  | fuel + 1, i =>
      if i < (s.lines.length : Int) then
        if lc.x < (geti s.lines i nullline).width then some i
        else addbelowscanF s lc fuel (i + 1)
      else none

/-- The scanning loop of `addcursorbelow`: the first line below `lc.y`
whose width accommodates `lc.x`. -/
def addbelowscan (s : screen) (lc : cursor) (i : Int) : Option Int :=
  addbelowscanF s lc ((s.lines.length : Int) - i).toNat i

/-- The source method `screen.addcursorbelow` (a panic on an empty cursor
list, a no-op when no line below fits). -/
def addcursorbelow (s : screen) : Option screen := do
  let lc ← s.cursors.getLast?
  match addbelowscan s lc (lc.y + 1) with
  | some i =>
      pure (registerRenderLine
        { s with cursors := s.cursors ++ [{ x := lc.x, y := i, actualx := lc.actualx }] } i)
  | none => pure s

/-- The source method `screen.deletecursors`: keep only the last cursor,
registering the rows of the dropped ones. -/
def deletecursors (s : screen) : screen :=
  { s with
    linestoberendered := s.linestoberendered ++ s.cursors.dropLast.map (fun c => c.y),
    cursors := s.cursors.drop (s.cursors.length - 1) }

/-- Insert `a` at index `i` (`slices.Insert`); Go panics out of range,
call sites below are in range. -/
def insertat {α : Type} (xs : List α) (i : Int) (a : α) : List α :=
  xs.take i.toNat ++ [a] ++ xs.drop i.toNat

/-- Remove the element at index `i` (`slices.Delete(xs, i, i+1)`); Go
panics out of range, call sites below are in range. -/
def removeat {α : Type} (xs : List α) (i : Int) : List α :=
  if 0 ≤ i ∧ i < (xs.length : Int) then xs.eraseIdx i.toNat else xs

/-- The source method `screen.insline`: insert an empty line (and a zero
line attribute) above or below the cursor's row. -/
def insline (s : screen) (c : cursor) (d : direction) : Option screen := do
  let s ←
    match d with
    | direction.up =>
        some { s with lines := insertat s.lines c.y newemptyline,
                      lineattrs := insertat s.lineattrs c.y {} }
    | direction.down =>
        some { s with lines := insertat s.lines (c.y + 1) newemptyline,
                      lineattrs := insertat s.lineattrs (c.y + 1) {} }
    | _ => none
  let s := registerRenderLineAfter s c.y
  pure (updatelinenumberwidth { s with dirty := true })

/-- The source method `screen.delline`. -/
def delline (s : screen) (y : Int) : screen :=
  let s := registerRenderLineAfter s y
  let s := { s with lines := removeat s.lines y, lineattrs := removeat s.lineattrs y }
  updatelinenumberwidth s

/-- The source method `screen.joinlines` (`from_` and `to_` inclusive):
first append lines `from_+1 .. to_` onto line `from_`, each append preceded
by dropping `from_`'s trailing newline; then delete the joined lines (the
source deletes index `from_+1 .. to_` in ascending order, after the shifts
of the earlier deletions — every claim below joins two adjacent lines,
where this equals deleting `to_`). -/
def joinlines (s : screen) (from_ to_ : Int) : screen :=
  let s := (intsfromto (from_ + 1) (to_ + 1)).foldl
    (fun s i =>
      let base := geti s.lines from_ nullline
      let other := geti s.lines i nullline
      { s with lines := seti s.lines from_ { buffer := base.delnl.buffer ++ other.buffer } })
    s
  let s := (intsfromto (from_ + 1) (to_ + 1)).foldl (fun s i => delline s i) s
  let s := registerRenderLineAfter s from_
  updatelinenumberwidth { s with dirty := true }

/-- The source method `screen.insertcharsatcursors`: for each cursor align
its `x`, splice in the characters, move every cursor right by the insertion
length, and mark the row dirty. -/
def insertcharsatcursors (s : screen) (chars : List character) : Option screen :=
  (List.range s.cursors.length).foldlM
    (fun s i => do
      let c := s.cursors.getD i dummycursor
      let j ← xidx? s c
      let s := { s with cursors := s.cursors.set i { c with x := (curline s c).widthto j } }
      let c := s.cursors.getD i dummycursor
      let j2 ← xidx? s c
      let s := { s with lines := seti s.lines c.y ((curline s c).inschars chars j2) }
      let s ← movecursors s direction.right chars.length
      let c2 := s.cursors.getD i dummycursor
      pure (registerRenderLine s c2.y))
    s

/-- The source method `screen.deletecursorchar`: at the line tail with a
line below, join the two lines and shift the later cursors up; otherwise
delete the character under the cursor. -/
def deletecursorchar (s : screen) : Option screen :=
  (List.range s.cursors.length).foldlM
    (fun s i => do
      let c := s.cursors.getD i dummycursor
      let tail ← atlinetail? s c
      if tail ∧ c.y + 1 < (s.lines.length : Int) then do
        let s := joinlines s c.y (c.y + 1)
        shiftcursors s direction.up (i + 1) 1
      else do
        let j ← xidx? s c
        let s := { s with lines := seti s.lines c.y ((curline s c).delchar j),
                          dirty := true }
        pure (registerRenderLine s c.y))
    s

/-- The source method `screen.deletecursorprevchar`: at the line head (and
not on line 0) join the previous and current line, put the cursor at the
previous line's old right edge, move it up, and shift the cursors from
index `i` on up by one; otherwise move left and delete. -/
def deletecursorprevchar (s : screen) : Option screen :=
  (List.range s.cursors.length).foldlM
    (fun s i => do
      let c := s.cursors.getD i dummycursor
      let j ← xidx? s c
      if j = 0 then
        if c.y ≠ 0 then do
          let s := registerRenderLineAfter s c.y
          let nextx := (geti s.lines (c.y - 1) nullline).width - 1
          let s := joinlines s (c.y - 1) c.y
          let s ← movecursori s i direction.up 1
          let c2 := s.cursors.getD i dummycursor
          let s := { s with cursors := s.cursors.set i { c2 with x := nextx } }
          shiftcursors s direction.up i 1
        else pure s
      else do
        let s ← movecursori s i direction.left 1
        let c2 := s.cursors.getD i dummycursor
        let j2 ← xidx? s c2
        let s := { s with lines := seti s.lines c2.y ((curline s c2).delchar (j2 - 1)) }
        pure (registerRenderLine s c2.y))
    s

/-- The source method `screen.insertlinefromcursors`. -/
def insertlinefromcursors (s : screen) (d : direction) : Option screen :=
  (List.range s.cursors.length).foldlM
    (fun s i => do
      let c := s.cursors.getD i dummycursor
      let s ← insline s c d
      let s ← shiftcursors s direction.down (i + 1) 1
      movecursori s i d 1)
    s

/-- The source method `screen.replacecursorchar`. -/
def replacecursorchar (s : screen) (ch : character) : Option screen := do
  let s ← (List.range s.cursors.length).foldlM
    (fun s i => do
      let c := s.cursors.getD i dummycursor
      let j ← xidx? s c
      let s := { s with lines := seti s.lines c.y ((curline s c).replacech ch j) }
      pure (registerRenderLine s c.y))
    s
  pure { s with dirty := true }

/-- The source method `screen.splitcursorsline`: for each cursor keep the
prefix before the cursor on the current line, insert a line below carrying
the suffix (without the old trailing newline), put the cursor at column 0
of the new line, and shift the later cursors down. -/
def splitcursorsline (s : screen) : Option screen := do
  let s ← (List.range s.cursors.length).foldlM
    (fun s i => do
      let c := s.cursors.getD i dummycursor
      let s := registerRenderLineAfter s c.y
      let curl := curline s c
      let nextl := curline s c
      let curidx ← xidx? s c
      let pref := line.inschars newemptyline (curl.buffer.take curidx.toNat) 0
      let s := { s with lines := seti s.lines c.y pref }
      let s ← insline s c direction.down
      let s ← movecursori s i direction.down 1
      let c2 := s.cursors.getD i dummycursor
      let suff := (curline s c2).inschars ((nextl.buffer.drop curidx.toNat).dropLast) 0
      let s := { s with lines := seti s.lines c2.y suff }
      let s := { s with cursors := s.cursors.set i { c2 with x := 0 } }
      shiftcursors s direction.down (i + 1) 1)
    s
  pure { s with dirty := true }

/-- Ascending insertion into a sorted integer list (the embedding of
`slices.Sort` on the dirty-line list). -/
def insints (a : Int) : List Int → List Int
  | [] => [a]
  | b :: bs => if a ≤ b then a :: b :: bs else b :: insints a bs

/-- `slices.Sort` on integers, as an insertion sort (same sorted result). -/
def sortints (xs : List Int) : List Int := xs.foldr insints []

/-- `slices.Compact` on integers: collapse runs of equal adjacent values. -/
def dedupadjints : List Int → List Int
  | [] => []
  | [a] => [a]
  | a :: b :: rest =>
      if a = b then dedupadjints (b :: rest) else a :: dedupadjints (b :: rest)

/-- The rescan loop of the source method `screen.highlightchangedlines`:
from line `i` re-tokenize downward; past the last dirty line `lastd`, stop
at the first line whose recomputed carry flags equal the stored ones.
`none` models the panics of `s.lineattrs[i-1]` / `s.lines[i]` /
`s.lineattrs[i]` on a negative or parity-breaking index. -/
def hclloopF (h : highlighterty) (lines : List line) (lastd : Int) :
    Nat → Int → List lineattribute → List Int →
    Option (List lineattribute × List Int)
  | 0, _, _, _ => none
  | fuel + 1, i, attrs, upd =>
      if i < (lines.length : Int) then do
        let prev ← if i = 0 then some {} else geti? attrs (i - 1)
        let l ← geti? lines i
        let newattr := highlightline h l prev
        let cur ← geti? attrs i
        let upd2 := upd ++ [i]
        if lastd < i ∧ cur.inblockcomment = newattr.inblockcomment ∧
            cur.inmultilinestr = newattr.inmultilinestr then
          some (seti attrs i newattr, upd2)
        else
          hclloopF h lines lastd fuel (i + 1) (seti attrs i newattr) upd2
      else some (attrs, upd)

/-- The rescan loop with its fuel instantiated: a nonnegative start runs at
most `lines.length - i + 1` iterations, and a negative start fails on its
first iteration (`lineattrs[i-1]`), so `lines.length + 2` always reaches
the loop's own exit. -/
def hclloop (h : highlighterty) (lines : List line) (lastd : Int) (i : Int)
    (attrs : List lineattribute) (upd : List Int) :
    Option (List lineattribute × List Int) :=
  hclloopF h lines lastd (lines.length + 2) i attrs upd

/-- The source method `screen.highlightchangedlines`: no-op on an empty
dirty set; otherwise sort and dedup the dirty lines and run the incremental
rescan from the smallest one. -/
def highlightchangedlines (s : screen) : Option screen :=
  if s.linestoberendered.isEmpty then some s
  else
    let sorted := dedupadjints (sortints s.linestoberendered)
    let s := { s with linestoberendered := sorted }
    match hclloop s.highlighter s.lines (sorted.getLastD 0) (sorted.headD 0)
        s.lineattrs s.highlightupdatedlines with
    | some au => some { s with lineattrs := au.1, highlightupdatedlines := au.2 }
    | none => none

/-- The comparator of the source method `screen.cleanupcursors`. -/
def cursorcmp (c1 c2 : cursor) : Int :=
  if c1.x = c2.x ∧ c1.y = c2.y then 0
  else if c1.y ≠ c2.y then (if c1.y > c2.y then 1 else -1)
  else if c1.x > c2.x then 1 else -1

/-- Insertion into a list sorted by `cursorcmp` (the embedding of
`slices.SortFunc`; the source's unstable sort is deterministic up to the
order of `(x, y)`-equal cursors, which the following compaction collapses
anyway). -/
def inscursor (c : cursor) : List cursor → List cursor
  | [] => [c]
  | d :: ds => if cursorcmp c d ≤ 0 then c :: d :: ds else d :: inscursor c ds

/-- `slices.SortFunc(cursors, cursorcmp)`. -/
def sortcursors (cs : List cursor) : List cursor := cs.foldr inscursor []

/-- The run-collapsing tail of `slices.CompactFunc` on cursors: drop every
element equal (in `(x, y)`) to the last kept element `a`. -/
def compactafter (a : cursor) : List cursor → List cursor
  | [] => []
  | b :: rest =>
      if a.x = b.x ∧ a.y = b.y then compactafter a rest
      else b :: compactafter b rest

/-- `slices.CompactFunc` on cursors: drop adjacent cursors with equal
`(x, y)`, keeping the first of each run. -/
def compactcursors : List cursor → List cursor
  | [] => []
  | a :: rest => a :: compactafter a rest

/-- The source method `screen.cleanupcursors`. -/
def cleanupcursors (s : screen) : screen :=
  { s with cursors := compactcursors (sortcursors s.cursors) }

/-- One step of the cursor-list update performed by `movecursorfunc` when
the coordinate function is constant: set the cursor at index `i` to the
given coordinates, keeping its `actualx`. -/
def setcursorxy (x y : Int) (cs : List cursor) (i : Nat) : List cursor :=
  cs.set i { cs.getD i dummycursor with x := x, y := y }


/-
 * file reading, newscreen, persistence
-/

/-- The `dropCR` step of `bufio.ScanLines`: strip one trailing carriage
return from a scanned token. -/
def dropcr (p : List Nat) : List Nat :=
  if p ≠ [] ∧ p.getLast? = some 13 then p.dropLast else p

/-- The `bufio.Scanner` loop of `newscreen`, structurally on fuel (each
step strips at least one code point, so the wrapper's fuel `f.length`
dominates the iteration count and the 0 case is unreachable there). -/
def scanlinesF : Nat → List Nat → List (List Nat)
  | _, [] => []
  | 0, _ => []
  | fuel + 1, f =>
      let tok := f.takeWhile (fun r => r ≠ 10)
      let rest := (f.dropWhile (fun r => r ≠ 10)).drop 1
      dropcr tok :: scanlinesF fuel rest

/-- The `bufio.Scanner` loop of `newscreen` with the default `ScanLines`
split: the file's code points broken at newlines (no token after a final
newline, a final token for a trailing fragment, one trailing carriage
return dropped per token). -/
def scanlines (f : List Nat) : List (List Nat) :=
  scanlinesF f.length f

/-- The source constructor `newscreen`, taking the file's content as a list
of code points and the file's extension (the Go version reads the file
through a scanner and derives the extension from the file name; the UTF-8
decoding of valid file bytes and the re-encoding in `content` are mutually
inverse, so the embedding stays at code-point granularity). -/
def newscreen (width height : Int) (filecontent : List Nat) (filext : String)
    (th : theme) : screen :=
  let ls := (scanlines filecontent).map newline
  let ls := if ls.isEmpty then [newemptyline] else ls
  let h : highlighterty :=
    if filext = "go" ∨ filext = "go_" then highlighterty.clike golangtokenizer th
    else if filext = "py" ∨ filext = "pyi" then highlighterty.clike pythontokenizer th
    else highlighterty.nop
  updatelinenumberwidth
    { highlighter := h, width := width, height := height, lines := ls,
      lineattrs := fullrescan h ls, linenumberwidth := 0,
      cursors := [{ x := 0, y := 0, actualx := 0 }], xoffset := 0, yoffset := 0 }

/-- The per-character byte emission of the source method `screen.content`:
a tab emits the tab byte, a newline the newline byte, anything else the
UTF-8 encoding of its code point (kept at code-point granularity here). -/
def chbytes (ch : character) : List Nat :=
  if ch.tab then [9] else if ch.nl then [10] else [ch.r]

/-- The source method `screen.content`. -/
def content (s : screen) : List Nat :=
  s.lines.flatMap (fun l => l.buffer.flatMap chbytes)

/-- The source method `screen.save`: truncate, seek to zero, write
`content`; the written bytes are returned alongside the screen with its
dirty flag cleared. -/
def save (s : screen) : List Nat × screen :=
  (content s, { s with dirty := false })

/-
 * mode, input and the keystroke handler
-/

/-- The source enum `mode`. -/
inductive mode
  | normal
  | insert
  | command
deriving DecidableEq, Repr

/-- The source enum `key` (Go names carry a leading underscore). -/
inductive key
  | not_special_key
  | unknown
  | lf
  | cr
  | tab
  | esc
  | bs
  | up
  | down
  | right
  | left
  | home
  | end_
  | insert
  | del
  | pageup
  | pagedown
  | ctrl_a
  | ctrl_b
  | ctrl_c
  | ctrl_d
  | ctrl_e
  | ctrl_f
  | ctrl_g
  | ctrl_h
  | ctrl_i
  | ctrl_j
  | ctrl_k
  | ctrl_l
  | ctrl_m
  | ctrl_n
  | ctrl_o
  | ctrl_p
  | ctrl_q
  | ctrl_r
  | ctrl_s
  | ctrl_t
  | ctrl_u
  | ctrl_v
  | ctrl_w
  | ctrl_x
  | ctrl_y
  | ctrl_z
deriving DecidableEq, Repr

/-- The source struct `input`: a decoded keystroke. -/
structure input where
  r : Nat := 0
  special : key := key.not_special_key
deriving DecidableEq, Repr

/-- The source method `input.isnumber`. -/
def isnumber (i : input) : Bool × Int :=
  if i.special ≠ key.not_special_key then (false, 0)
  else
    let n : Int := (i.r : Int) - 48
    if n < 0 ∨ 9 < n then (false, 0) else (true, n)

/-- The blocking `reader.read`, modelled on a finite script of pending
inputs; an exhausted script delivers the ignored `unknown` key (a real
reader would block instead — the handler theorems quantify over every
script). -/
def readinput : List input → input × List input
  | [] => ({ r := 0, special := key.unknown }, [])
  | i :: rest => (i, rest)

/-- The leading-count loop of the source method `screen.handle`: keep
reading digits, accumulating the decimal count, until a non-digit arrives
(which becomes the command key). -/
def countloop (num : Int) (stream : List input) : Int × input × List input :=
  match stream with
  | [] =>
      let ir := readinput []
      (num, ir.1, ir.2)
  | i :: rest =>
      let bn := isnumber i
      if bn.1 then countloop (num * 10 + bn.2) rest else (num, i, rest)

/-- The source method `screen.handle`: decode an optional leading count,
dispatch the key in the current mode, then run the incremental highlight
and the cursor cleanup.  `none` models a panic anywhere in the dispatched
operation (including the source's own `panic` on `command` mode, which the
editor never routes here).  Returns the new mode, the new screen and the
unconsumed input script. -/
def handle (s : screen) (curmode : mode) (buff : input) (stream : List input) :
    Option (mode × screen × List input) := do
  let bn := isnumber buff
  let parsed :=
    if curmode = mode.normal ∧ bn.1 = true then
      let r := countloop bn.2 stream
      (true, r.1, r.2.1, r.2.2)
    else (false, 1, buff, stream)
  let numinput := parsed.1
  let num0 := parsed.2.1
  let buff := parsed.2.2.1
  let stream := parsed.2.2.2
  let num := if num0 = 0 then 1 else num0
  let (newmode, s2, stream2) ←
    (match curmode with
     | mode.normal =>
       (match buff.special with
        | key.left => (movecursors s direction.left num).map (fun s => (mode.normal, s, stream))
        | key.down => (movecursors s direction.down num).map (fun s => (mode.normal, s, stream))
        | key.up => (movecursors s direction.up num).map (fun s => (mode.normal, s, stream))
        | key.right => (movecursors s direction.right num).map (fun s => (mode.normal, s, stream))
        | key.ctrl_u => (scrollhalf s direction.up).map (fun s => (mode.normal, s, stream))
        | key.ctrl_d => (scrollhalf s direction.down).map (fun s => (mode.normal, s, stream))
        | key.not_special_key =>
          if buff.r = 67 then (addcursorbelow s).map (fun s => (mode.normal, s, stream))
          else if buff.r = 44 then some (mode.normal, deletecursors s, stream)
          else if buff.r = 100 then (deletecursorchar s).map (fun s => (mode.normal, s, stream))
          else if buff.r = 111 then (insertlinefromcursors s direction.down).map (fun s => (mode.insert, s, stream))
          else if buff.r = 79 then (insertlinefromcursors s direction.up).map (fun s => (mode.insert, s, stream))
          else if buff.r = 71 then
            (if numinput then (movecursorstoline s num).map (fun s => (mode.normal, s, stream))
             else some (mode.normal, s, stream))
          else if buff.r = 103 then
            let ir := readinput stream
            let i2 := ir.1
            let rest := ir.2
            (if i2.r = 103 then (movecursorstotopleft s).map (fun s => (mode.normal, s, rest))
             else if i2.r = 101 then (movecursorstobottomleft s).map (fun s => (mode.normal, s, rest))
             else if i2.r = 108 then (movecursorstolinebottom s).map (fun s => (mode.normal, s, rest))
             else if i2.r = 115 then (movecursorstononspacelinehead s).map (fun s => (mode.normal, s, rest))
             else if i2.r = 104 then (movecursorstolinehead s).map (fun s => (mode.normal, s, rest))
             else some (mode.normal, s, rest))
          else if buff.r = 102 then
            let ir := readinput stream
            (if ir.1.special = key.not_special_key then
               (movecursorstonextch s (newcharacter ir.1.r)).map (fun s => (mode.normal, s, ir.2))
             else some (mode.normal, s, ir.2))
          else if buff.r = 70 then
            let ir := readinput stream
            (if ir.1.special = key.not_special_key then
               (movecursorstoprevch s (newcharacter ir.1.r)).map (fun s => (mode.normal, s, ir.2))
             else some (mode.normal, s, ir.2))
          else if buff.r = 114 then
            let ir := readinput stream
            (if ir.1.special = key.not_special_key then
               (replacecursorchar s (newcharacter ir.1.r)).map (fun s => (mode.normal, s, ir.2))
             else some (mode.normal, s, ir.2))
          else if buff.r = 104 then (movecursors s direction.left num).map (fun s => (mode.normal, s, stream))
          else if buff.r = 106 then (movecursors s direction.down num).map (fun s => (mode.normal, s, stream))
          else if buff.r = 107 then (movecursors s direction.up num).map (fun s => (mode.normal, s, stream))
          else if buff.r = 108 then (movecursors s direction.right num).map (fun s => (mode.normal, s, stream))
          else some (mode.normal, s, stream)
        | _ => some (mode.normal, s, stream))
     | mode.insert =>
       (match buff.special with
        | key.left => (movecursors s direction.left 1).map (fun s => (mode.insert, s, stream))
        | key.down => (movecursors s direction.down 1).map (fun s => (mode.insert, s, stream))
        | key.up => (movecursors s direction.up 1).map (fun s => (mode.insert, s, stream))
        | key.right => (movecursors s direction.right 1).map (fun s => (mode.insert, s, stream))
        | key.esc => some (mode.normal, s, stream)
        | key.cr => (splitcursorsline s).map (fun s => (mode.insert, s, stream))
        | key.bs => (deletecursorprevchar s).map (fun s => (mode.insert, s, stream))
        | key.tab => (insertcharsatcursors s [newcharacter 9]).map (fun s => (mode.insert, s, stream))
        | key.not_special_key => (insertcharsatcursors s [newcharacter buff.r]).map (fun s => (mode.insert, s, stream))
        | _ => some (mode.insert, s, stream))
     | mode.command => none)
  let s3 ← highlightchangedlines s2
  pure (newmode, cleanupcursors s3, stream2)



/-- The carriage-return check mirroring `scanlinesF` token by token: no
scanned token (before `dropCR`) ends in a carriage return. -/
def noscancrF : Nat → List Nat → Bool
  | _, [] => true
  | 0, _ => true
  | fuel + 1, f =>
      let tok := f.takeWhile (fun r => r ≠ 10)
      !(tok.getLast? == some 13) && noscancrF fuel ((f.dropWhile (fun r => r ≠ 10)).drop 1)

/-- No line of the file, as the scanner would cut it, ends in a carriage
return (on such files the `dropCR` of `bufio.ScanLines` is the identity). -/
def noscancr (f : List Nat) : Bool := noscancrF f.length f

/-- Modelled from the spec: "byte-identical up to a trailing-newline
normalization" — the saved bytes equal the original file, or the original
file with a single newline appended. -/
def trailingnormeq (f g : List Nat) : Prop := g = f ∨ g = f ++ [10]

/-
 * concrete states for the claim theorems
-/

/-- A screen open on the one-line buffer `a`, its single cursor sitting on
the trailing newline (column 1, as the renderer would have set
`actualx = x - xoffset + linenumberwidth + 1 = 6`). -/
def c2screen : screen :=
  let s := newscreen 80 24 [97, 10] "txt" theme_doraemon
  { s with cursors := [{ x := 1, y := 0, actualx := 6 }] }

/-- A screen open on the buffer `ab` / `cd`, its single cursor at the head
of line 1 (`actualx = 5` as the renderer would have set for column 0). -/
def c3screen : screen :=
  let s := newscreen 80 24 [97, 98, 10, 99, 100, 10] "txt" theme_doraemon
  { s with cursors := [{ x := 0, y := 1, actualx := 5 }] }

/-- A Python screen on the four-line buffer whose code points are given
below: line 0 is two double quotes followed by a triple single quote,
line 1 is the letter x, line 2 is a triple single quote, line 3 is the
letter x.  The cursor is on line 0 between the double quotes and the
triple quote (column 2, `actualx = 7`).  Lines 0 and 1 sit inside an open
single-quoted multi-line string, line 2 closes it, line 3 is plain code. -/
def c1screen : screen :=
  let s := newscreen 80 24
    [34, 34, 39, 39, 39, 10, 120, 10, 39, 39, 39, 10, 120, 10] "py" theme_doraemon
  { s with cursors := [{ x := 2, y := 0, actualx := 7 }] }

/-- A screen open on the buffer `foo` / `bar`, cursor at the origin. -/
def c7screen : screen :=
  newscreen 80 24 [102, 111, 111, 10, 98, 97, 114, 10] "txt" theme_doraemon

/-- A one-line screen holding the characters `cs` (plus the materialized
trailing newline) with a single cursor on line 0, used by the split/join
duality theorem. -/
def c4screen (cs : List character) (c : cursor) : screen :=
  { highlighter := highlighterty.nop, width := 80, height := 24,
    lines := [{ buffer := cs ++ [newcharacter 10] }], lineattrs := [{}],
    linenumberwidth := 4, cursors := [c], xoffset := 0, yoffset := 0 }

/-- Configurations whose comment and string start sequences contain no
zero code point (every shipped configuration satisfies this; the
materialized terminal newline character carries code point 0, so a
nonzero start sequence can never overlap it). -/
def cfgwf (cfg : clikelanglinetokenizer) : Bool :=
  cfg.linecommentstart.all (fun r => r != 0) &&
  cfg.blockcommentstart.all (fun r => r != 0) &&
  cfg.multilinestringstarts.all (fun s => s.all (fun r => r != 0)) &&
  cfg.stringstarts.all (fun s => s.all (fun r => r != 0)) &&
  cfg.rawstringstarts.all (fun s => s.all (fun r => r != 0))

/-- Modelled from the claim wording: the token list tiles the character
index range from the expected start `exp` up to `len - 1` - each non-nl
token starts where the previous one ended, the last non-nl token ends at
`len - 1`, and one final synthetic nl token covers the terminal position
`len - 1`. -/
def tiledfrom (len : Int) : Int → List token → Bool
  | _, [] => false
  | exp, t :: rest =>
      if rest.isEmpty then t.typ == tk_nl && exp == len - 1 && t.end_ == len - 1
      else !(t.typ == tk_nl) && t.start == exp && tiledfrom len t.end_ rest

/-
 * theorems
-/


/-- C2: false of the code (code bug).  With the single cursor on the
trailing newline of the last line, `deletecursorchar` takes its else
branch (`atlinetail` is true but no next line exists) and `delchar`
removes the newline character itself: the one-line buffer `a` + newline
becomes the bare character `a` with no trailing newline, and the screen is
marked dirty — not the specified no-op. -/
theorem c2_delete_at_last_line_tail_removes_newline :
    c2screen.lines.map line.buffer
        = [[{ r := 97, tab := false, nl := false, width := 1 },
            { r := 0, tab := false, nl := true, width := 1 }]]
      ∧ (deletecursorchar c2screen).map (fun s2 => (s2.lines.map line.buffer, s2.dirty))
        = some ([[{ r := 97, tab := false, nl := false, width := 1 }]], true) := by
  decide

/-- C3: false of the code (code bug).  Backspace at the head of line 1
joins the lines and moves the cursor up once via `movecursor`, but then
`shiftcursors(up, i, 1)` starts at the originating cursor's own index `i`
and decrements its `y` a second time: the cursor lands on `y = -1` instead
of the previous line's `y = 0` (the later cursors are shifted by one as
specified).  The subsequent `highlightchangedlines` of the same keystroke
then indexes `lineattrs[-2]`, so the whole `handle` call panics
(`none`). -/
theorem c3_backspace_join_moves_cursor_up_twice :
    (deletecursorprevchar c3screen).map
        (fun s2 => (s2.cursors, s2.lines.map (fun l => l.buffer.map chbytes)))
      = some ([{ x := 2, y := -1, actualx := 5 }], [[[97], [98], [99], [100], [10]]])
    ∧ handle c3screen mode.insert { special := key.bs } [] = none := by
  decide

/-- C1: false of the code (code bug).  Typing a third double quote on line
0 of `c1screen` turns its carry from an open single-quoted multi-line
string into an open double-quoted one: the carry flags
`(inBlockComment, inMultilineString)` of line 1 are unchanged
(`(false, true)` before and after), so the incremental rescan stops after
line 1 — but the carried quote pair did change, so line 2 (which closed
the old quote) and line 3 (plain code after it) now highlight differently
under a full rescan: the incremental `lineattrs` differ from the full
re-tokenization from line 0, e.g. line 3 keeps identifier colors `[32, 32]`
where the full rescan yields multi-line-string colors `[160, 160]`. -/
theorem c1_incremental_rescan_misses_quote_pair_change :
    (handle c1screen mode.insert { r := 34 } []).map
        (fun r2 => decide (r2.2.1.lineattrs = fullrescan r2.2.1.highlighter r2.2.1.lines))
      = some false
    ∧ (handle c1screen mode.insert { r := 34 } []).map
        (fun r2 => ((r2.2.1.lineattrs.getD 3 {}).colors,
          ((fullrescan r2.2.1.highlighter r2.2.1.lines).getD 3 {}).colors))
      = some ([32, 32], [160, 160]) := by
  constructor
  · decide
  · decide


/- support lemmas: cursor moves with a constant coordinate function -/

/-- `movecursorfunc` with a constant coordinate function sets the cursor at
index `i` and only appends to the dirty-line list. -/
theorem movecursorfunc_const (s : screen) (i : Nat) (x y : Int) :
    ∃ L, movecursorfunc s i (fun _ _ => some (x, y))
      = some { s with
          cursors := s.cursors.set i { s.cursors.getD i dummycursor with x := x, y := y },
          linestoberendered := L } := by
  refine ⟨if y = (s.cursors.getD i dummycursor).y
    then s.linestoberendered ++ [(s.cursors.getD i dummycursor).y]
    else s.linestoberendered ++ [(s.cursors.getD i dummycursor).y, y], ?_⟩
  simp [movecursorfunc, registerRenderLine]
  split <;> simp_all

/-- The index fold of `movecursorsfunc` with a constant coordinate function
succeeds and performs the corresponding fold of `setcursorxy`. -/
theorem movecursorsfunc_const_aux (idx : List Nat) (s : screen) (x y : Int) :
    ∃ s2, (idx.foldlM (fun s i => movecursorfunc s i (fun _ _ => some (x, y))) s) = some s2
      ∧ s2.cursors = idx.foldl (setcursorxy x y) s.cursors
      ∧ s2.lines = s.lines := by
  induction idx generalizing s with
  | nil => exact ⟨s, rfl, rfl, rfl⟩
  | cons i idx ih =>
      obtain ⟨L, hL⟩ := movecursorfunc_const s i x y
      obtain ⟨s2, h2, hc, hl⟩ := ih { s with
        cursors := s.cursors.set i { s.cursors.getD i dummycursor with x := x, y := y },
        linestoberendered := L }
      refine ⟨s2, ?_, ?_, ?_⟩
      · simp only [List.foldlM_cons, hL, Option.bind_some]
        exact h2
      · simpa [setcursorxy] using hc
      · simpa using hl

/-- `setcursorxy` folded over shifted indices leaves the head alone. -/
theorem setfold_cons (a : cursor) (cs : List cursor) (idx : List Nat) (x y : Int) :
    (idx.map Nat.succ).foldl (setcursorxy x y) (a :: cs)
      = a :: idx.foldl (setcursorxy x y) cs := by
  induction idx generalizing cs with
  | nil => rfl
  | cons i idx ih =>
      simp only [List.map_cons, List.foldl_cons]
      rw [show setcursorxy x y (a :: cs) i.succ = a :: setcursorxy x y cs i from ?_]
      · exact ih _
      · simp [setcursorxy]

/-- `setcursorxy` folded over every index is a map. -/
theorem setfold_range (cs : List cursor) (x y : Int) :
    (List.range cs.length).foldl (setcursorxy x y) cs
      = cs.map (fun c => { c with x := x, y := y }) := by
  induction cs with
  | cons c cs ih =>
      rw [List.length_cons, List.range_succ_eq_map, List.foldl_cons]
      rw [show setcursorxy x y (c :: cs) 0 = { c with x := x, y := y } :: cs from by
        simp [setcursorxy]]
      rw [setfold_cons, ih]
      rfl
  | nil => rfl

/-- `movecursorsfunc` with a constant coordinate function succeeds, maps
every cursor to the given coordinates, and leaves the lines alone. -/
theorem movecursorsfunc_const (s : screen) (x y : Int) :
    ∃ s2, movecursorsfunc s (fun _ _ => some (x, y)) = some s2
      ∧ s2.cursors = s.cursors.map (fun c => { c with x := x, y := y })
      ∧ s2.lines = s.lines := by
  obtain ⟨s2, h, hc, hl⟩ := movecursorsfunc_const_aux (List.range s.cursors.length) s x y
  exact ⟨s2, h, by rw [hc, setfold_range], hl⟩

/-- C7 counterexample: on the two-line buffer `foo` / `bar`, pressing `G`
with no leading count leaves the single cursor at line 0, not at the last
line (2nd line, 0-based `y = 1`) that the claim asserts: the source's
`case 'G'` only acts when a count was typed. -/
theorem c7_plain_G_does_not_go_to_last_line :
    (handle c7screen mode.normal { r := 71 } []).map
        (fun r2 => r2.2.1.cursors.map (fun c => (c.x, c.y)))
      = some [(0, 0)]
    ∧ ¬ ((handle c7screen mode.normal { r := 71 } []).map
        (fun r2 => r2.2.1.cursors.map (fun c => (c.x, c.y)))
      = some [(0, 1)]) := by
  constructor
  · decide
  · decide

/-- C7 as amended: `G` preceded by a decimal count `n ≥ 1` moves every
cursor to column 0 of the 1-based line `n`, clamped to the last line; `G`
with no leading count dispatches to nothing — the keystroke only runs the
common end-of-handle highlight refresh and cursor cleanup on the unchanged
screen. -/
theorem c7_goto_line_count_clamped_nocount_noop (s : screen) (n : Int)
    (hn : 1 ≤ n) :
    (∃ s2, movecursorstoline s n = some s2
       ∧ s2.cursors.map (fun c => (c.x, c.y))
           = s.cursors.map (fun _ => ((0 : Int), min n (s.lines.length : Int) - 1)))
    ∧ ∀ stream : List input,
        handle s mode.normal { r := 71 } stream
          = (highlightchangedlines s).map
              (fun s3 => (mode.normal, cleanupcursors s3, stream)) := by
  constructor
  · unfold movecursorstoline
    by_cases h : (s.lines.length : Int) < n
    · obtain ⟨s2, hs2, hc, _⟩ := movecursorsfunc_const s 0 ((s.lines.length : Int) - 1)
      refine ⟨s2, by simpa [h] using hs2, ?_⟩
      rw [hc]
      simp only [List.map_map]
      apply List.map_congr_left
      intro c _
      simp
      omega
    · obtain ⟨s2, hs2, hc, _⟩ := movecursorsfunc_const s 0 (n - 1)
      refine ⟨s2, by simpa [h] using hs2, ?_⟩
      rw [hc]
      simp only [List.map_map]
      apply List.map_congr_left
      intro c _
      simp
      omega
  · intro stream
    simp only [handle, isnumber]
    norm_num
    cases highlightchangedlines s <;> rfl

/-- C7 witness: the amended goto-line theorem applied to the `foo` / `bar`
screen with the count 5, which clamps to the last line (0-based `y = 1`). -/
theorem c7_goto_line_witness :
    (1 : Int) ≤ 5 ∧
    ((∃ s2, movecursorstoline c7screen 5 = some s2
       ∧ s2.cursors.map (fun c => (c.x, c.y))
           = c7screen.cursors.map (fun _ => ((0 : Int), min 5 (c7screen.lines.length : Int) - 1)))
    ∧ ∀ stream : List input,
        handle c7screen mode.normal { r := 71 } stream
          = (highlightchangedlines c7screen).map
              (fun s3 => (mode.normal, cleanupcursors s3, stream))) :=
  ⟨by decide, c7_goto_line_count_clamped_nocount_noop c7screen 5 (by decide)⟩

/- lemmas about charidx -/

/-- When every width is nonnegative and the buffer is nonempty, the
accumulator form of `charidxgo` fails exactly when even the full remaining
width cannot reach `cursor + 1`. -/
theorem charidxgo_eq_none_iff (cs : List character) (cursor x : Int)
    (hne : cs ≠ []) (hw : ∀ c ∈ cs, 0 ≤ c.width) :
    charidxgo cs cursor x = none ↔ x + ((cs.map character.width).sum) ≤ cursor := by
  induction cs generalizing x with
  | nil => exact absurd rfl hne
  | cons c cs ih =>
      have hc : 0 ≤ c.width := hw c (by simp)
      have hsum : 0 ≤ ((cs.map character.width).sum) := by
        apply List.sum_nonneg
        intro w hwmem
        obtain ⟨d, hd, rfl⟩ := List.mem_map.mp hwmem
        exact hw d (List.mem_cons_of_mem _ hd)
      simp only [charidxgo, List.map_cons, List.sum_cons]
      by_cases h : cursor + 1 ≤ x + c.width
      · simp only [if_pos h, reduceCtorEq, false_iff, not_le]
        omega
      · simp only [if_neg h]
        cases hcs : cs with
        | nil =>
            subst hcs
            simp only [charidxgo, Option.map_none' , List.map_nil,
              List.sum_nil, true_iff]
            omega
        | cons c2 cs2 =>
            rw [← hcs]
            have ihcs := ih (x + c.width) (by simp [hcs])
              (fun d hd => hw d (List.mem_cons_of_mem _ hd))
            cases hrec : charidxgo cs cursor (x + c.width) with
            | none =>
                have h1 : x + c.width + (cs.map character.width).sum ≤ cursor :=
                  ihcs.mp hrec
                simp only [Option.map_none' , true_iff]
                omega
            | some j =>
                have h1 : ¬ (x + c.width + (cs.map character.width).sum ≤ cursor) := by
                  intro hle
                  rw [← ihcs] at hle
                  rw [hrec] at hle
                  exact Option.noConfusion hle
                simp only [Option.map_some' , reduceCtorEq, false_iff, not_le]
                omega

/-- When `charidxgo` succeeds it yields an index into the list. -/
theorem charidxgo_lt_length (cs : List character) (cursor x i : Int)
    (h : charidxgo cs cursor x = some i) : 0 ≤ i ∧ i < (cs.length : Int) := by
  induction cs generalizing x i with
  | nil => simp [charidxgo] at h
  | cons c cs ih =>
      simp only [charidxgo] at h
      by_cases hb : cursor + 1 ≤ x + c.width
      · simp only [if_pos hb, Option.some_inj] at h
        subst h
        simp only [List.length_cons]
        constructor
        · omega
        · push_cast
          omega
      · simp only [if_neg hb] at h
        cases hrec : charidxgo cs cursor (x + c.width) with
        | none => simp [hrec] at h
        | some j =>
            rw [hrec, Option.map_some' , Option.some_inj] at h
            have := ih (x + c.width) j hrec
            simp only [List.length_cons]
            push_cast
            omega



/- support lemmas: charidx and width -/

/-- `line.width` is the total width of the buffer. -/
theorem width_eq_sum (l : line) : l.width = (l.buffer.map character.width).sum := by
  simp [line.width, line.widthto, line.length]

/-- `charidx` panics exactly when the requested display column lies past
the line's last cell. -/
theorem charidx_none_iff (l : line) (cur offsetx : Int)
    (hne : l.buffer ≠ []) (hw : ∀ ch ∈ l.buffer, 1 ≤ ch.width) :
    (l.charidx? cur offsetx = none ↔ l.width - 1 < cur + offsetx) := by
  rw [line.charidx?, charidxgo_eq_none_iff l.buffer cur (-offsetx) hne
    (fun ch hch => le_trans (by omega) (hw ch hch)), width_eq_sum]
  omega

/-- C9 (confirmed): on a line whose characters all have width at least one
and whose last element is the materialized newline, `charidx(cur, offset)`
returns an index in `[0, length)` whenever `cur + offset ≤ width - 1` and
panics whenever `cur + offset > width - 1`; consequently `screen.xidx`
panics exactly when the cursor's recovered display column
`(actualx - linenumberwidth - 1) + xoffset` exceeds `width - 1`. -/
theorem c9_charidx_total_iff_bound (l : line) (cur offsetx : Int)
    (hw : ∀ ch ∈ l.buffer, 1 ≤ ch.width) (hne : l.buffer ≠ [])
    (hnl : (l.buffer.getLastD emptycharacter).nl = true) :
    (cur + offsetx ≤ l.width - 1 →
        ∃ i, l.charidx? cur offsetx = some i ∧ 0 ≤ i ∧ i < l.length)
    ∧ (l.width - 1 < cur + offsetx → l.charidx? cur offsetx = none)
    ∧ ∀ (s : screen) (c : cursor), curline? s c = some l →
        (xidx? s c = none ↔
          l.width - 1 < (c.actualx - s.linenumberwidth - 1) + s.xoffset) := by
  refine ⟨?_, ?_, ?_⟩
  · intro hle
    cases hc : l.charidx? cur offsetx with
    | none =>
        rw [charidx_none_iff l cur offsetx hne hw] at hc
        omega
    | some i =>
        have := charidxgo_lt_length l.buffer cur (-offsetx) i hc
        exact ⟨i, rfl, this.1, by simpa [line.length] using this.2⟩
  · intro hgt
    rw [charidx_none_iff l cur offsetx hne hw]
    exact hgt
  · intro s c hcl
    rw [xidx?, hcl]
    simp only [Option.bind_eq_bind, Option.some_bind]
    exact charidx_none_iff l _ _ hne hw

/-- C9 witness: the totality bound instantiated on the line `a` + newline
at display column 1 with no horizontal offset. -/
theorem c9_charidx_witness :
    ((∀ ch ∈ (newline [97]).buffer, 1 ≤ ch.width) ∧ (newline [97]).buffer ≠ []
      ∧ ((newline [97]).buffer.getLastD emptycharacter).nl = true)
    ∧ ((1 + 0 ≤ (newline [97]).width - 1 →
        ∃ i, (newline [97]).charidx? 1 0 = some i ∧ 0 ≤ i ∧ i < (newline [97]).length)
      ∧ ((newline [97]).width - 1 < 1 + 0 → (newline [97]).charidx? 1 0 = none)
      ∧ ∀ (s : screen) (c : cursor), curline? s c = some (newline [97]) →
          (xidx? s c = none ↔
            (newline [97]).width - 1 < (c.actualx - s.linenumberwidth - 1) + s.xoffset)) :=
  ⟨⟨by decide, by decide, by decide⟩,
   c9_charidx_total_iff_bound (newline [97]) 1 0 (by decide) (by decide) (by decide)⟩


/- support lemmas: line join -/

/-- `delnl` on a line written as body-plus-final-character drops that final
character. -/
theorem delnl_concat (xs : List character) (a : character) :
    line.delnl { buffer := xs ++ [a] } = { buffer := xs } := by
  simp [line.delnl, line.delchar, line.length]
  rw [List.eraseIdx_append_of_length_le (le_refl xs.length)]
  simp

/-- `joinlines 0 1` on a two-line buffer concatenates the two bodies with a
single trailing newline. -/
theorem joinlines_adjacent (s : screen) (A B : List character)
    (hl : s.lines = [{ buffer := A ++ [newcharacter 10] }, { buffer := B ++ [newcharacter 10] }]) :
    (joinlines s 0 1).lines.map line.buffer = [A ++ B ++ [newcharacter 10]] := by
  have hft : intsfromto (0 + 1) (1 + 1) = [1] := by decide
  simp only [joinlines, hft, List.foldl_cons, List.foldl_nil]
  simp [geti, seti, delline, removeat, registerRenderLineAfter, updatelinenumberwidth,
    intsfromto, delnl_concat, hl]

/-- C4 (confirmed): splitting a line at character index `k` (Enter in
insert mode) keeps the prefix on the current line, moves the suffix without
the old trailing newline to a fresh line below, puts the cursor at column 0
of the new line, and joining the two lines immediately afterwards restores
the original character sequence with exactly one trailing newline. -/
theorem c4_split_then_join_restores_line (cs : List character) (k : Int) (cx cax : Int)
    (hnl : ∀ ch ∈ cs, ch.nl = false)
    (hk : 0 ≤ k ∧ k < (cs.length : Int))
    (hx : xidx? (c4screen cs { x := cx, y := 0, actualx := cax })
            { x := cx, y := 0, actualx := cax } = some k) :
    ∃ s1, splitcursorsline (c4screen cs { x := cx, y := 0, actualx := cax }) = some s1
      ∧ s1.lines.map line.buffer
          = [cs.take k.toNat ++ [newcharacter 10], cs.drop k.toNat ++ [newcharacter 10]]
      ∧ s1.cursors.map (fun c2 => (c2.x, c2.y)) = [(0, 1)]
      ∧ (joinlines s1 0 1).lines.map line.buffer = [cs ++ [newcharacter 10]]
      ∧ (cs ++ [newcharacter 10]).countP (fun ch => ch.nl) = 1 := by
  simp only [c4screen, xidx?, curline?, geti?, line.charidx?] at hx
  simp only [splitcursorsline, c4screen, List.length_cons, List.length_nil, List.range_succ,
    List.range_zero, List.nil_append, List.foldlM_cons, List.foldlM_nil] at *
  simp [registerRenderLineAfter, intsfromto, xidx?, curline?, geti?, line.charidx?,
    geti, curline, seti, insline, insertat, updatelinenumberwidth,
    movecursori, movecursorfunc, movecursorgo, registerRenderLine, shiftcursors,
    line.inschars, newemptyline, line.clear] at hx ⊢
  rw [hx]
  simp only [Option.some_bind, Option.some_inj]
  have h1 : k.toNat ≤ cs.length := by omega
  have htake : List.take k.toNat (cs ++ [newcharacter 10]) = cs.take k.toNat :=
    List.take_append_of_le_length h1
  have hdrop : (List.drop k.toNat (cs ++ [newcharacter 10])).dropLast = cs.drop k.toNat := by
    rw [List.drop_append_of_le_length h1, List.dropLast_concat]
  refine ⟨_, rfl, ?_, by simp, ?_, ?_⟩
  · simp only [List.map_cons, List.map_nil, htake, hdrop]
  · rw [joinlines_adjacent _ (cs.take k.toNat) (cs.drop k.toNat)
      (by simp only [htake, hdrop])]
    congr 1
    rw [List.take_append_drop]
  · have hz : cs.countP (fun ch => ch.nl) = 0 := by
      rw [List.countP_eq_zero]
      intro ch hch
      simp [hnl ch hch]
    simp [hz]
    decide

/-- C4 witness: the duality instantiated on the line `ab` split at
index 1 (cursor at display column 1, rendered `actualx = 6`). -/
theorem c4_split_join_witness :
    ((∀ ch ∈ [newcharacter 97, newcharacter 98], ch.nl = false)
      ∧ ((0 : Int) ≤ 1 ∧ (1 : Int) < (([newcharacter 97, newcharacter 98] : List character).length : Int))
      ∧ xidx? (c4screen [newcharacter 97, newcharacter 98] { x := 1, y := 0, actualx := 6 })
          { x := 1, y := 0, actualx := 6 } = some 1)
    ∧ (∃ s1, splitcursorsline (c4screen [newcharacter 97, newcharacter 98] { x := 1, y := 0, actualx := 6 }) = some s1
      ∧ s1.lines.map line.buffer
          = [([newcharacter 97, newcharacter 98] : List character).take (1 : Int).toNat ++ [newcharacter 10],
             ([newcharacter 97, newcharacter 98] : List character).drop (1 : Int).toNat ++ [newcharacter 10]]
      ∧ s1.cursors.map (fun c2 => (c2.x, c2.y)) = [(0, 1)]
      ∧ (joinlines s1 0 1).lines.map line.buffer = [[newcharacter 97, newcharacter 98] ++ [newcharacter 10]]
      ∧ ([newcharacter 97, newcharacter 98] ++ [newcharacter 10]).countP (fun ch => ch.nl) = 1) :=
  ⟨⟨by decide, by decide, by decide⟩,
   c4_split_then_join_restores_line [newcharacter 97, newcharacter 98] 1 1 6
     (by decide) (by decide) (by decide)⟩

end Turtle

namespace Turtle
theorem chbytes_newline (p : List Nat) :
    (newline p).buffer.flatMap chbytes = p ++ [10] := by
  simp only [newline, List.flatMap_append]
  congr 1
  induction p with
  | nil => rfl
  | cons r p ih =>
      simp only [List.map_cons, List.flatMap_cons, ih]
      have hc : chbytes (newcharacter r) = [r] := by
        by_cases h9 : r = 9
        · simp [newcharacter, chbytes, h9]
        · by_cases h10 : r = 10
          · simp [newcharacter, chbytes, h9, h10]
          · by_cases hfw : fullwidth r
            all_goals simp [newcharacter, chbytes, h9, h10, hfw]
      rw [hc]
      rfl

theorem scanjoinF (fuel : Nat) (f : List Nat) (hf : f.length ≤ fuel) (hne : f ≠ [])
    (hcr : noscancrF fuel f = true) :
    (scanlinesF fuel f).flatMap (fun p => p ++ [10])
      = f ++ (if f.getLast? = some 10 then [] else [10]) := by
  induction fuel generalizing f with
  | zero =>
      have : f.length = 0 := by omega
      exact absurd (List.eq_nil_of_length_eq_zero this) hne
  | succ fuel ih =>
      cases f with
      | nil => exact absurd rfl hne
      | cons a f0 =>
        rw [show scanlinesF (fuel + 1) (a :: f0)
            = dropcr ((a :: f0).takeWhile (fun r => r ≠ 10))
              :: scanlinesF fuel (((a :: f0).dropWhile (fun r => r ≠ 10)).drop 1) from rfl]
        rw [show noscancrF (fuel + 1) (a :: f0)
            = (!(((a :: f0).takeWhile (fun r => r ≠ 10)).getLast? == some 13)
              && noscancrF fuel (((a :: f0).dropWhile (fun r => r ≠ 10)).drop 1)) from rfl] at hcr
        simp only [Bool.and_eq_true, Bool.not_eq_true', beq_eq_false_iff_ne] at hcr
        obtain ⟨hcr1, hcr2⟩ := hcr
        have hdropcr : dropcr ((a :: f0).takeWhile (fun r => r ≠ 10))
            = (a :: f0).takeWhile (fun r => r ≠ 10) := by
          unfold dropcr
          rw [if_neg]
          intro hcontra
          exact hcr1 hcontra.2
        have hsplit : (a :: f0).takeWhile (fun r => r ≠ 10)
            ++ (a :: f0).dropWhile (fun r => r ≠ 10) = a :: f0 :=
          List.takeWhile_append_dropWhile _ _
        have htok10 : ∀ r ∈ (a :: f0).takeWhile (fun r => r ≠ 10), r ≠ 10 := by
          intro r hr
          have := List.mem_takeWhile_imp hr
          simpa using this
        rw [List.flatMap_cons, hdropcr]
        cases hdwc : (a :: f0).dropWhile (fun r => r ≠ 10) with
        | nil =>
            rw [hdwc, List.append_nil] at hsplit
            have hz : scanlinesF fuel (List.drop 1 ([] : List Nat)) = [] := by
              cases fuel <;> rfl
            rw [hz, List.flatMap_nil, List.append_nil, hsplit, if_neg]
            intro hlast
            have hmem : (10 : Nat) ∈ a :: f0 := List.mem_of_mem_getLast? hlast
            rw [← hsplit] at hmem
            exact htok10 10 hmem rfl
        | cons b rest =>
            have hb : b = 10 := by
              have hdne : (a :: f0).dropWhile (fun r => r ≠ 10) ≠ [] := by
                rw [hdwc]; simp
              have hh := List.head_dropWhile_not (fun r : Nat => decide (r ≠ 10)) (a :: f0) hdne
              have hcons : ∀ (l : List Nat) (h : l ≠ []) (c : Nat) (cs : List Nat),
                  l = c :: cs → l.head h = c := by
                intro l h c cs he
                subst he
                rfl
              rw [hcons _ hdne b rest hdwc] at hh
              simpa using hh
            subst hb
            rw [hdwc] at hsplit
            rw [hdwc] at hcr2
            simp only [List.drop_one, List.tail_cons] at hcr2 ⊢
            cases hrest : rest with
            | nil =>
                subst hrest
                have hz : scanlinesF fuel ([] : List Nat) = [] := by cases fuel <;> rfl
                rw [hz, List.flatMap_nil, List.append_nil]
                have hlast10 : (a :: f0).getLast? = some 10 := by
                  rw [← hsplit]
                  simp
                rw [if_pos hlast10, List.append_nil, hsplit]
            | cons r2 rest2 =>
                subst hrest
                have hlen : (r2 :: rest2).length ≤ fuel := by
                  have h1 : ((a :: f0).takeWhile (fun r => r ≠ 10)).length
                      + (10 :: r2 :: rest2).length = (a :: f0).length := by
                    rw [← List.length_append, hsplit]
                  simp only [List.length_cons] at h1 hf ⊢
                  omega
                rw [ih (r2 :: rest2) hlen (by simp) hcr2]
                have hlast : (a :: f0).getLast? = (r2 :: rest2).getLast? := by
                  rw [← hsplit]
                  rw [List.getLast?_append_of_ne_nil _ (by simp : (10 :: r2 :: rest2) ≠ [])]
                  exact List.getLast?_cons_cons
                rw [hlast]
                conv_rhs => rw [← hsplit]
                simp [List.append_assoc]
end Turtle

namespace Turtle

/-- `content` reads only the line list, which `updatelinenumberwidth`
preserves, so `content` of a fresh screen is the flat emission of the
scanned lines. -/
theorem lines_updatelinenumberwidth (s : screen) :
    (updatelinenumberwidth s).lines = s.lines := by
  unfold updatelinenumberwidth
  split <;> rfl

theorem content_newscreen (w h : Int) (f : List Nat) (ext : String) (th : theme) :
    content (newscreen w h f ext th)
      = (if ((scanlines f).map newline).isEmpty
          then [newemptyline] else (scanlines f).map newline).flatMap
          (fun l => l.buffer.flatMap chbytes) := by
  simp only [newscreen, content, lines_updatelinenumberwidth]

theorem flatmap_newline (L : List (List Nat)) :
    (L.map newline).flatMap (fun l => l.buffer.flatMap chbytes)
      = L.flatMap (fun p => p ++ [10]) := by
  induction L with
  | nil => rfl
  | cons p ps ih => simp only [List.map_cons, List.flatMap_cons, chbytes_newline, ih]

/-- Claim C5, corrected: for a file with no carriage return directly
before a line break (`noscancr`), opening it into a screen, performing
zero edits, and saving writes back the file itself, with one newline
appended exactly when the file is empty or does not already end in a
newline (every line is materialized with a trailing newline, so the
round trip only normalizes the trailing newline). Files with a CRLF
line break are changed beyond that normalization, see the
counterexample. -/
theorem c5_save_roundtrip_normalized (w h : Int) (f : List Nat) (ext : String) (th : theme)
    (hcr : noscancr f = true) :
    (save (newscreen w h f ext th)).1
      = f ++ (if f = [] ∨ f.getLast? ≠ some 10 then [10] else []) := by
  show content (newscreen w h f ext th) = _
  rw [content_newscreen]
  cases hf0 : f with
  | nil => rfl
  | cons a f0 =>
      subst hf0
      have hne : a :: f0 ≠ [] := by simp
      have hlsne : scanlinesF (a :: f0).length (a :: f0) ≠ [] := by
        rw [show (a :: f0).length = f0.length + 1 from rfl]
        rw [show scanlinesF (f0.length + 1) (a :: f0)
            = dropcr ((a :: f0).takeWhile (fun r => r ≠ 10))
              :: scanlinesF f0.length (((a :: f0).dropWhile (fun r => r ≠ 10)).drop 1) from rfl]
        simp
      rw [if_neg (by simp only [List.isEmpty_iff, List.map_eq_nil_iff, scanlines]; exact hlsne)]
      rw [flatmap_newline]
      simp only [scanlines]
      rw [scanjoinF (a :: f0).length (a :: f0) (le_refl _) hne hcr]
      by_cases hgl : (a :: f0).getLast? = some 10 <;> simp [hgl]

/-- Claim C5 counterexample: the CRLF file with code points of the text
a, CR, LF is saved back (with zero edits) as the two code points a, LF -
the scanner's dropCR deletes the carriage return, so the save is not
byte-identical up to trailing-newline normalization. -/
theorem c5_crlf_not_roundtrip :
    (save (newscreen 80 24 [97, 13, 10] "txt" theme_doraemon)).1 = [97, 10]
      ∧ ¬ trailingnormeq [97, 13, 10] [97, 10] := by
  refine ⟨by decide, ?_⟩
  simp [trailingnormeq]

/-- Witness for the C5 theorem at the CR-free one-line file a, LF. -/
theorem c5_save_witness :
    noscancr [97, 10] = true
      ∧ (save (newscreen 80 24 [97, 10] "txt" theme_doraemon)).1
          = [97, 10]
              ++ (if ([97, 10] : List Nat) = []
                    ∨ ([97, 10] : List Nat).getLast? ≠ some 10 then [10] else []) :=
  ⟨by decide, c5_save_roundtrip_normalized 80 24 [97, 10] "txt" theme_doraemon (by decide)⟩

end Turtle

namespace Turtle

theorem wsscanF_ge (l : line) : ∀ fuel (pos : Int), pos ≤ wsscanF l fuel pos := by
  intro fuel
  induction fuel with
  | zero => intro pos; exact le_refl pos
  | succ f ih =>
      intro pos
      rw [wsscanF]
      split
      · exact le_trans (by omega) (ih (pos + 1))
      · exact le_refl pos

theorem identscanF_ge (l : line) : ∀ fuel (pos : Int), pos ≤ identscanF l fuel pos := by
  intro fuel
  induction fuel with
  | zero => intro pos; exact le_refl pos
  | succ f ih =>
      intro pos
      rw [identscanF]
      split
      · exact le_trans (by omega) (ih (pos + 1))
      · exact le_refl pos

theorem digitscanF_ge (l : line) : ∀ fuel (pos : Int), pos ≤ digitscanF l fuel pos := by
  intro fuel
  induction fuel with
  | zero => intro pos; exact le_refl pos
  | succ f ih =>
      intro pos
      rw [digitscanF]
      split
      · exact le_trans (by omega) (ih (pos + 1))
      · exact le_refl pos

theorem strscanF_ge (l : line) (e : List Nat) (esc : Bool) :
    ∀ fuel (pos : Int), pos ≤ strscanF l e esc fuel pos := by
  intro fuel
  induction fuel with
  | zero => intro pos; exact le_refl pos
  | succ f ih =>
      intro pos
      rw [strscanF]
      split
      · split
        · exact le_trans (by omega) (ih (pos + 1))
        · split
          · omega
          · split
            · exact le_trans (by omega) (ih (pos + 2))
            · exact le_trans (by omega) (ih (pos + 1))
      · exact le_refl pos

theorem bcscanF_fst_ge (l : line) (e : List Nat) :
    ∀ fuel (pos : Int), pos ≤ (bcscanF l e fuel pos).1 := by
  intro fuel
  induction fuel with
  | zero => intro pos; exact le_refl pos
  | succ f ih =>
      intro pos
      rw [bcscanF]
      split
      · split
        · exact le_trans (by omega) (ih (pos + 1))
        · split
          · omega
          · exact le_trans (by omega) (ih (pos + 1))
      · exact le_refl pos

theorem mlscanF_fst_ge (l : line) (e : List Nat) :
    ∀ fuel (pos : Int), pos ≤ (mlscanF l e fuel pos).1 := by
  intro fuel
  induction fuel with
  | zero => intro pos; exact le_refl pos
  | succ f ih =>
      intro pos
      rw [mlscanF]
      split
      · split
        · exact le_trans (by omega) (ih (pos + 1))
        · split
          · omega
          · exact le_trans (by omega) (ih (pos + 1))
      · exact le_refl pos

theorem bcscanF_step (l : line) (e : List Nat) (fuel : Nat) (pos : Int)
    (hf : 0 < fuel) (hp : pos < l.length - 1) :
    pos + 1 ≤ (bcscanF l e fuel pos).1 ∨ (bcscanF l e fuel pos).2 = true := by
  obtain ⟨f, rfl⟩ : ∃ f, fuel = f + 1 := ⟨fuel - 1, by omega⟩
  rw [bcscanF]
  rw [if_pos hp]
  split
  · exact Or.inl (bcscanF_fst_ge l e f (pos + 1))
  · split
    · exact Or.inr rfl
    · exact Or.inl (bcscanF_fst_ge l e f (pos + 1))

theorem mlscanF_step (l : line) (e : List Nat) (fuel : Nat) (pos : Int)
    (hf : 0 < fuel) (hp : pos < l.length - 1) :
    pos + 1 ≤ (mlscanF l e fuel pos).1 ∨ (mlscanF l e fuel pos).2 = true := by
  obtain ⟨f, rfl⟩ : ∃ f, fuel = f + 1 := ⟨fuel - 1, by omega⟩
  rw [mlscanF]
  rw [if_pos hp]
  split
  · exact Or.inl (mlscanF_fst_ge l e f (pos + 1))
  · split
    · exact Or.inr rfl
    · exact Or.inl (mlscanF_fst_ge l e f (pos + 1))


theorem startmatches_ne_nil (l : line) (pos : Int) (sq : List Nat)
    (hm : startmatches l pos sq = true) : 1 ≤ (sq.length : Int) := by
  match sq with
  | [] => simp [startmatches] at hm
  | [a] => simp
  | [a, b] => simp
  | [a, b, c] => simp
  | a :: b :: c :: d :: rest => simp [startmatches] at hm

theorem firstmatch_sound (l : line) (pos : Int) :
    ∀ (L : List (List Nat × List Nat)) (p : List Nat × List Nat),
      firstmatch l pos L = some p → startmatches l pos p.1 = true := by
  intro L
  induction L with
  | nil => intro p h; simp [firstmatch] at h
  | cons q rest ih =>
      intro p h
      rw [firstmatch] at h
      split at h
      · cases h
        assumption
      · exact ih p h

theorem digitscan_ge (l : line) (pos : Int) : pos ≤ digitscan l pos := by
  rw [digitscan]
  exact digitscanF_ge l _ pos

theorem nexttoken_advance (cfg : clikelanglinetokenizer) (l : line) (pos : Int)
    (hp : pos < l.length - 1) : pos + 1 ≤ (nexttoken cfg l pos).2 := by
  have hfge2 : 2 ≤ (l.length - pos).toNat := by omega
  rw [nexttoken]
  split
  · -- whitespace
    rename_i hws
    show pos + 1 ≤ wsscan l pos
    rw [wsscan]
    obtain ⟨n, hn⟩ : ∃ n, (l.length - pos).toNat = n + 1 := ⟨(l.length - pos).toNat - 1, by omega⟩
    rw [hn, wsscanF, if_pos ⟨hp, by revert hws; cases h9 : (bufat l pos).tab <;> simp⟩]
    exact wsscanF_ge l n (pos + 1)
  · split
    · -- line comment
      rename_i hlc
      show pos + 1 ≤ (readlinecomment cfg l pos).2
      have hlen : 1 ≤ (cfg.linecommentstart.length : Int) := by
        rcases hcase : cfg.linecommentstart with _ | ⟨a, t⟩
        · rw [hcase] at hlc
          simp at hlc
        · simp only [hcase, List.length_cons]
          omega
      rw [readlinecomment]
      dsimp only
      split <;> omega
    · split
      · -- block comment opener
        rename_i hbc
        show pos + 1 ≤ (readblockcomment cfg l pos pos true).2
        have hlen : (cfg.blockcommentstart.length : Int) = 2 := by
          rcases hcase : cfg.blockcommentstart with _ | ⟨a, _ | ⟨b, _ | ⟨c, rest⟩⟩⟩ <;>
            rw [hcase] at hbc <;> simp_all
        rw [readblockcomment]
        dsimp only
        rw [if_pos rfl]
        calc pos + 1 ≤ pos + (cfg.blockcommentstart.length : Int) := by omega
          _ ≤ _ := bcscanF_fst_ge l cfg.blockcommentend _ _
      · -- multiline string / string / raw string / number / ident / symbol
        split
        · rename_i sq eq2 hfm
          show pos + 1 ≤ (readmultilinestring l pos pos true sq eq2).2
          have hsm := firstmatch_sound l pos _ (sq, eq2) hfm
          have hlen : 1 ≤ (sq.length : Int) := by
            simpa using startmatches_ne_nil l pos _ hsm
          rw [readmultilinestring]
          dsimp only
          rw [if_pos rfl]
          calc pos + 1 ≤ pos + (sq.length : Int) := by omega
            _ ≤ _ := mlscanF_fst_ge l eq2 _ _
        · split
          · rename_i sq eq2 hfm
            show pos + 1 ≤ (readstring l pos sq eq2 true).2
            have hsm := firstmatch_sound l pos _ (sq, eq2) hfm
            have hlen : 1 ≤ (sq.length : Int) := by
              simpa using startmatches_ne_nil l pos _ hsm
            rw [readstring]
            dsimp only
            calc pos + 1 ≤ pos + (sq.length : Int) := by omega
              _ ≤ _ := strscanF_ge l eq2 true _ _
          · split
            · rename_i sq eq2 hfm
              show pos + 1 ≤ (readstring l pos sq eq2 false).2
              have hsm := firstmatch_sound l pos _ (sq, eq2) hfm
              have hlen : 1 ≤ (sq.length : Int) := by
                simpa using startmatches_ne_nil l pos _ hsm
              rw [readstring]
              dsimp only
              calc pos + 1 ≤ pos + (sq.length : Int) := by omega
                _ ≤ _ := strscanF_ge l eq2 false _ _
            · split
              · -- number
                rename_i hnum
                show pos + 1 ≤ (readnumber l pos).2
                rw [readnumber]
                dsimp only
                have hd1 : ∀ q : Int, pos + 1 ≤ q →
                    pos + 1 ≤ (if q < l.length ∧ (bufat l q).r = 46 then digitscan l (q + 1) else q) := by
                  intro q hq
                  split
                  · exact le_trans (by omega) (digitscan_ge l (q + 1))
                  · exact hq
                have hd2 : ∀ q : Int, pos + 1 ≤ q →
                    pos + 1 ≤ (if q < l.length ∧ ((bufat l q).r = 101 ∨ (bufat l q).r = 69) then
                      digitscan l (if q + 1 < l.length ∧ ((bufat l (q + 1)).r = 43 ∨ (bufat l (q + 1)).r = 45) then q + 1 + 1 else q + 1)
                      else q) := by
                  intro q hq
                  split
                  · exact le_trans (by split <;> omega) (digitscan_ge l _)
                  · exact hq
                rcases Bool.or_eq_true _ _ |>.mp hnum with hdig | hdot
                · -- leading digit
                  refine hd2 _ (hd1 _ ?_)
                  rw [digitscan]
                  obtain ⟨n, hn⟩ : ∃ n, (l.length - pos).toNat = n + 1 :=
                    ⟨(l.length - pos).toNat - 1, by omega⟩
                  rw [hn, digitscanF, if_pos ⟨by omega, by simp [hdig]⟩]
                  exact digitscanF_ge l n (pos + 1)
                · -- leading dot with digit after
                  have h46 : (bufat l pos).r = 46 := by
                    simpa using (Bool.and_eq_true _ _ |>.mp hdot).1
                  refine hd2 _ ?_
                  have hge : pos ≤ digitscan l pos := digitscan_ge l pos
                  rcases lt_or_eq_of_le hge with hgt | heq
                  · exact hd1 _ (by omega)
                  · have hcnd : digitscan l pos < l.length ∧ (bufat l (digitscan l pos)).r = 46 := by
                      constructor
                      · omega
                      · rw [← heq]
                        exact h46
                    rw [if_pos hcnd]
                    exact le_trans (by omega) (digitscan_ge l (digitscan l pos + 1))
              · split
                · -- ident
                  rename_i hid
                  show pos + 1 ≤ (readident cfg l pos).2
                  rw [readident]
                  dsimp only
                  show pos + 1 ≤ identscan l pos
                  rw [identscan]
                  obtain ⟨n, hn⟩ : ∃ n, (l.length - pos).toNat = n + 1 :=
                    ⟨(l.length - pos).toNat - 1, by omega⟩
                  rw [hn, identscanF, if_pos ⟨by omega, by revert hid; cases unicodeisletter (bufat l pos).r <;> simp_all⟩]
                  exact identscanF_ge l n (pos + 1)
                · -- symbol
                  show pos + 1 ≤ (readsymbol cfg l pos).2
                  rw [readsymbol]
                  split
                  · omega
                  · split
                    · omega
                    · split
                      · omega
                      · split <;> omega


theorem tokenizeloop_isSome (cfg : clikelanglinetokenizer) (l : line) :
    ∀ (fuel : Nat) (pos : Int) (inbc inml : Bool) (mss mse : List Nat) (acc : List token),
      (2 * (l.length - 1 - pos).toNat + (cond inbc 1 0) + (cond inml 1 0) < fuel
        ∨ (l.length - 1 ≤ pos ∧ 0 < fuel)) →
      (tokenizeloop cfg l fuel pos inbc inml mss mse acc).isSome = true := by
  intro fuel
  induction fuel with
  | zero =>
      intro pos inbc inml mss mse acc h
      rcases h with h | h
      · omega
      · omega
  | succ f ih =>
      intro pos inbc inml mss mse acc h
      rw [tokenizeloop]
      by_cases hp : pos < l.length - 1
      · rw [if_pos hp]
        have hm : 2 * (l.length - 1 - pos).toNat + (cond inbc 1 0)
            + (cond inml 1 0) < f + 1 := by
          rcases h with h | h
          · exact h
          · omega
        have hk : 1 ≤ (l.length - 1 - pos).toNat := by omega
        have hfpos : 0 < (l.length - pos).toNat := by omega
        cases hbc : inbc with
        | true =>
            rw [if_pos rfl]
            dsimp only [readblockcomment]
            rw [if_neg (by simp)]
            simp only [bcscan]
            apply ih
            refine Or.inl ?_
            rw [hbc] at hm
            simp only [Bool.cond_true] at hm
            have h1 : pos ≤ (bcscanF l cfg.blockcommentend (l.length - pos).toNat pos).1 :=
              bcscanF_fst_ge l _ _ pos
            have h2 := bcscanF_step l cfg.blockcommentend ((l.length - pos).toNat) pos hfpos hp
            cases hb2 : (bcscanF l cfg.blockcommentend (l.length - pos).toNat pos).2 with
            | true =>
                simp only [Bool.not_true, Bool.cond_false]
                omega
            | false =>
                rw [hb2] at h2
                have hadv : pos + 1 ≤ (bcscanF l cfg.blockcommentend (l.length - pos).toNat pos).1 := by
                  rcases h2 with h2 | h2
                  · exact h2
                  · cases h2
                simp only [Bool.not_false, Bool.cond_true]
                omega
        | false =>
            rw [if_neg (by simp)]
            cases hml : inml with
            | true =>
                rw [if_pos rfl]
                dsimp only [readmultilinestring]
                rw [if_neg (by simp)]
                simp only [mlscan]
                apply ih
                refine Or.inl ?_
                rw [hbc, hml] at hm
                simp only [Bool.cond_true, Bool.cond_false] at hm
                have h1 : pos ≤ (mlscanF l mse (l.length - pos).toNat pos).1 :=
                  mlscanF_fst_ge l _ _ pos
                have h2 := mlscanF_step l mse ((l.length - pos).toNat) pos hfpos hp
                cases hb2 : (mlscanF l mse (l.length - pos).toNat pos).2 with
                | true =>
                    simp only [Bool.not_true, Bool.cond_false, Bool.cond_true]
                    omega
                | false =>
                    rw [hb2] at h2
                    have hadv : pos + 1 ≤ (mlscanF l mse (l.length - pos).toNat pos).1 := by
                      rcases h2 with h2 | h2
                      · exact h2
                      · cases h2
                    simp only [Bool.not_false, Bool.cond_true, Bool.cond_false]
                    omega
            | false =>
                rw [if_neg (by simp)]
                rw [hbc, hml] at hm
                simp only [Bool.cond_false] at hm
                have hadv := nexttoken_advance cfg l pos hp
                dsimp only
                split
                · apply ih
                  refine Or.inl ?_
                  cases hb2 : (nexttoken cfg l pos).1.blockcommentterminated <;>
                    simp only [Bool.not_true, Bool.not_false, Bool.cond_true, Bool.cond_false] <;>
                    omega
                · split
                  · apply ih
                    refine Or.inl ?_
                    cases hb2 : (nexttoken cfg l pos).1.multilinestrterminated <;>
                      simp only [Bool.not_true, Bool.not_false, Bool.cond_true, Bool.cond_false] <;>
                      omega
                  · apply ih
                    refine Or.inl ?_
                    simp only [Bool.cond_false]
                    omega
      · rw [if_neg hp]
        rfl

/-- Claim C10: the per-line tokenizer always terminates - for every
configuration, line and previous line attribute, the tokenize loop run
with fuel `2 * length + 2` completes (returns `some`), because every
token-reading path strictly advances the scan position, and a
non-advancing carried block comment or multi-line string terminator
clears its carry flag. -/
theorem c10_tokenizeline_terminates (cfg : clikelanglinetokenizer) (l : line)
    (prev : lineattribute) :
    (tokenizelineF (tokenizefuel l) cfg l prev).isSome = true := by
  rw [tokenizelineF, tokenizefuel]
  apply tokenizeloop_isSome
  rcases Nat.eq_zero_or_pos l.buffer.length with hz | hpos
  · refine Or.inr ⟨?_, by omega⟩
    simp [line.length, hz]
  · refine Or.inl ?_
    have hl : l.length = (l.buffer.length : Int) := rfl
    have h1 : (l.length - 1 - 0).toNat ≤ l.buffer.length - 1 := by omega
    have h2 : (cond prev.inblockcomment 1 0) ≤ 1 := by cases prev.inblockcomment <;> simp
    have h3 : (cond prev.inmultilinestr 1 0) ≤ 1 := by cases prev.inmultilinestr <;> simp
    omega

end Turtle

namespace Turtle

theorem wsscanF_le (l : line) : ∀ fuel (pos : Int), pos ≤ l.length - 1 →
    wsscanF l fuel pos ≤ l.length - 1 := by
  intro fuel
  induction fuel with
  | zero => intro pos h; exact h
  | succ f ih =>
      intro pos h
      rw [wsscanF]
      split
      · rename_i hc
        exact ih (pos + 1) (by omega)
      · exact h

theorem bcscanF_fst_le (l : line) (e : List Nat) : ∀ fuel (pos : Int), pos ≤ l.length - 1 →
    (bcscanF l e fuel pos).1 ≤ l.length - 1 := by
  intro fuel
  induction fuel with
  | zero => intro pos h; exact h
  | succ f ih =>
      intro pos h
      rw [bcscanF]
      split
      · rename_i hc
        split
        · exact ih (pos + 1) (by omega)
        · split
          · rename_i hg hmt
            omega
          · exact ih (pos + 1) (by omega)
      · exact h

theorem mlscanF_fst_le (l : line) (e : List Nat) : ∀ fuel (pos : Int), pos ≤ l.length - 1 →
    (mlscanF l e fuel pos).1 ≤ l.length - 1 := by
  intro fuel
  induction fuel with
  | zero => intro pos h; exact h
  | succ f ih =>
      intro pos h
      rw [mlscanF]
      split
      · rename_i hc
        split
        · exact ih (pos + 1) (by omega)
        · split
          · rename_i hg hmt
            omega
          · exact ih (pos + 1) (by omega)
      · exact h

theorem strscanF_le (l : line) (e : List Nat) (esc : Bool) : ∀ fuel (pos : Int),
    pos ≤ l.length - 1 → strscanF l e esc fuel pos ≤ l.length - 1 := by
  intro fuel
  induction fuel with
  | zero => intro pos h; exact h
  | succ f ih =>
      intro pos h
      rw [strscanF]
      split
      · rename_i hc
        split
        · exact ih (pos + 1) (by omega)
        · split
          · rename_i hg hmt
            omega
          · split
            · rename_i hg hmt hesc
              exact ih (pos + 2) (by omega)
            · exact ih (pos + 1) (by omega)
      · exact h

theorem digitscanF_le (l : line) (hlast : (bufat l (l.length - 1)).r = 0) :
    ∀ fuel (pos : Int), pos ≤ l.length - 1 → digitscanF l fuel pos ≤ l.length - 1 := by
  intro fuel
  induction fuel with
  | zero => intro pos h; exact h
  | succ f ih =>
      intro pos h
      rw [digitscanF]
      split
      · rename_i hc
        rcases lt_or_eq_of_le h with hlt | heq
        · exact ih (pos + 1) (by omega)
        · rw [heq, hlast] at hc
          simp [unicodeisdigit] at hc
      · exact h

theorem identscanF_le (l : line) (hlast : (bufat l (l.length - 1)).r = 0) :
    ∀ fuel (pos : Int), pos ≤ l.length - 1 → identscanF l fuel pos ≤ l.length - 1 := by
  intro fuel
  induction fuel with
  | zero => intro pos h; exact h
  | succ f ih =>
      intro pos h
      rw [identscanF]
      split
      · rename_i hc
        rcases lt_or_eq_of_le h with hlt | heq
        · exact ih (pos + 1) (by omega)
        · rw [heq, hlast] at hc
          simp [unicodeisdigit, unicodeisletter] at hc
      · exact h

theorem bcscanF_unterminated (l : line) (e : List Nat) : ∀ fuel (pos : Int),
    (l.length - pos).toNat ≤ fuel → pos ≤ l.length - 1 →
    (bcscanF l e fuel pos).2 = false → (bcscanF l e fuel pos).1 = l.length - 1 := by
  intro fuel
  induction fuel with
  | zero => intro pos hf h hu; omega
  | succ f ih =>
      intro pos hf h hu
      rw [bcscanF] at hu ⊢
      split at hu
      · rename_i hc
        split at hu
        · rename_i hg
          rw [if_pos hc, if_pos hg]
          exact ih (pos + 1) (by omega) (by omega) hu
        · rename_i hg
          split at hu
          · simp at hu
          · rename_i hmt
            rw [if_pos hc, if_neg hg, if_neg hmt]
            exact ih (pos + 1) (by omega) (by omega) hu
      · rename_i hc
        rw [if_neg hc]
        omega

theorem mlscanF_unterminated (l : line) (e : List Nat) : ∀ fuel (pos : Int),
    (l.length - pos).toNat ≤ fuel → pos ≤ l.length - 1 →
    (mlscanF l e fuel pos).2 = false → (mlscanF l e fuel pos).1 = l.length - 1 := by
  intro fuel
  induction fuel with
  | zero => intro pos hf h hu; omega
  | succ f ih =>
      intro pos hf h hu
      rw [mlscanF] at hu ⊢
      split at hu
      · rename_i hc
        split at hu
        · rename_i hg
          rw [if_pos hc, if_pos hg]
          exact ih (pos + 1) (by omega) (by omega) hu
        · rename_i hg
          split at hu
          · simp at hu
          · rename_i hmt
            rw [if_pos hc, if_neg hg, if_neg hmt]
            exact ih (pos + 1) (by omega) (by omega) hu
      · rename_i hc
        rw [if_neg hc]
        omega


theorem startmatches_bound (l : line) (pos : Int) (sq : List Nat)
    (hm : startmatches l pos sq = true)
    (hnz : sq.all (fun r => r != 0) = true)
    (hp : pos < l.length - 1)
    (hlast : (bufat l (l.length - 1)).r = 0) :
    pos + (sq.length : Int) ≤ l.length - 1 := by
  match sq with
  | [] => simp [startmatches] at hm
  | [a] => simp only [List.length_cons, List.length_nil]; omega
  | [a, b] =>
      simp only [startmatches, Bool.and_eq_true, beq_iff_eq] at hm
      simp only [List.all_cons, List.all_nil, Bool.and_eq_true, bne_iff_ne, ne_eq] at hnz
      have hpk : peekch l pos = bufat l (pos + 1) := by
        rw [peekch, if_neg (by omega)]
      rw [hpk] at hm
      by_cases h2 : pos + 1 = l.length - 1
      · rw [h2, hlast] at hm
        exact absurd hm.2.symm hnz.2.1
      · simp only [List.length_cons, List.length_nil]
        omega
  | [a, b, c] =>
      simp only [startmatches, Bool.and_eq_true, beq_iff_eq] at hm
      simp only [List.all_cons, List.all_nil, Bool.and_eq_true, bne_iff_ne, ne_eq] at hnz
      have hpk : peekch l pos = bufat l (pos + 1) := by
        rw [peekch, if_neg (by omega)]
      rw [hpk] at hm
      have hb2 : pos + 1 ≠ l.length - 1 := by
        intro h2
        rw [h2, hlast] at hm
        exact absurd hm.1.2.symm hnz.2.1
      have hlen2 : pos + 2 < l.length := by omega
      have hpk2 : peek2ch l pos = bufat l (pos + 2) := by
        rw [peek2ch, if_neg (by omega)]
      rw [hpk2] at hm
      have hc2 : pos + 2 ≠ l.length - 1 := by
        intro h2
        rw [h2, hlast] at hm
        exact absurd hm.2.symm hnz.2.2.1
      simp only [List.length_cons, List.length_nil]
      omega
  | a :: b :: c :: d :: rest => simp [startmatches] at hm

theorem firstmatch_mem (l : line) (pos : Int) :
    ∀ (L : List (List Nat × List Nat)) (p : List Nat × List Nat),
      firstmatch l pos L = some p → p ∈ L := by
  intro L
  induction L with
  | nil => intro p h; simp [firstmatch] at h
  | cons q rest ih =>
      intro p h
      rw [firstmatch] at h
      split at h
      · cases h
        exact List.mem_cons_self q rest
      · exact List.mem_cons_of_mem q (ih p h)


theorem digitscan_le (l : line) (pos : Int) (hlast : (bufat l (l.length - 1)).r = 0)
    (h : pos ≤ l.length - 1) : digitscan l pos ≤ l.length - 1 := by
  rw [digitscan]
  exact digitscanF_le l hlast _ pos h

theorem nexttoken_spec (cfg : clikelanglinetokenizer) (l : line) (pos : Int)
    (hp : pos < l.length - 1)
    (hlast : (bufat l (l.length - 1)).r = 0)
    (hwf : cfgwf cfg = true) :
    (nexttoken cfg l pos).1.start = pos
    ∧ (nexttoken cfg l pos).1.end_ = (nexttoken cfg l pos).2
    ∧ (nexttoken cfg l pos).1.typ ≠ tk_nl
    ∧ (nexttoken cfg l pos).2 ≤ l.length - 1
    ∧ ((nexttoken cfg l pos).1.typ = tk_blockcomment →
        (nexttoken cfg l pos).1.blockcommentterminated = false →
        (nexttoken cfg l pos).2 = l.length - 1)
    ∧ ((nexttoken cfg l pos).1.typ = tk_multilinestring →
        (nexttoken cfg l pos).1.multilinestrterminated = false →
        (nexttoken cfg l pos).2 = l.length - 1) := by
  have hwf2 := hwf
  rw [cfgwf] at hwf2
  simp only [Bool.and_eq_true] at hwf2
  obtain ⟨⟨⟨⟨hwlc, hwbc⟩, hwml⟩, hwst⟩, hwrw⟩ := hwf2
  have hne0 : ∀ q : Int, q ≤ l.length - 1 → (bufat l q).r ≠ 0 → q < l.length - 1 := by
    intro q hq hr
    rcases lt_or_eq_of_le hq with h1 | h1
    · exact h1
    · rw [h1, hlast] at hr
      exact absurd rfl hr
  rw [nexttoken]
  split
  · -- whitespace
    refine ⟨rfl, rfl, fun h => absurd (show tk_whitespace = tk_nl from h) (by decide), ?_, ?_, ?_⟩
    · show wsscan l pos ≤ l.length - 1
      rw [wsscan]
      exact wsscanF_le l _ pos (le_of_lt hp)
    · exact fun h => absurd (show tk_whitespace = tk_blockcomment from h) (by decide)
    · exact fun h => absurd (show tk_whitespace = tk_multilinestring from h) (by decide)
  · split
    · -- line comment
      rename_i hlc
      refine ⟨rfl, rfl, fun h => absurd (show tk_linecomment = tk_nl from h) (by decide), ?_, ?_, ?_⟩
      · show (readlinecomment cfg l pos).2 ≤ l.length - 1
        have hb : pos + (cfg.linecommentstart.length : Int) ≤ l.length - 1 := by
          rcases hcase : cfg.linecommentstart with _ | ⟨a, _ | ⟨b, _ | ⟨c, rest⟩⟩⟩
          · rw [hcase] at hlc
            simp at hlc
          · simp only [List.length_cons, List.length_nil]
            omega
          · have hsm : startmatches l pos [a, b] = true := by
              rw [hcase] at hlc
              exact hlc
            have hnz : ([a, b] : List Nat).all (fun r => r != 0) = true := by
              rw [hcase] at hwlc
              exact hwlc
            have := startmatches_bound l pos [a, b] hsm hnz hp hlast
            simp only [List.length_cons, List.length_nil] at this ⊢
            omega
          · rw [hcase] at hlc
            simp at hlc
        rw [readlinecomment]
        dsimp only
        split <;> omega
      · exact fun h => absurd (show tk_linecomment = tk_blockcomment from h) (by decide)
      · exact fun h => absurd (show tk_linecomment = tk_multilinestring from h) (by decide)
    · split
      · -- block comment opener
        rename_i hbc
        have hb : pos + (cfg.blockcommentstart.length : Int) ≤ l.length - 1 := by
          rcases hcase : cfg.blockcommentstart with _ | ⟨a, _ | ⟨b, _ | ⟨c, rest⟩⟩⟩
          · rw [hcase] at hbc
            simp at hbc
          · rw [hcase] at hbc
            simp at hbc
          · have hsm : startmatches l pos [a, b] = true := by
              rw [hcase] at hbc
              exact hbc
            have hnz : ([a, b] : List Nat).all (fun r => r != 0) = true := by
              rw [hcase] at hwbc
              exact hwbc
            have := startmatches_bound l pos [a, b] hsm hnz hp hlast
            simp only [List.length_cons, List.length_nil] at this ⊢
            omega
          · rw [hcase] at hbc
            simp at hbc
        refine ⟨rfl, rfl, fun h => absurd (show tk_blockcomment = tk_nl from h) (by decide), ?_, ?_, ?_⟩
        · show (bcscan l cfg.blockcommentend (pos + (cfg.blockcommentstart.length : Int))).1 ≤ l.length - 1
          rw [bcscan]
          exact bcscanF_fst_le l _ _ _ hb
        · intro htyp hterm
          have hterm2 : (bcscan l cfg.blockcommentend (pos + (cfg.blockcommentstart.length : Int))).2 = false := hterm
          show (bcscan l cfg.blockcommentend (pos + (cfg.blockcommentstart.length : Int))).1 = l.length - 1
          rw [bcscan] at hterm2 ⊢
          exact bcscanF_unterminated l _ _ _ (le_refl _) hb hterm2
        · exact fun h => absurd (show tk_blockcomment = tk_multilinestring from h) (by decide)
      · split
        · -- multiline string opener
          rename_i sq eq2 hfm
          have hmem : sq ∈ cfg.multilinestringstarts :=
            (List.of_mem_zip (firstmatch_mem l pos _ _ hfm)).1
          have hnz : sq.all (fun r => r != 0) = true :=
            List.all_eq_true.mp hwml sq hmem
          have hsm := firstmatch_sound l pos _ (sq, eq2) hfm
          have hb := startmatches_bound l pos sq hsm hnz hp hlast
          refine ⟨rfl, rfl, fun h => absurd (show tk_multilinestring = tk_nl from h) (by decide), ?_, ?_, ?_⟩
          · show (mlscan l eq2 (pos + (sq.length : Int))).1 ≤ l.length - 1
            rw [mlscan]
            exact mlscanF_fst_le l _ _ _ hb
          · exact fun h => absurd (show tk_multilinestring = tk_blockcomment from h) (by decide)
          · intro htyp hterm
            have hterm2 : (mlscan l eq2 (pos + (sq.length : Int))).2 = false := hterm
            show (mlscan l eq2 (pos + (sq.length : Int))).1 = l.length - 1
            rw [mlscan] at hterm2 ⊢
            exact mlscanF_unterminated l _ _ _ (le_refl _) hb hterm2
        · split
          · -- string opener
            rename_i sq eq2 hfm
            have hmem : sq ∈ cfg.stringstarts :=
              (List.of_mem_zip (firstmatch_mem l pos _ _ hfm)).1
            have hnz : sq.all (fun r => r != 0) = true :=
              List.all_eq_true.mp hwst sq hmem
            have hsm := firstmatch_sound l pos _ (sq, eq2) hfm
            have hb := startmatches_bound l pos sq hsm hnz hp hlast
            refine ⟨rfl, rfl, fun h => absurd (show tk_string = tk_nl from h) (by decide), ?_, ?_, ?_⟩
            · show strscan l eq2 true (pos + (sq.length : Int)) ≤ l.length - 1
              rw [strscan]
              exact strscanF_le l _ _ _ _ hb
            · exact fun h => absurd (show tk_string = tk_blockcomment from h) (by decide)
            · exact fun h => absurd (show tk_string = tk_multilinestring from h) (by decide)
          · split
            · -- raw string opener
              rename_i sq eq2 hfm
              have hmem : sq ∈ cfg.rawstringstarts :=
                (List.of_mem_zip (firstmatch_mem l pos _ _ hfm)).1
              have hnz : sq.all (fun r => r != 0) = true :=
                List.all_eq_true.mp hwrw sq hmem
              have hsm := firstmatch_sound l pos _ (sq, eq2) hfm
              have hb := startmatches_bound l pos sq hsm hnz hp hlast
              refine ⟨rfl, rfl, fun h => absurd (show tk_string = tk_nl from h) (by decide), ?_, ?_, ?_⟩
              · show strscan l eq2 false (pos + (sq.length : Int)) ≤ l.length - 1
                rw [strscan]
                exact strscanF_le l _ _ _ _ hb
              · exact fun h => absurd (show tk_string = tk_blockcomment from h) (by decide)
              · exact fun h => absurd (show tk_string = tk_multilinestring from h) (by decide)
            · split
              · -- number
                refine ⟨rfl, rfl, fun h => absurd (show tk_number = tk_nl from h) (by decide), ?_, ?_, ?_⟩
                · show (readnumber l pos).2 ≤ l.length - 1
                  rw [readnumber]
                  dsimp only
                  have h1 : digitscan l pos ≤ l.length - 1 :=
                    digitscan_le l pos hlast (le_of_lt hp)
                  split
                  · rename_i hq
                    have h2 : digitscan l pos < l.length - 1 :=
                      hne0 _ h1 (by rw [hq.2]; omega)
                    have h3 : digitscan l (digitscan l pos + 1) ≤ l.length - 1 :=
                      digitscan_le l _ hlast (by omega)
                    split
                    · rename_i hq2
                      refine digitscan_le l _ hlast ?_
                      have h4 : digitscan l (digitscan l pos + 1) < l.length - 1 := by
                        refine hne0 _ h3 ?_
                        rcases hq2.2 with h5 | h5 <;> rw [h5] <;> omega
                      split
                      · rename_i hq3
                        have h6 : digitscan l (digitscan l pos + 1) + 1 < l.length - 1 := by
                          refine hne0 _ (by omega) ?_
                          rcases hq3.2 with h5 | h5 <;> rw [h5] <;> omega
                        omega
                      · omega
                    · exact h3
                  · split
                    · rename_i hq2
                      have h2 : digitscan l pos < l.length - 1 := by
                        refine hne0 _ h1 ?_
                        rcases hq2.2 with h5 | h5 <;> rw [h5] <;> omega
                      refine digitscan_le l _ hlast ?_
                      split
                      · rename_i hq3
                        have h6 : digitscan l pos + 1 < l.length - 1 := by
                          refine hne0 _ (by omega) ?_
                          rcases hq3.2 with h5 | h5 <;> rw [h5] <;> omega
                        omega
                      · omega
                    · exact h1
                · exact fun h => absurd (show tk_number = tk_blockcomment from h) (by decide)
                · exact fun h => absurd (show tk_number = tk_multilinestring from h) (by decide)
              · split
                · -- ident
                  refine ⟨rfl, rfl, ?_, ?_, ?_, ?_⟩
                  · show (if cfg.keywords.contains (subrunes l pos (identscan l pos)) then tk_keyword else tk_ident) ≠ tk_nl
                    split <;> decide
                  · show identscan l pos ≤ l.length - 1
                    rw [identscan]
                    exact identscanF_le l hlast _ pos (le_of_lt hp)
                  · intro h
                    revert h
                    show (if cfg.keywords.contains (subrunes l pos (identscan l pos)) then tk_keyword else tk_ident) = tk_blockcomment → _
                    split <;> intro h <;> exact absurd h (by decide)
                  · intro h
                    revert h
                    show (if cfg.keywords.contains (subrunes l pos (identscan l pos)) then tk_keyword else tk_ident) = tk_multilinestring → _
                    split <;> intro h <;> exact absurd h (by decide)
                · -- symbol
                  rw [readsymbol]
                  split
                  · rename_i hq
                    exact ⟨rfl, rfl, fun h => absurd (show tk_operator = tk_nl from h) (by decide), by omega,
                      fun h => absurd (show tk_operator = tk_blockcomment from h) (by decide),
                      fun h => absurd (show tk_operator = tk_multilinestring from h) (by decide)⟩
                  · split
                    · rename_i hq
                      exact ⟨rfl, rfl, fun h => absurd (show tk_operator = tk_nl from h) (by decide), by omega,
                        fun h => absurd (show tk_operator = tk_blockcomment from h) (by decide),
                        fun h => absurd (show tk_operator = tk_multilinestring from h) (by decide)⟩
                    · split
                      · exact ⟨rfl, rfl, fun h => absurd (show tk_operator = tk_nl from h) (by decide), by omega,
                          fun h => absurd (show tk_operator = tk_blockcomment from h) (by decide),
                          fun h => absurd (show tk_operator = tk_multilinestring from h) (by decide)⟩
                      · split
                        · exact ⟨rfl, rfl, fun h => absurd (show tk_symbol = tk_nl from h) (by decide), by omega,
                            fun h => absurd (show tk_symbol = tk_blockcomment from h) (by decide),
                            fun h => absurd (show tk_symbol = tk_multilinestring from h) (by decide)⟩
                        · exact ⟨rfl, rfl, fun h => absurd (show tk_unknown = tk_nl from h) (by decide), by omega,
                            fun h => absurd (show tk_unknown = tk_blockcomment from h) (by decide),
                            fun h => absurd (show tk_unknown = tk_multilinestring from h) (by decide)⟩


theorem tiledfrom_cons (l : line) (t : token) (rest : List token) (exp : Int)
    (h1 : t.typ ≠ tk_nl) (h2 : t.start = exp)
    (h3 : tiledfrom l.length t.end_ rest = true) :
    tiledfrom l.length exp (t :: rest) = true := by
  have hne : rest.isEmpty = false := by
    cases rest
    · rw [tiledfrom] at h3
      exact absurd h3 (by simp)
    · rfl
  rw [tiledfrom, if_neg (by rw [hne]; simp)]
  simp [h1, h2, h3]

theorem tokenizeloop_tiled (cfg : clikelanglinetokenizer) (l : line)
    (hlast : (bufat l (l.length - 1)).r = 0) (hwf : cfgwf cfg = true) :
    ∀ (fuel : Nat) (pos : Int) (inbc inml : Bool) (mss mse : List Nat) (acc : List token)
      (res : List token × lineattribute),
      tokenizeloop cfg l fuel pos inbc inml mss mse acc = some res →
      0 ≤ pos → pos ≤ l.length - 1 →
      ¬(inbc = true ∧ inml = true) →
      (inbc = true → pos = 0 ∨ pos = l.length - 1) →
      (inml = true → pos = 0 ∨ pos = l.length - 1) →
      ∃ rest, res.1 = acc ++ rest ∧ tiledfrom l.length pos rest = true := by
  intro fuel
  induction fuel with
  | zero =>
      intro pos inbc inml mss mse acc res heq h0 h1 hfl hibc himl
      rw [tokenizeloop] at heq
      cases heq
  | succ f ih =>
      intro pos inbc inml mss mse acc res heq h0 h1 hfl hibc himl
      rw [tokenizeloop] at heq
      by_cases hp : pos < l.length - 1
      · rw [if_pos hp] at heq
        split at heq
        · -- carried block comment
          rename_i hbc
          have hpos0 : pos = 0 := by
            rcases hibc hbc with h | h
            · exact h
            · omega
          dsimp only [readblockcomment] at heq
          rw [if_neg (by simp)] at heq
          have hml : inml = false := by
            cases hml2 : inml
            · rfl
            · exact absurd ⟨hbc, hml2⟩ hfl
          rw [bcscan] at heq
          have hge := bcscanF_fst_ge l cfg.blockcommentend (l.length - pos).toNat pos
          have hle := bcscanF_fst_le l cfg.blockcommentend (l.length - pos).toNat pos h1
          obtain ⟨rest2, hres, htile⟩ := ih _ _ _ _ _ _ _ heq (by omega) hle
            (by rw [hml]; simp)
            (by
              intro hterm
              right
              cases hu : (bcscanF l cfg.blockcommentend (l.length - pos).toNat pos).2
              · exact bcscanF_unterminated l cfg.blockcommentend _ pos (le_refl _) h1 hu
              · rw [hu] at hterm
                simp at hterm)
            (by rw [hml]; intro h; cases h)
          refine ⟨{ typ := tk_blockcomment, start := 0, end_ := (bcscanF l cfg.blockcommentend (l.length - pos).toNat pos).1,
                    blockcommentterminated := (bcscanF l cfg.blockcommentend (l.length - pos).toNat pos).2 } :: rest2, ?_, ?_⟩
          · rw [hres, List.append_assoc]
            rfl
          · refine tiledfrom_cons l _ _ _
              (fun h => absurd (show tk_blockcomment = tk_nl from h) (by decide)) ?_ htile
            exact hpos0.symm
        · split at heq
          · -- carried multi-line string
            rename_i hbc hml
            have hpos0 : pos = 0 := by
              rcases himl hml with h | h
              · exact h
              · omega
            dsimp only [readmultilinestring] at heq
            rw [if_neg (by simp)] at heq
            rw [mlscan] at heq
            have hge := mlscanF_fst_ge l mse (l.length - pos).toNat pos
            have hle := mlscanF_fst_le l mse (l.length - pos).toNat pos h1
            obtain ⟨rest2, hres, htile⟩ := ih _ _ _ _ _ _ _ heq (by omega) hle
              (by simp at hbc; rw [eq_comm] at hbc; simp [hbc])
              (by simp at hbc; rw [eq_comm] at hbc; simp [hbc])
              (by
                intro hterm
                right
                cases hu : (mlscanF l mse (l.length - pos).toNat pos).2
                · exact mlscanF_unterminated l mse _ pos (le_refl _) h1 hu
                · rw [hu] at hterm
                  simp at hterm)
            refine ⟨{ typ := tk_multilinestring, start := 0, end_ := (mlscanF l mse (l.length - pos).toNat pos).1,
                      multilinestrterminated := (mlscanF l mse (l.length - pos).toNat pos).2,
                      multilinestrstart := mss, multilinestrend := mse } :: rest2, ?_, ?_⟩
            · rw [hres, List.append_assoc]
              rfl
            · refine tiledfrom_cons l _ _ _
                (fun h => absurd (show tk_multilinestring = tk_nl from h) (by decide)) ?_ htile
              exact hpos0.symm
          · -- fresh token
            rename_i hbc hml
            dsimp only at heq
            have hspec := nexttoken_spec cfg l pos hp hlast hwf
            obtain ⟨hstart, hend, htyp, hle2, hbcu, hmlu⟩ := hspec
            have hadv := nexttoken_advance cfg l pos hp
            split at heq
            · -- block comment token
              rename_i htk
              obtain ⟨rest2, hres, htile⟩ := ih _ _ _ _ _ _ _ heq (by omega) hle2
                (by simp at hml; rw [eq_comm] at hml; simp [hml])
                (by
                  intro hterm
                  right
                  cases hu : (nexttoken cfg l pos).1.blockcommentterminated
                  · exact hbcu htk hu
                  · rw [hu] at hterm
                    simp at hterm)
                (by simp at hml; rw [eq_comm] at hml; simp [hml])
              refine ⟨(nexttoken cfg l pos).1 :: rest2, ?_, ?_⟩
              · rw [hres, List.append_assoc]
                rfl
              · refine tiledfrom_cons l _ _ _ htyp hstart ?_
                rw [hend]
                exact htile
            · split at heq
              · -- multi-line string token
                rename_i htk2 htk
                obtain ⟨rest2, hres, htile⟩ := ih _ _ _ _ _ _ _ heq (by omega) hle2
                  (by simp at hbc; rw [eq_comm] at hbc; simp [hbc])
                  (by simp at hbc; rw [eq_comm] at hbc; simp [hbc])
                  (by
                    intro hterm
                    right
                    cases hu : (nexttoken cfg l pos).1.multilinestrterminated
                    · exact hmlu htk hu
                    · rw [hu] at hterm
                      simp at hterm)
                refine ⟨(nexttoken cfg l pos).1 :: rest2, ?_, ?_⟩
                · rw [hres, List.append_assoc]
                  rfl
                · refine tiledfrom_cons l _ _ _ htyp hstart ?_
                  rw [hend]
                  exact htile
              · -- ordinary token
                rename_i htk2 htk3
                obtain ⟨rest2, hres, htile⟩ := ih _ _ _ _ _ _ _ heq (by omega) hle2
                  hfl (fun h => absurd h hbc) (fun h => absurd h hml)
                refine ⟨(nexttoken cfg l pos).1 :: rest2, ?_, ?_⟩
                · rw [hres, List.append_assoc]
                  rfl
                · refine tiledfrom_cons l _ _ _ htyp hstart ?_
                  rw [hend]
                  exact htile
      · rw [if_neg hp] at heq
        cases heq
        refine ⟨[{ typ := tk_nl, start := l.length, end_ := l.length - 1 }], rfl, ?_⟩
        have hpe : pos = l.length - 1 := by omega
        rw [tiledfrom]
        rw [if_pos (by simp)]
        simp [hpe]


/-- Claim C6, corrected: for every configuration whose start sequences
carry no zero code point, every nonempty line ending in its materialized
newline character (code point 0), and every incoming carry state in
which the block comment and multi-line string flags are NOT both set,
the tokens of `tokenizeline` tile the index range from 0 to length - 1
without gaps or overlaps - each non-nl token starts where the previous
one ended, the last non-nl token ends at length - 1, and a final
synthetic nl token covers the terminal position.  The original claim's
quantification over every carry state is refuted by the
both-flags-set counterexample. -/
theorem c6_tokenizeline_tiles (cfg : clikelanglinetokenizer) (l : line)
    (prev : lineattribute)
    (hwf : cfgwf cfg = true)
    (hbuf : l.buffer ≠ [])
    (hlast : (bufat l (l.length - 1)).r = 0)
    (hcarry : ¬(prev.inblockcomment = true ∧ prev.inmultilinestr = true)) :
    tiledfrom l.length 0 (tokenizeline cfg l prev).1 = true := by
  have hlen1 : 1 ≤ l.length := by
    have h1 : l.buffer.length ≠ 0 := fun h => hbuf (List.length_eq_zero.mp h)
    have h2 : l.length = (l.buffer.length : Int) := rfl
    omega
  obtain ⟨res, hres⟩ : ∃ res, tokenizeloop cfg l (tokenizefuel l) 0 prev.inblockcomment
      prev.inmultilinestr prev.multilinestrstart prev.multilinestrend [] = some res := by
    refine Option.isSome_iff_exists.mp (tokenizeloop_isSome cfg l (tokenizefuel l) 0
      prev.inblockcomment prev.inmultilinestr prev.multilinestrstart prev.multilinestrend []
      (Or.inl ?_))
    rw [tokenizefuel]
    have h2 : l.length = (l.buffer.length : Int) := rfl
    have h3 : (cond prev.inblockcomment 1 0) ≤ 1 := by cases prev.inblockcomment <;> simp
    have h4 : (cond prev.inmultilinestr 1 0) ≤ 1 := by cases prev.inmultilinestr <;> simp
    omega
  obtain ⟨rest, hr1, hr2⟩ := tokenizeloop_tiled cfg l hlast hwf _ _ _ _ _ _ _ _ hres
    (le_refl 0) (by omega) hcarry (fun _ => Or.inl rfl) (fun _ => Or.inl rfl)
  rw [tokenizeline, tokenizelineF, hres, Option.getD_some]
  simp only [List.nil_append] at hr1
  rw [hr1]
  exact hr2

/-- Claim C6 counterexample: with BOTH carry flags set (reachable as a
stored line attribute value), the Go configuration tokenizes the line
star-slash-x as a block comment token covering indices 0 to 2 and then
a multi-line string token starting again at 0 - the tokens overlap, so
the claimed tiling fails for this carry state. -/
theorem c6_both_carry_flags_break_tiling :
    tiledfrom (newline [42, 47, 120]).length 0
      (tokenizeline golangtokenizer (newline [42, 47, 120])
        { colors := [], inblockcomment := true, inmultilinestr := true,
          multilinestrstart := [96], multilinestrend := [96] }).1 = false := by
  decide

/-- Witness for the C6 theorem: the Go configuration on the one-character
line x with an empty carry state tiles. -/
theorem c6_tiles_witness :
    cfgwf golangtokenizer = true
      ∧ (newline [120]).buffer ≠ []
      ∧ (bufat (newline [120]) ((newline [120]).length - 1)).r = 0
      ∧ ¬(({} : lineattribute).inblockcomment = true ∧ ({} : lineattribute).inmultilinestr = true)
      ∧ tiledfrom (newline [120]).length 0
          (tokenizeline golangtokenizer (newline [120]) {}).1 = true :=
  ⟨by decide, by decide, by decide, by decide,
   c6_tokenizeline_tiles golangtokenizer (newline [120]) {} (by decide) (by decide)
     (by decide) (by decide)⟩

end Turtle

namespace Turtle

theorem cursorcmp_le_iff (a b : cursor) :
    cursorcmp a b ≤ 0 ↔ (a.y < b.y ∨ (a.y = b.y ∧ a.x ≤ b.x)) := by
  rw [cursorcmp]
  by_cases h1 : a.x = b.x ∧ a.y = b.y
  · rw [if_pos h1]
    constructor
    · intro _
      right
      omega
    · intro _
      omega
  · rw [if_neg h1]
    by_cases h2 : a.y ≠ b.y
    · rw [if_pos h2]
      split <;> constructor <;> intro h3 <;> omega
    · rw [if_neg h2]
      have hy : a.y = b.y := by omega
      have hx : a.x ≠ b.x := fun hh => h1 ⟨hh, hy⟩
      split <;> constructor <;> intro h3 <;> omega

theorem cursorcmp_total (a b : cursor) (h : ¬ cursorcmp a b ≤ 0) : cursorcmp b a ≤ 0 := by
  rw [cursorcmp_le_iff] at h ⊢
  omega

theorem cursorcmp_trans (a b c : cursor) (h1 : cursorcmp a b ≤ 0)
    (h2 : cursorcmp b c ≤ 0) : cursorcmp a c ≤ 0 := by
  rw [cursorcmp_le_iff] at h1 h2 ⊢
  omega

theorem inscursor_mem (c : cursor) :
    ∀ (cs : List cursor) (x : cursor), x ∈ inscursor c cs → x = c ∨ x ∈ cs := by
  intro cs
  induction cs with
  | nil =>
      intro x hx
      rw [inscursor] at hx
      simp at hx
      exact Or.inl hx
  | cons d ds ih =>
      intro x hx
      rw [inscursor] at hx
      split at hx
      · rcases List.mem_cons.mp hx with h | h
        · exact Or.inl h
        · exact Or.inr h
      · rcases List.mem_cons.mp hx with h | h
        · exact Or.inr (by simp [h])
        · rcases ih x h with h2 | h2
          · exact Or.inl h2
          · exact Or.inr (by simp [h2])

theorem inscursor_pairwise (c : cursor) :
    ∀ (cs : List cursor),
      cs.Pairwise (fun a b => cursorcmp a b ≤ 0) →
      (inscursor c cs).Pairwise (fun a b => cursorcmp a b ≤ 0) := by
  intro cs
  induction cs with
  | nil =>
      intro _
      rw [inscursor]
      simp
  | cons d ds ih =>
      intro hp
      rw [List.pairwise_cons] at hp
      rw [inscursor]
      split
      · rename_i hle
        rw [List.pairwise_cons]
        refine ⟨?_, List.pairwise_cons.mpr hp⟩
        intro x hx
        rcases List.mem_cons.mp hx with h | h
        · rw [h]
          exact hle
        · exact cursorcmp_trans c d x hle (hp.1 x h)
      · rename_i hgt
        rw [List.pairwise_cons]
        refine ⟨?_, ih hp.2⟩
        intro x hx
        rcases inscursor_mem c ds x hx with h | h
        · rw [h]
          exact cursorcmp_total c d hgt
        · exact hp.1 x h

theorem inscursor_length (c : cursor) :
    ∀ (cs : List cursor), (inscursor c cs).length = cs.length + 1 := by
  intro cs
  induction cs with
  | nil => rfl
  | cons d ds ih =>
      rw [inscursor]
      split
      · rfl
      · simp [ih]

theorem sortcursors_pairwise (cs : List cursor) :
    (sortcursors cs).Pairwise (fun a b => cursorcmp a b ≤ 0) := by
  induction cs with
  | nil => simp [sortcursors]
  | cons c cs ih =>
      rw [sortcursors, List.foldr_cons]
      exact inscursor_pairwise c _ ih

theorem sortcursors_length (cs : List cursor) :
    (sortcursors cs).length = cs.length := by
  induction cs with
  | nil => rfl
  | cons c cs ih =>
      rw [sortcursors, List.foldr_cons]
      rw [inscursor_length]
      rw [show List.foldr inscursor [] cs = sortcursors cs from rfl, ih, List.length_cons]

theorem compactafter_pairwise :
    ∀ (cs : List cursor) (a : cursor),
      (∀ x ∈ cs, cursorcmp a x ≤ 0) →
      cs.Pairwise (fun a b => cursorcmp a b ≤ 0) →
      (a :: compactafter a cs).Pairwise
        (fun p q => p.y < q.y ∨ (p.y = q.y ∧ p.x < q.x)) := by
  intro cs
  induction cs with
  | nil =>
      intro a _ _
      rw [compactafter]
      simp
  | cons b rest ih =>
      intro a hall hp
      rw [List.pairwise_cons] at hp
      rw [compactafter]
      split
      · rename_i heq2
        exact ih a (fun x hx => hall x (by simp [hx])) hp.2
      · rename_i hne2
        have hab : a.y < b.y ∨ (a.y = b.y ∧ a.x < b.x) := by
          have h1 := hall b (by simp)
          rw [cursorcmp_le_iff] at h1
          have h2 : ¬(a.x = b.x ∧ a.y = b.y) := hne2
          omega
        have hb := ih b hp.1 hp.2
        rw [List.pairwise_cons]
        refine ⟨?_, hb⟩
        intro x hx
        rcases List.mem_cons.mp hx with h | h
        · rw [h]
          exact hab
        · have := (List.pairwise_cons.mp hb).1 x h
          omega

theorem cleanup_pairwise (cs : List cursor) :
    (compactcursors (sortcursors cs)).Pairwise
      (fun p q => p.y < q.y ∨ (p.y = q.y ∧ p.x < q.x)) := by
  cases hs : sortcursors cs with
  | nil => rw [compactcursors]; simp
  | cons a rest =>
      rw [compactcursors]
      have hp := sortcursors_pairwise cs
      rw [hs, List.pairwise_cons] at hp
      exact compactafter_pairwise rest a hp.1 hp.2

theorem cleanup_ne_nil (cs : List cursor) (hne : cs ≠ []) :
    compactcursors (sortcursors cs) ≠ [] := by
  cases hs : sortcursors cs with
  | nil =>
      have h1 := sortcursors_length cs
      rw [hs] at h1
      simp at h1
      exact absurd (List.length_eq_zero.mp h1.symm) hne
  | cons a rest =>
      rw [compactcursors]
      simp


theorem cursors_updatelinenumberwidth (s : screen) :
    (updatelinenumberwidth s).cursors = s.cursors := by
  unfold updatelinenumberwidth
  split <;> rfl

theorem movecursorfunc_length (s : screen) (i : Nat)
    (f : screen → cursor → Option (Int × Int)) (s2 : screen)
    (h : movecursorfunc s i f = some s2) :
    s2.cursors.length = s.cursors.length := by
  rw [movecursorfunc] at h
  cases hfx : f (registerRenderLine s (s.cursors.getD i dummycursor).y)
      (s.cursors.getD i dummycursor) with
  | none =>
      rw [hfx] at h
      cases h
  | some xy =>
      rw [hfx] at h
      simp only [Option.some_bind] at h
      cases h
      split <;> simp [registerRenderLine]

theorem foldlM_cursors_length (g : screen → Nat → Option screen)
    (hg : ∀ t i t2, g t i = some t2 → t2.cursors.length = t.cursors.length) :
    ∀ (L : List Nat) (t t2 : screen), L.foldlM g t = some t2 →
      t2.cursors.length = t.cursors.length := by
  intro L
  induction L with
  | nil =>
      intro t t2 h
      cases h
      rfl
  | cons a L ih =>
      intro t t2 h
      rw [List.foldlM_cons] at h
      cases hga : g t a with
      | none =>
          rw [hga] at h
          cases h
      | some t1 =>
          rw [hga] at h
          have h2 : List.foldlM g t1 L = some t2 := h
          rw [ih t1 t2 h2, hg t a t1 hga]

theorem movecursorsfunc_length (s : screen)
    (f : screen → cursor → Option (Int × Int)) (s2 : screen)
    (h : movecursorsfunc s f = some s2) :
    s2.cursors.length = s.cursors.length := by
  rw [movecursorsfunc] at h
  exact foldlM_cursors_length _ (fun t i t2 ht => movecursorfunc_length t i f t2 ht) _ s s2 h

theorem shiftcursors_length (s : screen) (d : direction) (from_ : Nat) (amount : Int)
    (s2 : screen) (h : shiftcursors s d from_ amount = some s2) :
    s2.cursors.length = s.cursors.length := by
  cases d with
  | up =>
      rw [shiftcursors] at h
      cases h
      simp
  | down =>
      rw [shiftcursors] at h
      cases h
      simp
  | left => simp [shiftcursors] at h
  | right => simp [shiftcursors] at h


theorem insline_cursors (s : screen) (c : cursor) (d : direction) (s2 : screen)
    (h : insline s c d = some s2) : s2.cursors = s.cursors := by
  cases d with
  | up =>
      rw [insline] at h
      have h2 : some (updatelinenumberwidth
          { registerRenderLineAfter
              { s with lines := insertat s.lines c.y newemptyline,
                       lineattrs := insertat s.lineattrs c.y {} } c.y with dirty := true })
          = some s2 := h
      cases h2
      rw [cursors_updatelinenumberwidth]
      rfl
  | down =>
      rw [insline] at h
      have h2 : some (updatelinenumberwidth
          { registerRenderLineAfter
              { s with lines := insertat s.lines (c.y + 1) newemptyline,
                       lineattrs := insertat s.lineattrs (c.y + 1) {} } c.y with dirty := true })
          = some s2 := h
      cases h2
      rw [cursors_updatelinenumberwidth]
      rfl
  | left =>
      have h2 : (none : Option screen) = some s2 := h
      cases h2
  | right =>
      have h2 : (none : Option screen) = some s2 := h
      cases h2

theorem delline_cursors (s : screen) (y : Int) :
    (delline s y).cursors = s.cursors := by
  rw [delline]
  rw [cursors_updatelinenumberwidth]
  rfl

theorem joinlines_cursors (s : screen) (from_ to_ : Int) :
    (joinlines s from_ to_).cursors = s.cursors := by
  rw [joinlines]
  rw [cursors_updatelinenumberwidth]
  have hstep1 : ∀ (L : List Int) (t : screen),
      (L.foldl (fun s i =>
        let base := geti s.lines from_ nullline
        let other := geti s.lines i nullline
        { s with lines := seti s.lines from_ { buffer := base.delnl.buffer ++ other.buffer } }) t).cursors
      = t.cursors := by
    intro L
    induction L with
    | nil => intro t; rfl
    | cons a L ih =>
        intro t
        rw [List.foldl_cons, ih]
  have hstep2 : ∀ (L : List Int) (t : screen),
      (L.foldl (fun s i => delline s i) t).cursors = t.cursors := by
    intro L
    induction L with
    | nil => intro t; rfl
    | cons a L ih =>
        intro t
        rw [List.foldl_cons, ih, delline_cursors]
  rw [show (registerRenderLineAfter
      ((intsfromto (from_ + 1) (to_ + 1)).foldl (fun s i => delline s i)
        ((intsfromto (from_ + 1) (to_ + 1)).foldl (fun s i =>
          let base := geti s.lines from_ nullline
          let other := geti s.lines i nullline
          { s with lines := seti s.lines from_ { buffer := base.delnl.buffer ++ other.buffer } }) s))
      from_).cursors
    = ((intsfromto (from_ + 1) (to_ + 1)).foldl (fun s i => delline s i)
        ((intsfromto (from_ + 1) (to_ + 1)).foldl (fun s i =>
          let base := geti s.lines from_ nullline
          let other := geti s.lines i nullline
          { s with lines := seti s.lines from_ { buffer := base.delnl.buffer ++ other.buffer } }) s)).cursors
    from rfl]
  rw [hstep2, hstep1]

theorem highlightchangedlines_cursors (s s2 : screen)
    (h : highlightchangedlines s = some s2) : s2.cursors = s.cursors := by
  rw [highlightchangedlines] at h
  split at h
  · cases h
    rfl
  · have h2 : (match hclloop s.highlighter s.lines
          ((dedupadjints (sortints s.linestoberendered)).getLastD 0)
          ((dedupadjints (sortints s.linestoberendered)).headD 0)
          s.lineattrs s.highlightupdatedlines with
        | some au => some { s with linestoberendered := dedupadjints (sortints s.linestoberendered),
                                   lineattrs := au.1, highlightupdatedlines := au.2 }
        | none => (none : Option screen)) = some s2 := h
    split at h2
    · cases h2
      rfl
    · cases h2


theorem movecursors_length (s : screen) (d : direction) (cnt : Int) (s2 : screen)
    (h : movecursors s d cnt = some s2) : s2.cursors.length = s.cursors.length := by
  rw [movecursors] at h
  exact movecursorsfunc_length _ _ _ h

theorem movecursori_length (s : screen) (i : Nat) (d : direction) (cnt : Int) (s2 : screen)
    (h : movecursori s i d cnt = some s2) : s2.cursors.length = s.cursors.length := by
  rw [movecursori] at h
  exact movecursorfunc_length _ _ _ _ h

theorem scrollhalf_length (s : screen) (d : direction) (s2 : screen)
    (h : scrollhalf s d = some s2) : s2.cursors.length = s.cursors.length := by
  cases d with
  | up =>
      rw [scrollhalf] at h
      rw [movecursorsfunc_length _ _ _ h]
  | down =>
      rw [scrollhalf] at h
      rw [movecursorsfunc_length _ _ _ h]
  | left =>
      have h2 : (none : Option screen) = some s2 := h
      cases h2
  | right =>
      have h2 : (none : Option screen) = some s2 := h
      cases h2

theorem insertcharsatcursors_length (s : screen) (chars : List character) (s2 : screen)
    (h : insertcharsatcursors s chars = some s2) :
    s2.cursors.length = s.cursors.length := by
  rw [insertcharsatcursors] at h
  refine foldlM_cursors_length _ ?_ _ s s2 h
  intro t i t2 hb
  dsimp only at hb
  obtain ⟨j, hj, hb⟩ := Option.bind_eq_some.mp hb
  obtain ⟨j2, hj2, hb⟩ := Option.bind_eq_some.mp hb
  obtain ⟨t1, ht1, hb⟩ := Option.bind_eq_some.mp hb
  cases hb
  have hlen := movecursors_length _ _ _ _ ht1
  simp only [registerRenderLine]
  rw [hlen]
  simp

theorem replacecursorchar_length (s : screen) (ch : character) (s2 : screen)
    (h : replacecursorchar s ch = some s2) :
    s2.cursors.length = s.cursors.length := by
  rw [replacecursorchar] at h
  obtain ⟨t, ht, h2⟩ := Option.bind_eq_some.mp h
  cases h2
  show t.cursors.length = s.cursors.length
  refine foldlM_cursors_length _ ?_ _ s t ht
  intro t i t2 hb
  dsimp only at hb
  obtain ⟨j, hj, hb⟩ := Option.bind_eq_some.mp hb
  cases hb
  simp [registerRenderLine]

theorem deletecursorchar_length (s : screen) (s2 : screen)
    (h : deletecursorchar s = some s2) :
    s2.cursors.length = s.cursors.length := by
  rw [deletecursorchar] at h
  refine foldlM_cursors_length _ ?_ _ s s2 h
  intro t i t2 hb
  dsimp only at hb
  obtain ⟨tl, htl, hb⟩ := Option.bind_eq_some.mp hb
  split at hb
  · have hlen := shiftcursors_length _ _ _ _ _ hb
    rw [hlen, joinlines_cursors]
  · obtain ⟨j, hj, hb⟩ := Option.bind_eq_some.mp hb
    cases hb
    simp [registerRenderLine]

theorem deletecursorprevchar_length (s : screen) (s2 : screen)
    (h : deletecursorprevchar s = some s2) :
    s2.cursors.length = s.cursors.length := by
  rw [deletecursorprevchar] at h
  refine foldlM_cursors_length _ ?_ _ s s2 h
  intro t i t2 hb
  dsimp only at hb
  obtain ⟨j, hj, hb⟩ := Option.bind_eq_some.mp hb
  split at hb
  · split at hb
    · obtain ⟨t1, ht1, hb⟩ := Option.bind_eq_some.mp hb
      have hlen2 := shiftcursors_length _ _ _ _ _ hb
      have hlen1 := movecursori_length _ _ _ _ _ ht1
      rw [hlen2]
      simp only [List.length_set]
      rw [hlen1, joinlines_cursors]
      simp [registerRenderLineAfter]
    · cases hb
      rfl
  · obtain ⟨t1, ht1, hb⟩ := Option.bind_eq_some.mp hb
    obtain ⟨j2, hj2, hb⟩ := Option.bind_eq_some.mp hb
    cases hb
    have hlen1 := movecursori_length _ _ _ _ _ ht1
    simp [registerRenderLine, hlen1]

theorem insertlinefromcursors_length (s : screen) (d : direction) (s2 : screen)
    (h : insertlinefromcursors s d = some s2) :
    s2.cursors.length = s.cursors.length := by
  rw [insertlinefromcursors] at h
  refine foldlM_cursors_length _ ?_ _ s s2 h
  intro t i t2 hb
  dsimp only at hb
  obtain ⟨t1, ht1, hb⟩ := Option.bind_eq_some.mp hb
  obtain ⟨t3, ht3, hb⟩ := Option.bind_eq_some.mp hb
  have hlen3 := movecursori_length _ _ _ _ _ hb
  have hlen2 := shiftcursors_length _ _ _ _ _ ht3
  have hlen1 := insline_cursors _ _ _ _ ht1
  rw [hlen3, hlen2, hlen1]

theorem splitcursorsline_length (s : screen) (s2 : screen)
    (h : splitcursorsline s = some s2) :
    s2.cursors.length = s.cursors.length := by
  rw [splitcursorsline] at h
  obtain ⟨t, ht, h2⟩ := Option.bind_eq_some.mp h
  cases h2
  show t.cursors.length = s.cursors.length
  refine foldlM_cursors_length _ ?_ _ s t ht
  intro t i t2 hb
  dsimp only at hb
  obtain ⟨curidx, hci, hb⟩ := Option.bind_eq_some.mp hb
  obtain ⟨t1, ht1, hb⟩ := Option.bind_eq_some.mp hb
  obtain ⟨t3, ht3, hb⟩ := Option.bind_eq_some.mp hb
  have hlen4 := shiftcursors_length _ _ _ _ _ hb
  have hlen3 := movecursori_length _ _ _ _ _ ht3
  have hlen1 := insline_cursors _ _ _ _ ht1
  rw [hlen4]
  simp only [List.length_set]
  rw [hlen3, hlen1]
  simp [registerRenderLineAfter]

theorem addcursorbelow_ne (s : screen) (s2 : screen)
    (h : addcursorbelow s = some s2) : s2.cursors ≠ [] := by
  rw [addcursorbelow] at h
  obtain ⟨lc, hlc, h2⟩ := Option.bind_eq_some.mp h
  split at h2
  · cases h2
    simp [registerRenderLine]
  · cases h2
    exact List.ne_nil_of_mem (List.mem_of_mem_getLast? hlc)

theorem deletecursors_ne (s : screen) (hne : s.cursors ≠ []) :
    (deletecursors s).cursors ≠ [] := by
  rw [deletecursors]
  have h1 : s.cursors.length ≠ 0 := fun h0 => hne (List.length_eq_zero.mp h0)
  intro hc
  have h2 : s.cursors.drop (s.cursors.length - 1) = [] := hc
  have h3 := congrArg List.length h2
  rw [List.length_drop] at h3
  simp at h3
  omega


/-- Claim C8: after every keystroke that `handle` completes (returns
`some`), starting from a screen with a non-empty cursor list, the cursor
list is non-empty, strictly increasing in `(y, x)` lexicographic order,
and contains no two cursors with equal `(x, y)`: the final
`cleanupcursors` sorts by `cursorcmp` and collapses equal neighbours,
and every dispatched operation preserves non-emptiness. -/
theorem c8_cursor_invariant (s : screen) (m : mode) (buff : input) (stream : List input)
    (r : mode × screen × List input)
    (h : handle s m buff stream = some r)
    (hne : s.cursors ≠ []) :
    r.2.1.cursors ≠ []
    ∧ r.2.1.cursors.Pairwise (fun p q => p.y < q.y ∨ (p.y = q.y ∧ p.x < q.x))
    ∧ r.2.1.cursors.Pairwise (fun p q => ¬(p.x = q.x ∧ p.y = q.y)) := by
  have hlen2ne : ∀ (t : screen), t.cursors.length = s.cursors.length → t.cursors ≠ [] := by
    intro t hl hc
    rw [hc] at hl
    simp at hl
    exact hne (List.length_eq_zero.mp hl.symm)
  rw [handle.eq_def] at h
  obtain ⟨trip, hd, h2⟩ := Option.bind_eq_some.mp h
  obtain ⟨m2, s2, st2⟩ := trip
  obtain ⟨s3, hh, h3⟩ := Option.bind_eq_some.mp h2
  cases h3
  have hs3 : s3.cursors = s2.cursors := highlightchangedlines_cursors s2 s3 hh
  have hs2ne : s2.cursors ≠ [] := by
    clear h h2 hh hs3
    cases m with
    | normal =>
      dsimp only at hd
      by_cases hnum : (isnumber buff).1 = true
      case pos =>
        rw [if_pos ⟨rfl, hnum⟩] at hd
        dsimp only at hd
        set clr := countloop (isnumber buff).2 stream with hclr
        set ri := readinput clr.2.2 with hri
        clear hri hclr
        clear_value clr ri
        split at hd
        case h_7 =>
          by_cases hcx1 : clr.2.1.r = 67
          · rw [if_pos hcx1] at hd
            first
              | exact Option.noConfusion hd
              | (cases hd; exact hne)
              | (cases hd; exact deletecursors_ne s hne)
              | (obtain ⟨s4, hop, hinj⟩ := Option.map_eq_some'.mp hd
                 cases hinj
                 first
                   | exact hlen2ne _ (movecursors_length _ _ _ _ hop)
                   | exact hlen2ne _ (scrollhalf_length _ _ _ hop)
                   | exact addcursorbelow_ne _ _ hop
                   | exact hlen2ne _ (deletecursorchar_length _ _ hop)
                   | exact hlen2ne _ (insertlinefromcursors_length _ _ _ hop)
                   | exact hlen2ne _ (deletecursorprevchar_length _ _ hop)
                   | exact hlen2ne _ (insertcharsatcursors_length _ _ _ hop)
                   | exact hlen2ne _ (replacecursorchar_length _ _ _ hop)
                   | exact hlen2ne _ (splitcursorsline_length _ _ hop)
                   | exact hlen2ne _ (movecursorsfunc_length _ _ _ hop)
                   | exact hlen2ne _ (by
                       rw [movecursorstoprevch] at hop
                       exact movecursorsfunc_length _ _ _ hop))
          · rw [if_neg hcx1] at hd
            by_cases hcx2 : clr.2.1.r = 44
            · rw [if_pos hcx2] at hd
              first
                | exact Option.noConfusion hd
                | (cases hd; exact hne)
                | (cases hd; exact deletecursors_ne s hne)
                | (obtain ⟨s4, hop, hinj⟩ := Option.map_eq_some'.mp hd
                   cases hinj
                   first
                     | exact hlen2ne _ (movecursors_length _ _ _ _ hop)
                     | exact hlen2ne _ (scrollhalf_length _ _ _ hop)
                     | exact addcursorbelow_ne _ _ hop
                     | exact hlen2ne _ (deletecursorchar_length _ _ hop)
                     | exact hlen2ne _ (insertlinefromcursors_length _ _ _ hop)
                     | exact hlen2ne _ (deletecursorprevchar_length _ _ hop)
                     | exact hlen2ne _ (insertcharsatcursors_length _ _ _ hop)
                     | exact hlen2ne _ (replacecursorchar_length _ _ _ hop)
                     | exact hlen2ne _ (splitcursorsline_length _ _ hop)
                     | exact hlen2ne _ (movecursorsfunc_length _ _ _ hop)
                     | exact hlen2ne _ (by
                         rw [movecursorstoprevch] at hop
                         exact movecursorsfunc_length _ _ _ hop))
            · rw [if_neg hcx2] at hd
              by_cases hcx3 : clr.2.1.r = 100
              · rw [if_pos hcx3] at hd
                first
                  | exact Option.noConfusion hd
                  | (cases hd; exact hne)
                  | (cases hd; exact deletecursors_ne s hne)
                  | (obtain ⟨s4, hop, hinj⟩ := Option.map_eq_some'.mp hd
                     cases hinj
                     first
                       | exact hlen2ne _ (movecursors_length _ _ _ _ hop)
                       | exact hlen2ne _ (scrollhalf_length _ _ _ hop)
                       | exact addcursorbelow_ne _ _ hop
                       | exact hlen2ne _ (deletecursorchar_length _ _ hop)
                       | exact hlen2ne _ (insertlinefromcursors_length _ _ _ hop)
                       | exact hlen2ne _ (deletecursorprevchar_length _ _ hop)
                       | exact hlen2ne _ (insertcharsatcursors_length _ _ _ hop)
                       | exact hlen2ne _ (replacecursorchar_length _ _ _ hop)
                       | exact hlen2ne _ (splitcursorsline_length _ _ hop)
                       | exact hlen2ne _ (movecursorsfunc_length _ _ _ hop)
                       | exact hlen2ne _ (by
                           rw [movecursorstoprevch] at hop
                           exact movecursorsfunc_length _ _ _ hop))
              · rw [if_neg hcx3] at hd
                by_cases hcx4 : clr.2.1.r = 111
                · rw [if_pos hcx4] at hd
                  first
                    | exact Option.noConfusion hd
                    | (cases hd; exact hne)
                    | (cases hd; exact deletecursors_ne s hne)
                    | (obtain ⟨s4, hop, hinj⟩ := Option.map_eq_some'.mp hd
                       cases hinj
                       first
                         | exact hlen2ne _ (movecursors_length _ _ _ _ hop)
                         | exact hlen2ne _ (scrollhalf_length _ _ _ hop)
                         | exact addcursorbelow_ne _ _ hop
                         | exact hlen2ne _ (deletecursorchar_length _ _ hop)
                         | exact hlen2ne _ (insertlinefromcursors_length _ _ _ hop)
                         | exact hlen2ne _ (deletecursorprevchar_length _ _ hop)
                         | exact hlen2ne _ (insertcharsatcursors_length _ _ _ hop)
                         | exact hlen2ne _ (replacecursorchar_length _ _ _ hop)
                         | exact hlen2ne _ (splitcursorsline_length _ _ hop)
                         | exact hlen2ne _ (movecursorsfunc_length _ _ _ hop)
                         | exact hlen2ne _ (by
                             rw [movecursorstoprevch] at hop
                             exact movecursorsfunc_length _ _ _ hop))
                · rw [if_neg hcx4] at hd
                  by_cases hcx5 : clr.2.1.r = 79
                  · rw [if_pos hcx5] at hd
                    first
                      | exact Option.noConfusion hd
                      | (cases hd; exact hne)
                      | (cases hd; exact deletecursors_ne s hne)
                      | (obtain ⟨s4, hop, hinj⟩ := Option.map_eq_some'.mp hd
                         cases hinj
                         first
                           | exact hlen2ne _ (movecursors_length _ _ _ _ hop)
                           | exact hlen2ne _ (scrollhalf_length _ _ _ hop)
                           | exact addcursorbelow_ne _ _ hop
                           | exact hlen2ne _ (deletecursorchar_length _ _ hop)
                           | exact hlen2ne _ (insertlinefromcursors_length _ _ _ hop)
                           | exact hlen2ne _ (deletecursorprevchar_length _ _ hop)
                           | exact hlen2ne _ (insertcharsatcursors_length _ _ _ hop)
                           | exact hlen2ne _ (replacecursorchar_length _ _ _ hop)
                           | exact hlen2ne _ (splitcursorsline_length _ _ hop)
                           | exact hlen2ne _ (movecursorsfunc_length _ _ _ hop)
                           | exact hlen2ne _ (by
                               rw [movecursorstoprevch] at hop
                               exact movecursorsfunc_length _ _ _ hop))
                  · rw [if_neg hcx5] at hd
                    by_cases hcx6 : clr.2.1.r = 71
                    · rw [if_pos hcx6] at hd
                      rw [if_pos rfl] at hd
                      first
                        | exact Option.noConfusion hd
                        | (cases hd; exact hne)
                        | (cases hd; exact deletecursors_ne s hne)
                        | (obtain ⟨s4, hop, hinj⟩ := Option.map_eq_some'.mp hd
                           cases hinj
                           first
                             | exact hlen2ne _ (movecursors_length _ _ _ _ hop)
                             | exact hlen2ne _ (scrollhalf_length _ _ _ hop)
                             | exact addcursorbelow_ne _ _ hop
                             | exact hlen2ne _ (deletecursorchar_length _ _ hop)
                             | exact hlen2ne _ (insertlinefromcursors_length _ _ _ hop)
                             | exact hlen2ne _ (deletecursorprevchar_length _ _ hop)
                             | exact hlen2ne _ (insertcharsatcursors_length _ _ _ hop)
                             | exact hlen2ne _ (replacecursorchar_length _ _ _ hop)
                             | exact hlen2ne _ (splitcursorsline_length _ _ hop)
                             | exact hlen2ne _ (movecursorsfunc_length _ _ _ hop)
                             | exact hlen2ne _ (by
                                 rw [movecursorstoprevch] at hop
                                 exact movecursorsfunc_length _ _ _ hop))
                    · rw [if_neg hcx6] at hd
                      by_cases hcx7 : clr.2.1.r = 103
                      · rw [if_pos hcx7] at hd
                        by_cases hcx8 : ri.1.r = 103
                        · rw [if_pos hcx8] at hd
                          first
                            | exact Option.noConfusion hd
                            | (cases hd; exact hne)
                            | (cases hd; exact deletecursors_ne s hne)
                            | (obtain ⟨s4, hop, hinj⟩ := Option.map_eq_some'.mp hd
                               cases hinj
                               first
                                 | exact hlen2ne _ (movecursors_length _ _ _ _ hop)
                                 | exact hlen2ne _ (scrollhalf_length _ _ _ hop)
                                 | exact addcursorbelow_ne _ _ hop
                                 | exact hlen2ne _ (deletecursorchar_length _ _ hop)
                                 | exact hlen2ne _ (insertlinefromcursors_length _ _ _ hop)
                                 | exact hlen2ne _ (deletecursorprevchar_length _ _ hop)
                                 | exact hlen2ne _ (insertcharsatcursors_length _ _ _ hop)
                                 | exact hlen2ne _ (replacecursorchar_length _ _ _ hop)
                                 | exact hlen2ne _ (splitcursorsline_length _ _ hop)
                                 | exact hlen2ne _ (movecursorsfunc_length _ _ _ hop)
                                 | exact hlen2ne _ (by
                                     rw [movecursorstoprevch] at hop
                                     exact movecursorsfunc_length _ _ _ hop))
                        · rw [if_neg hcx8] at hd
                          by_cases hcx9 : ri.1.r = 101
                          · rw [if_pos hcx9] at hd
                            first
                              | exact Option.noConfusion hd
                              | (cases hd; exact hne)
                              | (cases hd; exact deletecursors_ne s hne)
                              | (obtain ⟨s4, hop, hinj⟩ := Option.map_eq_some'.mp hd
                                 cases hinj
                                 first
                                   | exact hlen2ne _ (movecursors_length _ _ _ _ hop)
                                   | exact hlen2ne _ (scrollhalf_length _ _ _ hop)
                                   | exact addcursorbelow_ne _ _ hop
                                   | exact hlen2ne _ (deletecursorchar_length _ _ hop)
                                   | exact hlen2ne _ (insertlinefromcursors_length _ _ _ hop)
                                   | exact hlen2ne _ (deletecursorprevchar_length _ _ hop)
                                   | exact hlen2ne _ (insertcharsatcursors_length _ _ _ hop)
                                   | exact hlen2ne _ (replacecursorchar_length _ _ _ hop)
                                   | exact hlen2ne _ (splitcursorsline_length _ _ hop)
                                   | exact hlen2ne _ (movecursorsfunc_length _ _ _ hop)
                                   | exact hlen2ne _ (by
                                       rw [movecursorstoprevch] at hop
                                       exact movecursorsfunc_length _ _ _ hop))
                          · rw [if_neg hcx9] at hd
                            by_cases hcx10 : ri.1.r = 108
                            · rw [if_pos hcx10] at hd
                              first
                                | exact Option.noConfusion hd
                                | (cases hd; exact hne)
                                | (cases hd; exact deletecursors_ne s hne)
                                | (obtain ⟨s4, hop, hinj⟩ := Option.map_eq_some'.mp hd
                                   cases hinj
                                   first
                                     | exact hlen2ne _ (movecursors_length _ _ _ _ hop)
                                     | exact hlen2ne _ (scrollhalf_length _ _ _ hop)
                                     | exact addcursorbelow_ne _ _ hop
                                     | exact hlen2ne _ (deletecursorchar_length _ _ hop)
                                     | exact hlen2ne _ (insertlinefromcursors_length _ _ _ hop)
                                     | exact hlen2ne _ (deletecursorprevchar_length _ _ hop)
                                     | exact hlen2ne _ (insertcharsatcursors_length _ _ _ hop)
                                     | exact hlen2ne _ (replacecursorchar_length _ _ _ hop)
                                     | exact hlen2ne _ (splitcursorsline_length _ _ hop)
                                     | exact hlen2ne _ (movecursorsfunc_length _ _ _ hop)
                                     | exact hlen2ne _ (by
                                         rw [movecursorstoprevch] at hop
                                         exact movecursorsfunc_length _ _ _ hop))
                            · rw [if_neg hcx10] at hd
                              by_cases hcx11 : ri.1.r = 115
                              · rw [if_pos hcx11] at hd
                                first
                                  | exact Option.noConfusion hd
                                  | (cases hd; exact hne)
                                  | (cases hd; exact deletecursors_ne s hne)
                                  | (obtain ⟨s4, hop, hinj⟩ := Option.map_eq_some'.mp hd
                                     cases hinj
                                     first
                                       | exact hlen2ne _ (movecursors_length _ _ _ _ hop)
                                       | exact hlen2ne _ (scrollhalf_length _ _ _ hop)
                                       | exact addcursorbelow_ne _ _ hop
                                       | exact hlen2ne _ (deletecursorchar_length _ _ hop)
                                       | exact hlen2ne _ (insertlinefromcursors_length _ _ _ hop)
                                       | exact hlen2ne _ (deletecursorprevchar_length _ _ hop)
                                       | exact hlen2ne _ (insertcharsatcursors_length _ _ _ hop)
                                       | exact hlen2ne _ (replacecursorchar_length _ _ _ hop)
                                       | exact hlen2ne _ (splitcursorsline_length _ _ hop)
                                       | exact hlen2ne _ (movecursorsfunc_length _ _ _ hop)
                                       | exact hlen2ne _ (by
                                           rw [movecursorstoprevch] at hop
                                           exact movecursorsfunc_length _ _ _ hop))
                              · rw [if_neg hcx11] at hd
                                by_cases hcx12 : ri.1.r = 104
                                · rw [if_pos hcx12] at hd
                                  first
                                    | exact Option.noConfusion hd
                                    | (cases hd; exact hne)
                                    | (cases hd; exact deletecursors_ne s hne)
                                    | (obtain ⟨s4, hop, hinj⟩ := Option.map_eq_some'.mp hd
                                       cases hinj
                                       first
                                         | exact hlen2ne _ (movecursors_length _ _ _ _ hop)
                                         | exact hlen2ne _ (scrollhalf_length _ _ _ hop)
                                         | exact addcursorbelow_ne _ _ hop
                                         | exact hlen2ne _ (deletecursorchar_length _ _ hop)
                                         | exact hlen2ne _ (insertlinefromcursors_length _ _ _ hop)
                                         | exact hlen2ne _ (deletecursorprevchar_length _ _ hop)
                                         | exact hlen2ne _ (insertcharsatcursors_length _ _ _ hop)
                                         | exact hlen2ne _ (replacecursorchar_length _ _ _ hop)
                                         | exact hlen2ne _ (splitcursorsline_length _ _ hop)
                                         | exact hlen2ne _ (movecursorsfunc_length _ _ _ hop)
                                         | exact hlen2ne _ (by
                                             rw [movecursorstoprevch] at hop
                                             exact movecursorsfunc_length _ _ _ hop))
                                · rw [if_neg hcx12] at hd
                                  first
                                    | exact Option.noConfusion hd
                                    | (cases hd; exact hne)
                                    | (cases hd; exact deletecursors_ne s hne)
                                    | (obtain ⟨s4, hop, hinj⟩ := Option.map_eq_some'.mp hd
                                       cases hinj
                                       first
                                         | exact hlen2ne _ (movecursors_length _ _ _ _ hop)
                                         | exact hlen2ne _ (scrollhalf_length _ _ _ hop)
                                         | exact addcursorbelow_ne _ _ hop
                                         | exact hlen2ne _ (deletecursorchar_length _ _ hop)
                                         | exact hlen2ne _ (insertlinefromcursors_length _ _ _ hop)
                                         | exact hlen2ne _ (deletecursorprevchar_length _ _ hop)
                                         | exact hlen2ne _ (insertcharsatcursors_length _ _ _ hop)
                                         | exact hlen2ne _ (replacecursorchar_length _ _ _ hop)
                                         | exact hlen2ne _ (splitcursorsline_length _ _ hop)
                                         | exact hlen2ne _ (movecursorsfunc_length _ _ _ hop)
                                         | exact hlen2ne _ (by
                                             rw [movecursorstoprevch] at hop
                                             exact movecursorsfunc_length _ _ _ hop))
                      · rw [if_neg hcx7] at hd
                        by_cases hcx13 : clr.2.1.r = 102
                        · rw [if_pos hcx13] at hd
                          by_cases hcx14 : ri.1.special = key.not_special_key
                          · rw [if_pos hcx14] at hd
                            first
                              | exact Option.noConfusion hd
                              | (cases hd; exact hne)
                              | (cases hd; exact deletecursors_ne s hne)
                              | (obtain ⟨s4, hop, hinj⟩ := Option.map_eq_some'.mp hd
                                 cases hinj
                                 first
                                   | exact hlen2ne _ (movecursors_length _ _ _ _ hop)
                                   | exact hlen2ne _ (scrollhalf_length _ _ _ hop)
                                   | exact addcursorbelow_ne _ _ hop
                                   | exact hlen2ne _ (deletecursorchar_length _ _ hop)
                                   | exact hlen2ne _ (insertlinefromcursors_length _ _ _ hop)
                                   | exact hlen2ne _ (deletecursorprevchar_length _ _ hop)
                                   | exact hlen2ne _ (insertcharsatcursors_length _ _ _ hop)
                                   | exact hlen2ne _ (replacecursorchar_length _ _ _ hop)
                                   | exact hlen2ne _ (splitcursorsline_length _ _ hop)
                                   | exact hlen2ne _ (movecursorsfunc_length _ _ _ hop)
                                   | exact hlen2ne _ (by
                                       rw [movecursorstoprevch] at hop
                                       exact movecursorsfunc_length _ _ _ hop))
                          · rw [if_neg hcx14] at hd
                            first
                              | exact Option.noConfusion hd
                              | (cases hd; exact hne)
                              | (cases hd; exact deletecursors_ne s hne)
                              | (obtain ⟨s4, hop, hinj⟩ := Option.map_eq_some'.mp hd
                                 cases hinj
                                 first
                                   | exact hlen2ne _ (movecursors_length _ _ _ _ hop)
                                   | exact hlen2ne _ (scrollhalf_length _ _ _ hop)
                                   | exact addcursorbelow_ne _ _ hop
                                   | exact hlen2ne _ (deletecursorchar_length _ _ hop)
                                   | exact hlen2ne _ (insertlinefromcursors_length _ _ _ hop)
                                   | exact hlen2ne _ (deletecursorprevchar_length _ _ hop)
                                   | exact hlen2ne _ (insertcharsatcursors_length _ _ _ hop)
                                   | exact hlen2ne _ (replacecursorchar_length _ _ _ hop)
                                   | exact hlen2ne _ (splitcursorsline_length _ _ hop)
                                   | exact hlen2ne _ (movecursorsfunc_length _ _ _ hop)
                                   | exact hlen2ne _ (by
                                       rw [movecursorstoprevch] at hop
                                       exact movecursorsfunc_length _ _ _ hop))
                        · rw [if_neg hcx13] at hd
                          by_cases hcx15 : clr.2.1.r = 70
                          · rw [if_pos hcx15] at hd
                            by_cases hcx16 : ri.1.special = key.not_special_key
                            · rw [if_pos hcx16] at hd
                              first
                                | exact Option.noConfusion hd
                                | (cases hd; exact hne)
                                | (cases hd; exact deletecursors_ne s hne)
                                | (obtain ⟨s4, hop, hinj⟩ := Option.map_eq_some'.mp hd
                                   cases hinj
                                   first
                                     | exact hlen2ne _ (movecursors_length _ _ _ _ hop)
                                     | exact hlen2ne _ (scrollhalf_length _ _ _ hop)
                                     | exact addcursorbelow_ne _ _ hop
                                     | exact hlen2ne _ (deletecursorchar_length _ _ hop)
                                     | exact hlen2ne _ (insertlinefromcursors_length _ _ _ hop)
                                     | exact hlen2ne _ (deletecursorprevchar_length _ _ hop)
                                     | exact hlen2ne _ (insertcharsatcursors_length _ _ _ hop)
                                     | exact hlen2ne _ (replacecursorchar_length _ _ _ hop)
                                     | exact hlen2ne _ (splitcursorsline_length _ _ hop)
                                     | exact hlen2ne _ (movecursorsfunc_length _ _ _ hop)
                                     | exact hlen2ne _ (by
                                         rw [movecursorstoprevch] at hop
                                         exact movecursorsfunc_length _ _ _ hop))
                            · rw [if_neg hcx16] at hd
                              first
                                | exact Option.noConfusion hd
                                | (cases hd; exact hne)
                                | (cases hd; exact deletecursors_ne s hne)
                                | (obtain ⟨s4, hop, hinj⟩ := Option.map_eq_some'.mp hd
                                   cases hinj
                                   first
                                     | exact hlen2ne _ (movecursors_length _ _ _ _ hop)
                                     | exact hlen2ne _ (scrollhalf_length _ _ _ hop)
                                     | exact addcursorbelow_ne _ _ hop
                                     | exact hlen2ne _ (deletecursorchar_length _ _ hop)
                                     | exact hlen2ne _ (insertlinefromcursors_length _ _ _ hop)
                                     | exact hlen2ne _ (deletecursorprevchar_length _ _ hop)
                                     | exact hlen2ne _ (insertcharsatcursors_length _ _ _ hop)
                                     | exact hlen2ne _ (replacecursorchar_length _ _ _ hop)
                                     | exact hlen2ne _ (splitcursorsline_length _ _ hop)
                                     | exact hlen2ne _ (movecursorsfunc_length _ _ _ hop)
                                     | exact hlen2ne _ (by
                                         rw [movecursorstoprevch] at hop
                                         exact movecursorsfunc_length _ _ _ hop))
                          · rw [if_neg hcx15] at hd
                            by_cases hcx17 : clr.2.1.r = 114
                            · rw [if_pos hcx17] at hd
                              by_cases hcx18 : ri.1.special = key.not_special_key
                              · rw [if_pos hcx18] at hd
                                first
                                  | exact Option.noConfusion hd
                                  | (cases hd; exact hne)
                                  | (cases hd; exact deletecursors_ne s hne)
                                  | (obtain ⟨s4, hop, hinj⟩ := Option.map_eq_some'.mp hd
                                     cases hinj
                                     first
                                       | exact hlen2ne _ (movecursors_length _ _ _ _ hop)
                                       | exact hlen2ne _ (scrollhalf_length _ _ _ hop)
                                       | exact addcursorbelow_ne _ _ hop
                                       | exact hlen2ne _ (deletecursorchar_length _ _ hop)
                                       | exact hlen2ne _ (insertlinefromcursors_length _ _ _ hop)
                                       | exact hlen2ne _ (deletecursorprevchar_length _ _ hop)
                                       | exact hlen2ne _ (insertcharsatcursors_length _ _ _ hop)
                                       | exact hlen2ne _ (replacecursorchar_length _ _ _ hop)
                                       | exact hlen2ne _ (splitcursorsline_length _ _ hop)
                                       | exact hlen2ne _ (movecursorsfunc_length _ _ _ hop)
                                       | exact hlen2ne _ (by
                                           rw [movecursorstoprevch] at hop
                                           exact movecursorsfunc_length _ _ _ hop))
                              · rw [if_neg hcx18] at hd
                                first
                                  | exact Option.noConfusion hd
                                  | (cases hd; exact hne)
                                  | (cases hd; exact deletecursors_ne s hne)
                                  | (obtain ⟨s4, hop, hinj⟩ := Option.map_eq_some'.mp hd
                                     cases hinj
                                     first
                                       | exact hlen2ne _ (movecursors_length _ _ _ _ hop)
                                       | exact hlen2ne _ (scrollhalf_length _ _ _ hop)
                                       | exact addcursorbelow_ne _ _ hop
                                       | exact hlen2ne _ (deletecursorchar_length _ _ hop)
                                       | exact hlen2ne _ (insertlinefromcursors_length _ _ _ hop)
                                       | exact hlen2ne _ (deletecursorprevchar_length _ _ hop)
                                       | exact hlen2ne _ (insertcharsatcursors_length _ _ _ hop)
                                       | exact hlen2ne _ (replacecursorchar_length _ _ _ hop)
                                       | exact hlen2ne _ (splitcursorsline_length _ _ hop)
                                       | exact hlen2ne _ (movecursorsfunc_length _ _ _ hop)
                                       | exact hlen2ne _ (by
                                           rw [movecursorstoprevch] at hop
                                           exact movecursorsfunc_length _ _ _ hop))
                            · rw [if_neg hcx17] at hd
                              by_cases hcx19 : clr.2.1.r = 104
                              · rw [if_pos hcx19] at hd
                                first
                                  | exact Option.noConfusion hd
                                  | (cases hd; exact hne)
                                  | (cases hd; exact deletecursors_ne s hne)
                                  | (obtain ⟨s4, hop, hinj⟩ := Option.map_eq_some'.mp hd
                                     cases hinj
                                     first
                                       | exact hlen2ne _ (movecursors_length _ _ _ _ hop)
                                       | exact hlen2ne _ (scrollhalf_length _ _ _ hop)
                                       | exact addcursorbelow_ne _ _ hop
                                       | exact hlen2ne _ (deletecursorchar_length _ _ hop)
                                       | exact hlen2ne _ (insertlinefromcursors_length _ _ _ hop)
                                       | exact hlen2ne _ (deletecursorprevchar_length _ _ hop)
                                       | exact hlen2ne _ (insertcharsatcursors_length _ _ _ hop)
                                       | exact hlen2ne _ (replacecursorchar_length _ _ _ hop)
                                       | exact hlen2ne _ (splitcursorsline_length _ _ hop)
                                       | exact hlen2ne _ (movecursorsfunc_length _ _ _ hop)
                                       | exact hlen2ne _ (by
                                           rw [movecursorstoprevch] at hop
                                           exact movecursorsfunc_length _ _ _ hop))
                              · rw [if_neg hcx19] at hd
                                by_cases hcx20 : clr.2.1.r = 106
                                · rw [if_pos hcx20] at hd
                                  first
                                    | exact Option.noConfusion hd
                                    | (cases hd; exact hne)
                                    | (cases hd; exact deletecursors_ne s hne)
                                    | (obtain ⟨s4, hop, hinj⟩ := Option.map_eq_some'.mp hd
                                       cases hinj
                                       first
                                         | exact hlen2ne _ (movecursors_length _ _ _ _ hop)
                                         | exact hlen2ne _ (scrollhalf_length _ _ _ hop)
                                         | exact addcursorbelow_ne _ _ hop
                                         | exact hlen2ne _ (deletecursorchar_length _ _ hop)
                                         | exact hlen2ne _ (insertlinefromcursors_length _ _ _ hop)
                                         | exact hlen2ne _ (deletecursorprevchar_length _ _ hop)
                                         | exact hlen2ne _ (insertcharsatcursors_length _ _ _ hop)
                                         | exact hlen2ne _ (replacecursorchar_length _ _ _ hop)
                                         | exact hlen2ne _ (splitcursorsline_length _ _ hop)
                                         | exact hlen2ne _ (movecursorsfunc_length _ _ _ hop)
                                         | exact hlen2ne _ (by
                                             rw [movecursorstoprevch] at hop
                                             exact movecursorsfunc_length _ _ _ hop))
                                · rw [if_neg hcx20] at hd
                                  by_cases hcx21 : clr.2.1.r = 107
                                  · rw [if_pos hcx21] at hd
                                    first
                                      | exact Option.noConfusion hd
                                      | (cases hd; exact hne)
                                      | (cases hd; exact deletecursors_ne s hne)
                                      | (obtain ⟨s4, hop, hinj⟩ := Option.map_eq_some'.mp hd
                                         cases hinj
                                         first
                                           | exact hlen2ne _ (movecursors_length _ _ _ _ hop)
                                           | exact hlen2ne _ (scrollhalf_length _ _ _ hop)
                                           | exact addcursorbelow_ne _ _ hop
                                           | exact hlen2ne _ (deletecursorchar_length _ _ hop)
                                           | exact hlen2ne _ (insertlinefromcursors_length _ _ _ hop)
                                           | exact hlen2ne _ (deletecursorprevchar_length _ _ hop)
                                           | exact hlen2ne _ (insertcharsatcursors_length _ _ _ hop)
                                           | exact hlen2ne _ (replacecursorchar_length _ _ _ hop)
                                           | exact hlen2ne _ (splitcursorsline_length _ _ hop)
                                           | exact hlen2ne _ (movecursorsfunc_length _ _ _ hop)
                                           | exact hlen2ne _ (by
                                               rw [movecursorstoprevch] at hop
                                               exact movecursorsfunc_length _ _ _ hop))
                                  · rw [if_neg hcx21] at hd
                                    by_cases hcx22 : clr.2.1.r = 108
                                    · rw [if_pos hcx22] at hd
                                      first
                                        | exact Option.noConfusion hd
                                        | (cases hd; exact hne)
                                        | (cases hd; exact deletecursors_ne s hne)
                                        | (obtain ⟨s4, hop, hinj⟩ := Option.map_eq_some'.mp hd
                                           cases hinj
                                           first
                                             | exact hlen2ne _ (movecursors_length _ _ _ _ hop)
                                             | exact hlen2ne _ (scrollhalf_length _ _ _ hop)
                                             | exact addcursorbelow_ne _ _ hop
                                             | exact hlen2ne _ (deletecursorchar_length _ _ hop)
                                             | exact hlen2ne _ (insertlinefromcursors_length _ _ _ hop)
                                             | exact hlen2ne _ (deletecursorprevchar_length _ _ hop)
                                             | exact hlen2ne _ (insertcharsatcursors_length _ _ _ hop)
                                             | exact hlen2ne _ (replacecursorchar_length _ _ _ hop)
                                             | exact hlen2ne _ (splitcursorsline_length _ _ hop)
                                             | exact hlen2ne _ (movecursorsfunc_length _ _ _ hop)
                                             | exact hlen2ne _ (by
                                                 rw [movecursorstoprevch] at hop
                                                 exact movecursorsfunc_length _ _ _ hop))
                                    · rw [if_neg hcx22] at hd
                                      first
                                        | exact Option.noConfusion hd
                                        | (cases hd; exact hne)
                                        | (cases hd; exact deletecursors_ne s hne)
                                        | (obtain ⟨s4, hop, hinj⟩ := Option.map_eq_some'.mp hd
                                           cases hinj
                                           first
                                             | exact hlen2ne _ (movecursors_length _ _ _ _ hop)
                                             | exact hlen2ne _ (scrollhalf_length _ _ _ hop)
                                             | exact addcursorbelow_ne _ _ hop
                                             | exact hlen2ne _ (deletecursorchar_length _ _ hop)
                                             | exact hlen2ne _ (insertlinefromcursors_length _ _ _ hop)
                                             | exact hlen2ne _ (deletecursorprevchar_length _ _ hop)
                                             | exact hlen2ne _ (insertcharsatcursors_length _ _ _ hop)
                                             | exact hlen2ne _ (replacecursorchar_length _ _ _ hop)
                                             | exact hlen2ne _ (splitcursorsline_length _ _ hop)
                                             | exact hlen2ne _ (movecursorsfunc_length _ _ _ hop)
                                             | exact hlen2ne _ (by
                                                 rw [movecursorstoprevch] at hop
                                                 exact movecursorsfunc_length _ _ _ hop))
        all_goals
          first
            | exact Option.noConfusion hd
            | (cases hd; exact hne)
            | (cases hd; exact deletecursors_ne s hne)
            | (obtain ⟨s4, hop, hinj⟩ := Option.map_eq_some'.mp hd
               cases hinj
               first
                 | exact hlen2ne _ (movecursors_length _ _ _ _ hop)
                 | exact hlen2ne _ (scrollhalf_length _ _ _ hop)
                 | exact addcursorbelow_ne _ _ hop
                 | exact hlen2ne _ (deletecursorchar_length _ _ hop)
                 | exact hlen2ne _ (insertlinefromcursors_length _ _ _ hop)
                 | exact hlen2ne _ (deletecursorprevchar_length _ _ hop)
                 | exact hlen2ne _ (insertcharsatcursors_length _ _ _ hop)
                 | exact hlen2ne _ (replacecursorchar_length _ _ _ hop)
                 | exact hlen2ne _ (splitcursorsline_length _ _ hop)
                 | exact hlen2ne _ (movecursorsfunc_length _ _ _ hop)
                 | exact hlen2ne _ (by
                     rw [movecursorstoprevch] at hop
                     exact movecursorsfunc_length _ _ _ hop))
      case neg =>
        rw [if_neg (fun hc => hnum hc.2)] at hd
        dsimp only at hd
        set ri := readinput stream with hri
        clear hri
        clear_value ri
        split at hd
        case h_7 =>
          by_cases hcx23 : buff.r = 67
          · rw [if_pos hcx23] at hd
            first
              | exact Option.noConfusion hd
              | (cases hd; exact hne)
              | (cases hd; exact deletecursors_ne s hne)
              | (obtain ⟨s4, hop, hinj⟩ := Option.map_eq_some'.mp hd
                 cases hinj
                 first
                   | exact hlen2ne _ (movecursors_length _ _ _ _ hop)
                   | exact hlen2ne _ (scrollhalf_length _ _ _ hop)
                   | exact addcursorbelow_ne _ _ hop
                   | exact hlen2ne _ (deletecursorchar_length _ _ hop)
                   | exact hlen2ne _ (insertlinefromcursors_length _ _ _ hop)
                   | exact hlen2ne _ (deletecursorprevchar_length _ _ hop)
                   | exact hlen2ne _ (insertcharsatcursors_length _ _ _ hop)
                   | exact hlen2ne _ (replacecursorchar_length _ _ _ hop)
                   | exact hlen2ne _ (splitcursorsline_length _ _ hop)
                   | exact hlen2ne _ (movecursorsfunc_length _ _ _ hop)
                   | exact hlen2ne _ (by
                       rw [movecursorstoprevch] at hop
                       exact movecursorsfunc_length _ _ _ hop))
          · rw [if_neg hcx23] at hd
            by_cases hcx24 : buff.r = 44
            · rw [if_pos hcx24] at hd
              first
                | exact Option.noConfusion hd
                | (cases hd; exact hne)
                | (cases hd; exact deletecursors_ne s hne)
                | (obtain ⟨s4, hop, hinj⟩ := Option.map_eq_some'.mp hd
                   cases hinj
                   first
                     | exact hlen2ne _ (movecursors_length _ _ _ _ hop)
                     | exact hlen2ne _ (scrollhalf_length _ _ _ hop)
                     | exact addcursorbelow_ne _ _ hop
                     | exact hlen2ne _ (deletecursorchar_length _ _ hop)
                     | exact hlen2ne _ (insertlinefromcursors_length _ _ _ hop)
                     | exact hlen2ne _ (deletecursorprevchar_length _ _ hop)
                     | exact hlen2ne _ (insertcharsatcursors_length _ _ _ hop)
                     | exact hlen2ne _ (replacecursorchar_length _ _ _ hop)
                     | exact hlen2ne _ (splitcursorsline_length _ _ hop)
                     | exact hlen2ne _ (movecursorsfunc_length _ _ _ hop)
                     | exact hlen2ne _ (by
                         rw [movecursorstoprevch] at hop
                         exact movecursorsfunc_length _ _ _ hop))
            · rw [if_neg hcx24] at hd
              by_cases hcx25 : buff.r = 100
              · rw [if_pos hcx25] at hd
                first
                  | exact Option.noConfusion hd
                  | (cases hd; exact hne)
                  | (cases hd; exact deletecursors_ne s hne)
                  | (obtain ⟨s4, hop, hinj⟩ := Option.map_eq_some'.mp hd
                     cases hinj
                     first
                       | exact hlen2ne _ (movecursors_length _ _ _ _ hop)
                       | exact hlen2ne _ (scrollhalf_length _ _ _ hop)
                       | exact addcursorbelow_ne _ _ hop
                       | exact hlen2ne _ (deletecursorchar_length _ _ hop)
                       | exact hlen2ne _ (insertlinefromcursors_length _ _ _ hop)
                       | exact hlen2ne _ (deletecursorprevchar_length _ _ hop)
                       | exact hlen2ne _ (insertcharsatcursors_length _ _ _ hop)
                       | exact hlen2ne _ (replacecursorchar_length _ _ _ hop)
                       | exact hlen2ne _ (splitcursorsline_length _ _ hop)
                       | exact hlen2ne _ (movecursorsfunc_length _ _ _ hop)
                       | exact hlen2ne _ (by
                           rw [movecursorstoprevch] at hop
                           exact movecursorsfunc_length _ _ _ hop))
              · rw [if_neg hcx25] at hd
                by_cases hcx26 : buff.r = 111
                · rw [if_pos hcx26] at hd
                  first
                    | exact Option.noConfusion hd
                    | (cases hd; exact hne)
                    | (cases hd; exact deletecursors_ne s hne)
                    | (obtain ⟨s4, hop, hinj⟩ := Option.map_eq_some'.mp hd
                       cases hinj
                       first
                         | exact hlen2ne _ (movecursors_length _ _ _ _ hop)
                         | exact hlen2ne _ (scrollhalf_length _ _ _ hop)
                         | exact addcursorbelow_ne _ _ hop
                         | exact hlen2ne _ (deletecursorchar_length _ _ hop)
                         | exact hlen2ne _ (insertlinefromcursors_length _ _ _ hop)
                         | exact hlen2ne _ (deletecursorprevchar_length _ _ hop)
                         | exact hlen2ne _ (insertcharsatcursors_length _ _ _ hop)
                         | exact hlen2ne _ (replacecursorchar_length _ _ _ hop)
                         | exact hlen2ne _ (splitcursorsline_length _ _ hop)
                         | exact hlen2ne _ (movecursorsfunc_length _ _ _ hop)
                         | exact hlen2ne _ (by
                             rw [movecursorstoprevch] at hop
                             exact movecursorsfunc_length _ _ _ hop))
                · rw [if_neg hcx26] at hd
                  by_cases hcx27 : buff.r = 79
                  · rw [if_pos hcx27] at hd
                    first
                      | exact Option.noConfusion hd
                      | (cases hd; exact hne)
                      | (cases hd; exact deletecursors_ne s hne)
                      | (obtain ⟨s4, hop, hinj⟩ := Option.map_eq_some'.mp hd
                         cases hinj
                         first
                           | exact hlen2ne _ (movecursors_length _ _ _ _ hop)
                           | exact hlen2ne _ (scrollhalf_length _ _ _ hop)
                           | exact addcursorbelow_ne _ _ hop
                           | exact hlen2ne _ (deletecursorchar_length _ _ hop)
                           | exact hlen2ne _ (insertlinefromcursors_length _ _ _ hop)
                           | exact hlen2ne _ (deletecursorprevchar_length _ _ hop)
                           | exact hlen2ne _ (insertcharsatcursors_length _ _ _ hop)
                           | exact hlen2ne _ (replacecursorchar_length _ _ _ hop)
                           | exact hlen2ne _ (splitcursorsline_length _ _ hop)
                           | exact hlen2ne _ (movecursorsfunc_length _ _ _ hop)
                           | exact hlen2ne _ (by
                               rw [movecursorstoprevch] at hop
                               exact movecursorsfunc_length _ _ _ hop))
                  · rw [if_neg hcx27] at hd
                    by_cases hcx28 : buff.r = 71
                    · rw [if_pos hcx28] at hd
                      rw [if_neg (by decide)] at hd
                      first
                        | exact Option.noConfusion hd
                        | (cases hd; exact hne)
                        | (cases hd; exact deletecursors_ne s hne)
                        | (obtain ⟨s4, hop, hinj⟩ := Option.map_eq_some'.mp hd
                           cases hinj
                           first
                             | exact hlen2ne _ (movecursors_length _ _ _ _ hop)
                             | exact hlen2ne _ (scrollhalf_length _ _ _ hop)
                             | exact addcursorbelow_ne _ _ hop
                             | exact hlen2ne _ (deletecursorchar_length _ _ hop)
                             | exact hlen2ne _ (insertlinefromcursors_length _ _ _ hop)
                             | exact hlen2ne _ (deletecursorprevchar_length _ _ hop)
                             | exact hlen2ne _ (insertcharsatcursors_length _ _ _ hop)
                             | exact hlen2ne _ (replacecursorchar_length _ _ _ hop)
                             | exact hlen2ne _ (splitcursorsline_length _ _ hop)
                             | exact hlen2ne _ (movecursorsfunc_length _ _ _ hop)
                             | exact hlen2ne _ (by
                                 rw [movecursorstoprevch] at hop
                                 exact movecursorsfunc_length _ _ _ hop))
                    · rw [if_neg hcx28] at hd
                      by_cases hcx29 : buff.r = 103
                      · rw [if_pos hcx29] at hd
                        by_cases hcx30 : ri.1.r = 103
                        · rw [if_pos hcx30] at hd
                          first
                            | exact Option.noConfusion hd
                            | (cases hd; exact hne)
                            | (cases hd; exact deletecursors_ne s hne)
                            | (obtain ⟨s4, hop, hinj⟩ := Option.map_eq_some'.mp hd
                               cases hinj
                               first
                                 | exact hlen2ne _ (movecursors_length _ _ _ _ hop)
                                 | exact hlen2ne _ (scrollhalf_length _ _ _ hop)
                                 | exact addcursorbelow_ne _ _ hop
                                 | exact hlen2ne _ (deletecursorchar_length _ _ hop)
                                 | exact hlen2ne _ (insertlinefromcursors_length _ _ _ hop)
                                 | exact hlen2ne _ (deletecursorprevchar_length _ _ hop)
                                 | exact hlen2ne _ (insertcharsatcursors_length _ _ _ hop)
                                 | exact hlen2ne _ (replacecursorchar_length _ _ _ hop)
                                 | exact hlen2ne _ (splitcursorsline_length _ _ hop)
                                 | exact hlen2ne _ (movecursorsfunc_length _ _ _ hop)
                                 | exact hlen2ne _ (by
                                     rw [movecursorstoprevch] at hop
                                     exact movecursorsfunc_length _ _ _ hop))
                        · rw [if_neg hcx30] at hd
                          by_cases hcx31 : ri.1.r = 101
                          · rw [if_pos hcx31] at hd
                            first
                              | exact Option.noConfusion hd
                              | (cases hd; exact hne)
                              | (cases hd; exact deletecursors_ne s hne)
                              | (obtain ⟨s4, hop, hinj⟩ := Option.map_eq_some'.mp hd
                                 cases hinj
                                 first
                                   | exact hlen2ne _ (movecursors_length _ _ _ _ hop)
                                   | exact hlen2ne _ (scrollhalf_length _ _ _ hop)
                                   | exact addcursorbelow_ne _ _ hop
                                   | exact hlen2ne _ (deletecursorchar_length _ _ hop)
                                   | exact hlen2ne _ (insertlinefromcursors_length _ _ _ hop)
                                   | exact hlen2ne _ (deletecursorprevchar_length _ _ hop)
                                   | exact hlen2ne _ (insertcharsatcursors_length _ _ _ hop)
                                   | exact hlen2ne _ (replacecursorchar_length _ _ _ hop)
                                   | exact hlen2ne _ (splitcursorsline_length _ _ hop)
                                   | exact hlen2ne _ (movecursorsfunc_length _ _ _ hop)
                                   | exact hlen2ne _ (by
                                       rw [movecursorstoprevch] at hop
                                       exact movecursorsfunc_length _ _ _ hop))
                          · rw [if_neg hcx31] at hd
                            by_cases hcx32 : ri.1.r = 108
                            · rw [if_pos hcx32] at hd
                              first
                                | exact Option.noConfusion hd
                                | (cases hd; exact hne)
                                | (cases hd; exact deletecursors_ne s hne)
                                | (obtain ⟨s4, hop, hinj⟩ := Option.map_eq_some'.mp hd
                                   cases hinj
                                   first
                                     | exact hlen2ne _ (movecursors_length _ _ _ _ hop)
                                     | exact hlen2ne _ (scrollhalf_length _ _ _ hop)
                                     | exact addcursorbelow_ne _ _ hop
                                     | exact hlen2ne _ (deletecursorchar_length _ _ hop)
                                     | exact hlen2ne _ (insertlinefromcursors_length _ _ _ hop)
                                     | exact hlen2ne _ (deletecursorprevchar_length _ _ hop)
                                     | exact hlen2ne _ (insertcharsatcursors_length _ _ _ hop)
                                     | exact hlen2ne _ (replacecursorchar_length _ _ _ hop)
                                     | exact hlen2ne _ (splitcursorsline_length _ _ hop)
                                     | exact hlen2ne _ (movecursorsfunc_length _ _ _ hop)
                                     | exact hlen2ne _ (by
                                         rw [movecursorstoprevch] at hop
                                         exact movecursorsfunc_length _ _ _ hop))
                            · rw [if_neg hcx32] at hd
                              by_cases hcx33 : ri.1.r = 115
                              · rw [if_pos hcx33] at hd
                                first
                                  | exact Option.noConfusion hd
                                  | (cases hd; exact hne)
                                  | (cases hd; exact deletecursors_ne s hne)
                                  | (obtain ⟨s4, hop, hinj⟩ := Option.map_eq_some'.mp hd
                                     cases hinj
                                     first
                                       | exact hlen2ne _ (movecursors_length _ _ _ _ hop)
                                       | exact hlen2ne _ (scrollhalf_length _ _ _ hop)
                                       | exact addcursorbelow_ne _ _ hop
                                       | exact hlen2ne _ (deletecursorchar_length _ _ hop)
                                       | exact hlen2ne _ (insertlinefromcursors_length _ _ _ hop)
                                       | exact hlen2ne _ (deletecursorprevchar_length _ _ hop)
                                       | exact hlen2ne _ (insertcharsatcursors_length _ _ _ hop)
                                       | exact hlen2ne _ (replacecursorchar_length _ _ _ hop)
                                       | exact hlen2ne _ (splitcursorsline_length _ _ hop)
                                       | exact hlen2ne _ (movecursorsfunc_length _ _ _ hop)
                                       | exact hlen2ne _ (by
                                           rw [movecursorstoprevch] at hop
                                           exact movecursorsfunc_length _ _ _ hop))
                              · rw [if_neg hcx33] at hd
                                by_cases hcx34 : ri.1.r = 104
                                · rw [if_pos hcx34] at hd
                                  first
                                    | exact Option.noConfusion hd
                                    | (cases hd; exact hne)
                                    | (cases hd; exact deletecursors_ne s hne)
                                    | (obtain ⟨s4, hop, hinj⟩ := Option.map_eq_some'.mp hd
                                       cases hinj
                                       first
                                         | exact hlen2ne _ (movecursors_length _ _ _ _ hop)
                                         | exact hlen2ne _ (scrollhalf_length _ _ _ hop)
                                         | exact addcursorbelow_ne _ _ hop
                                         | exact hlen2ne _ (deletecursorchar_length _ _ hop)
                                         | exact hlen2ne _ (insertlinefromcursors_length _ _ _ hop)
                                         | exact hlen2ne _ (deletecursorprevchar_length _ _ hop)
                                         | exact hlen2ne _ (insertcharsatcursors_length _ _ _ hop)
                                         | exact hlen2ne _ (replacecursorchar_length _ _ _ hop)
                                         | exact hlen2ne _ (splitcursorsline_length _ _ hop)
                                         | exact hlen2ne _ (movecursorsfunc_length _ _ _ hop)
                                         | exact hlen2ne _ (by
                                             rw [movecursorstoprevch] at hop
                                             exact movecursorsfunc_length _ _ _ hop))
                                · rw [if_neg hcx34] at hd
                                  first
                                    | exact Option.noConfusion hd
                                    | (cases hd; exact hne)
                                    | (cases hd; exact deletecursors_ne s hne)
                                    | (obtain ⟨s4, hop, hinj⟩ := Option.map_eq_some'.mp hd
                                       cases hinj
                                       first
                                         | exact hlen2ne _ (movecursors_length _ _ _ _ hop)
                                         | exact hlen2ne _ (scrollhalf_length _ _ _ hop)
                                         | exact addcursorbelow_ne _ _ hop
                                         | exact hlen2ne _ (deletecursorchar_length _ _ hop)
                                         | exact hlen2ne _ (insertlinefromcursors_length _ _ _ hop)
                                         | exact hlen2ne _ (deletecursorprevchar_length _ _ hop)
                                         | exact hlen2ne _ (insertcharsatcursors_length _ _ _ hop)
                                         | exact hlen2ne _ (replacecursorchar_length _ _ _ hop)
                                         | exact hlen2ne _ (splitcursorsline_length _ _ hop)
                                         | exact hlen2ne _ (movecursorsfunc_length _ _ _ hop)
                                         | exact hlen2ne _ (by
                                             rw [movecursorstoprevch] at hop
                                             exact movecursorsfunc_length _ _ _ hop))
                      · rw [if_neg hcx29] at hd
                        by_cases hcx35 : buff.r = 102
                        · rw [if_pos hcx35] at hd
                          by_cases hcx36 : ri.1.special = key.not_special_key
                          · rw [if_pos hcx36] at hd
                            first
                              | exact Option.noConfusion hd
                              | (cases hd; exact hne)
                              | (cases hd; exact deletecursors_ne s hne)
                              | (obtain ⟨s4, hop, hinj⟩ := Option.map_eq_some'.mp hd
                                 cases hinj
                                 first
                                   | exact hlen2ne _ (movecursors_length _ _ _ _ hop)
                                   | exact hlen2ne _ (scrollhalf_length _ _ _ hop)
                                   | exact addcursorbelow_ne _ _ hop
                                   | exact hlen2ne _ (deletecursorchar_length _ _ hop)
                                   | exact hlen2ne _ (insertlinefromcursors_length _ _ _ hop)
                                   | exact hlen2ne _ (deletecursorprevchar_length _ _ hop)
                                   | exact hlen2ne _ (insertcharsatcursors_length _ _ _ hop)
                                   | exact hlen2ne _ (replacecursorchar_length _ _ _ hop)
                                   | exact hlen2ne _ (splitcursorsline_length _ _ hop)
                                   | exact hlen2ne _ (movecursorsfunc_length _ _ _ hop)
                                   | exact hlen2ne _ (by
                                       rw [movecursorstoprevch] at hop
                                       exact movecursorsfunc_length _ _ _ hop))
                          · rw [if_neg hcx36] at hd
                            first
                              | exact Option.noConfusion hd
                              | (cases hd; exact hne)
                              | (cases hd; exact deletecursors_ne s hne)
                              | (obtain ⟨s4, hop, hinj⟩ := Option.map_eq_some'.mp hd
                                 cases hinj
                                 first
                                   | exact hlen2ne _ (movecursors_length _ _ _ _ hop)
                                   | exact hlen2ne _ (scrollhalf_length _ _ _ hop)
                                   | exact addcursorbelow_ne _ _ hop
                                   | exact hlen2ne _ (deletecursorchar_length _ _ hop)
                                   | exact hlen2ne _ (insertlinefromcursors_length _ _ _ hop)
                                   | exact hlen2ne _ (deletecursorprevchar_length _ _ hop)
                                   | exact hlen2ne _ (insertcharsatcursors_length _ _ _ hop)
                                   | exact hlen2ne _ (replacecursorchar_length _ _ _ hop)
                                   | exact hlen2ne _ (splitcursorsline_length _ _ hop)
                                   | exact hlen2ne _ (movecursorsfunc_length _ _ _ hop)
                                   | exact hlen2ne _ (by
                                       rw [movecursorstoprevch] at hop
                                       exact movecursorsfunc_length _ _ _ hop))
                        · rw [if_neg hcx35] at hd
                          by_cases hcx37 : buff.r = 70
                          · rw [if_pos hcx37] at hd
                            by_cases hcx38 : ri.1.special = key.not_special_key
                            · rw [if_pos hcx38] at hd
                              first
                                | exact Option.noConfusion hd
                                | (cases hd; exact hne)
                                | (cases hd; exact deletecursors_ne s hne)
                                | (obtain ⟨s4, hop, hinj⟩ := Option.map_eq_some'.mp hd
                                   cases hinj
                                   first
                                     | exact hlen2ne _ (movecursors_length _ _ _ _ hop)
                                     | exact hlen2ne _ (scrollhalf_length _ _ _ hop)
                                     | exact addcursorbelow_ne _ _ hop
                                     | exact hlen2ne _ (deletecursorchar_length _ _ hop)
                                     | exact hlen2ne _ (insertlinefromcursors_length _ _ _ hop)
                                     | exact hlen2ne _ (deletecursorprevchar_length _ _ hop)
                                     | exact hlen2ne _ (insertcharsatcursors_length _ _ _ hop)
                                     | exact hlen2ne _ (replacecursorchar_length _ _ _ hop)
                                     | exact hlen2ne _ (splitcursorsline_length _ _ hop)
                                     | exact hlen2ne _ (movecursorsfunc_length _ _ _ hop)
                                     | exact hlen2ne _ (by
                                         rw [movecursorstoprevch] at hop
                                         exact movecursorsfunc_length _ _ _ hop))
                            · rw [if_neg hcx38] at hd
                              first
                                | exact Option.noConfusion hd
                                | (cases hd; exact hne)
                                | (cases hd; exact deletecursors_ne s hne)
                                | (obtain ⟨s4, hop, hinj⟩ := Option.map_eq_some'.mp hd
                                   cases hinj
                                   first
                                     | exact hlen2ne _ (movecursors_length _ _ _ _ hop)
                                     | exact hlen2ne _ (scrollhalf_length _ _ _ hop)
                                     | exact addcursorbelow_ne _ _ hop
                                     | exact hlen2ne _ (deletecursorchar_length _ _ hop)
                                     | exact hlen2ne _ (insertlinefromcursors_length _ _ _ hop)
                                     | exact hlen2ne _ (deletecursorprevchar_length _ _ hop)
                                     | exact hlen2ne _ (insertcharsatcursors_length _ _ _ hop)
                                     | exact hlen2ne _ (replacecursorchar_length _ _ _ hop)
                                     | exact hlen2ne _ (splitcursorsline_length _ _ hop)
                                     | exact hlen2ne _ (movecursorsfunc_length _ _ _ hop)
                                     | exact hlen2ne _ (by
                                         rw [movecursorstoprevch] at hop
                                         exact movecursorsfunc_length _ _ _ hop))
                          · rw [if_neg hcx37] at hd
                            by_cases hcx39 : buff.r = 114
                            · rw [if_pos hcx39] at hd
                              by_cases hcx40 : ri.1.special = key.not_special_key
                              · rw [if_pos hcx40] at hd
                                first
                                  | exact Option.noConfusion hd
                                  | (cases hd; exact hne)
                                  | (cases hd; exact deletecursors_ne s hne)
                                  | (obtain ⟨s4, hop, hinj⟩ := Option.map_eq_some'.mp hd
                                     cases hinj
                                     first
                                       | exact hlen2ne _ (movecursors_length _ _ _ _ hop)
                                       | exact hlen2ne _ (scrollhalf_length _ _ _ hop)
                                       | exact addcursorbelow_ne _ _ hop
                                       | exact hlen2ne _ (deletecursorchar_length _ _ hop)
                                       | exact hlen2ne _ (insertlinefromcursors_length _ _ _ hop)
                                       | exact hlen2ne _ (deletecursorprevchar_length _ _ hop)
                                       | exact hlen2ne _ (insertcharsatcursors_length _ _ _ hop)
                                       | exact hlen2ne _ (replacecursorchar_length _ _ _ hop)
                                       | exact hlen2ne _ (splitcursorsline_length _ _ hop)
                                       | exact hlen2ne _ (movecursorsfunc_length _ _ _ hop)
                                       | exact hlen2ne _ (by
                                           rw [movecursorstoprevch] at hop
                                           exact movecursorsfunc_length _ _ _ hop))
                              · rw [if_neg hcx40] at hd
                                first
                                  | exact Option.noConfusion hd
                                  | (cases hd; exact hne)
                                  | (cases hd; exact deletecursors_ne s hne)
                                  | (obtain ⟨s4, hop, hinj⟩ := Option.map_eq_some'.mp hd
                                     cases hinj
                                     first
                                       | exact hlen2ne _ (movecursors_length _ _ _ _ hop)
                                       | exact hlen2ne _ (scrollhalf_length _ _ _ hop)
                                       | exact addcursorbelow_ne _ _ hop
                                       | exact hlen2ne _ (deletecursorchar_length _ _ hop)
                                       | exact hlen2ne _ (insertlinefromcursors_length _ _ _ hop)
                                       | exact hlen2ne _ (deletecursorprevchar_length _ _ hop)
                                       | exact hlen2ne _ (insertcharsatcursors_length _ _ _ hop)
                                       | exact hlen2ne _ (replacecursorchar_length _ _ _ hop)
                                       | exact hlen2ne _ (splitcursorsline_length _ _ hop)
                                       | exact hlen2ne _ (movecursorsfunc_length _ _ _ hop)
                                       | exact hlen2ne _ (by
                                           rw [movecursorstoprevch] at hop
                                           exact movecursorsfunc_length _ _ _ hop))
                            · rw [if_neg hcx39] at hd
                              by_cases hcx41 : buff.r = 104
                              · rw [if_pos hcx41] at hd
                                first
                                  | exact Option.noConfusion hd
                                  | (cases hd; exact hne)
                                  | (cases hd; exact deletecursors_ne s hne)
                                  | (obtain ⟨s4, hop, hinj⟩ := Option.map_eq_some'.mp hd
                                     cases hinj
                                     first
                                       | exact hlen2ne _ (movecursors_length _ _ _ _ hop)
                                       | exact hlen2ne _ (scrollhalf_length _ _ _ hop)
                                       | exact addcursorbelow_ne _ _ hop
                                       | exact hlen2ne _ (deletecursorchar_length _ _ hop)
                                       | exact hlen2ne _ (insertlinefromcursors_length _ _ _ hop)
                                       | exact hlen2ne _ (deletecursorprevchar_length _ _ hop)
                                       | exact hlen2ne _ (insertcharsatcursors_length _ _ _ hop)
                                       | exact hlen2ne _ (replacecursorchar_length _ _ _ hop)
                                       | exact hlen2ne _ (splitcursorsline_length _ _ hop)
                                       | exact hlen2ne _ (movecursorsfunc_length _ _ _ hop)
                                       | exact hlen2ne _ (by
                                           rw [movecursorstoprevch] at hop
                                           exact movecursorsfunc_length _ _ _ hop))
                              · rw [if_neg hcx41] at hd
                                by_cases hcx42 : buff.r = 106
                                · rw [if_pos hcx42] at hd
                                  first
                                    | exact Option.noConfusion hd
                                    | (cases hd; exact hne)
                                    | (cases hd; exact deletecursors_ne s hne)
                                    | (obtain ⟨s4, hop, hinj⟩ := Option.map_eq_some'.mp hd
                                       cases hinj
                                       first
                                         | exact hlen2ne _ (movecursors_length _ _ _ _ hop)
                                         | exact hlen2ne _ (scrollhalf_length _ _ _ hop)
                                         | exact addcursorbelow_ne _ _ hop
                                         | exact hlen2ne _ (deletecursorchar_length _ _ hop)
                                         | exact hlen2ne _ (insertlinefromcursors_length _ _ _ hop)
                                         | exact hlen2ne _ (deletecursorprevchar_length _ _ hop)
                                         | exact hlen2ne _ (insertcharsatcursors_length _ _ _ hop)
                                         | exact hlen2ne _ (replacecursorchar_length _ _ _ hop)
                                         | exact hlen2ne _ (splitcursorsline_length _ _ hop)
                                         | exact hlen2ne _ (movecursorsfunc_length _ _ _ hop)
                                         | exact hlen2ne _ (by
                                             rw [movecursorstoprevch] at hop
                                             exact movecursorsfunc_length _ _ _ hop))
                                · rw [if_neg hcx42] at hd
                                  by_cases hcx43 : buff.r = 107
                                  · rw [if_pos hcx43] at hd
                                    first
                                      | exact Option.noConfusion hd
                                      | (cases hd; exact hne)
                                      | (cases hd; exact deletecursors_ne s hne)
                                      | (obtain ⟨s4, hop, hinj⟩ := Option.map_eq_some'.mp hd
                                         cases hinj
                                         first
                                           | exact hlen2ne _ (movecursors_length _ _ _ _ hop)
                                           | exact hlen2ne _ (scrollhalf_length _ _ _ hop)
                                           | exact addcursorbelow_ne _ _ hop
                                           | exact hlen2ne _ (deletecursorchar_length _ _ hop)
                                           | exact hlen2ne _ (insertlinefromcursors_length _ _ _ hop)
                                           | exact hlen2ne _ (deletecursorprevchar_length _ _ hop)
                                           | exact hlen2ne _ (insertcharsatcursors_length _ _ _ hop)
                                           | exact hlen2ne _ (replacecursorchar_length _ _ _ hop)
                                           | exact hlen2ne _ (splitcursorsline_length _ _ hop)
                                           | exact hlen2ne _ (movecursorsfunc_length _ _ _ hop)
                                           | exact hlen2ne _ (by
                                               rw [movecursorstoprevch] at hop
                                               exact movecursorsfunc_length _ _ _ hop))
                                  · rw [if_neg hcx43] at hd
                                    by_cases hcx44 : buff.r = 108
                                    · rw [if_pos hcx44] at hd
                                      first
                                        | exact Option.noConfusion hd
                                        | (cases hd; exact hne)
                                        | (cases hd; exact deletecursors_ne s hne)
                                        | (obtain ⟨s4, hop, hinj⟩ := Option.map_eq_some'.mp hd
                                           cases hinj
                                           first
                                             | exact hlen2ne _ (movecursors_length _ _ _ _ hop)
                                             | exact hlen2ne _ (scrollhalf_length _ _ _ hop)
                                             | exact addcursorbelow_ne _ _ hop
                                             | exact hlen2ne _ (deletecursorchar_length _ _ hop)
                                             | exact hlen2ne _ (insertlinefromcursors_length _ _ _ hop)
                                             | exact hlen2ne _ (deletecursorprevchar_length _ _ hop)
                                             | exact hlen2ne _ (insertcharsatcursors_length _ _ _ hop)
                                             | exact hlen2ne _ (replacecursorchar_length _ _ _ hop)
                                             | exact hlen2ne _ (splitcursorsline_length _ _ hop)
                                             | exact hlen2ne _ (movecursorsfunc_length _ _ _ hop)
                                             | exact hlen2ne _ (by
                                                 rw [movecursorstoprevch] at hop
                                                 exact movecursorsfunc_length _ _ _ hop))
                                    · rw [if_neg hcx44] at hd
                                      first
                                        | exact Option.noConfusion hd
                                        | (cases hd; exact hne)
                                        | (cases hd; exact deletecursors_ne s hne)
                                        | (obtain ⟨s4, hop, hinj⟩ := Option.map_eq_some'.mp hd
                                           cases hinj
                                           first
                                             | exact hlen2ne _ (movecursors_length _ _ _ _ hop)
                                             | exact hlen2ne _ (scrollhalf_length _ _ _ hop)
                                             | exact addcursorbelow_ne _ _ hop
                                             | exact hlen2ne _ (deletecursorchar_length _ _ hop)
                                             | exact hlen2ne _ (insertlinefromcursors_length _ _ _ hop)
                                             | exact hlen2ne _ (deletecursorprevchar_length _ _ hop)
                                             | exact hlen2ne _ (insertcharsatcursors_length _ _ _ hop)
                                             | exact hlen2ne _ (replacecursorchar_length _ _ _ hop)
                                             | exact hlen2ne _ (splitcursorsline_length _ _ hop)
                                             | exact hlen2ne _ (movecursorsfunc_length _ _ _ hop)
                                             | exact hlen2ne _ (by
                                                 rw [movecursorstoprevch] at hop
                                                 exact movecursorsfunc_length _ _ _ hop))
        all_goals
          first
            | exact Option.noConfusion hd
            | (cases hd; exact hne)
            | (cases hd; exact deletecursors_ne s hne)
            | (obtain ⟨s4, hop, hinj⟩ := Option.map_eq_some'.mp hd
               cases hinj
               first
                 | exact hlen2ne _ (movecursors_length _ _ _ _ hop)
                 | exact hlen2ne _ (scrollhalf_length _ _ _ hop)
                 | exact addcursorbelow_ne _ _ hop
                 | exact hlen2ne _ (deletecursorchar_length _ _ hop)
                 | exact hlen2ne _ (insertlinefromcursors_length _ _ _ hop)
                 | exact hlen2ne _ (deletecursorprevchar_length _ _ hop)
                 | exact hlen2ne _ (insertcharsatcursors_length _ _ _ hop)
                 | exact hlen2ne _ (replacecursorchar_length _ _ _ hop)
                 | exact hlen2ne _ (splitcursorsline_length _ _ hop)
                 | exact hlen2ne _ (movecursorsfunc_length _ _ _ hop)
                 | exact hlen2ne _ (by
                     rw [movecursorstoprevch] at hop
                     exact movecursorsfunc_length _ _ _ hop))
    | insert =>
      dsimp only at hd
      rw [if_neg (fun hc => absurd hc.1 (by decide))] at hd
      dsimp only at hd
      split at hd
      all_goals
      first
        | exact Option.noConfusion hd
        | (cases hd; exact hne)
        | (cases hd; exact deletecursors_ne s hne)
        | (obtain ⟨s4, hop, hinj⟩ := Option.map_eq_some'.mp hd
           cases hinj
           first
             | exact hlen2ne _ (movecursors_length _ _ _ _ hop)
             | exact hlen2ne _ (splitcursorsline_length _ _ hop)
             | exact hlen2ne _ (deletecursorprevchar_length _ _ hop)
             | exact hlen2ne _ (insertcharsatcursors_length _ _ _ hop))
    | command =>
        dsimp only at hd
        exact Option.noConfusion hd
  refine ⟨?_, ?_, ?_⟩
  · show (cleanupcursors s3).cursors ≠ []
    rw [cleanupcursors]
    exact cleanup_ne_nil s3.cursors (by rw [hs3]; exact hs2ne)
  · show (cleanupcursors s3).cursors.Pairwise _
    rw [cleanupcursors]
    exact cleanup_pairwise s3.cursors
  · show (cleanupcursors s3).cursors.Pairwise _
    rw [cleanupcursors]
    refine (cleanup_pairwise s3.cursors).imp ?_
    intro p q hpq
    omega


/-- Witness for the C8 theorem: pressing j (move down) in normal mode on
the one-line screen a completes, and the resulting cursor list is
non-empty, strictly (y, x)-sorted and duplicate-free. -/
theorem c8_cursor_invariant_witness :
    handle (newscreen 80 24 [97, 10] "txt" theme_doraemon) mode.normal
        { r := 106, special := key.not_special_key } []
      = some ((handle (newscreen 80 24 [97, 10] "txt" theme_doraemon) mode.normal
          { r := 106, special := key.not_special_key } []).getD
          (mode.normal, newscreen 80 24 [97, 10] "txt" theme_doraemon, []))
    ∧ (newscreen 80 24 [97, 10] "txt" theme_doraemon).cursors ≠ []
    ∧ (((handle (newscreen 80 24 [97, 10] "txt" theme_doraemon) mode.normal
          { r := 106, special := key.not_special_key } []).getD
          (mode.normal, newscreen 80 24 [97, 10] "txt" theme_doraemon, [])).2.1.cursors ≠ []
        ∧ ((handle (newscreen 80 24 [97, 10] "txt" theme_doraemon) mode.normal
            { r := 106, special := key.not_special_key } []).getD
            (mode.normal, newscreen 80 24 [97, 10] "txt" theme_doraemon, [])).2.1.cursors.Pairwise
            (fun p q => p.y < q.y ∨ (p.y = q.y ∧ p.x < q.x))
        ∧ ((handle (newscreen 80 24 [97, 10] "txt" theme_doraemon) mode.normal
            { r := 106, special := key.not_special_key } []).getD
            (mode.normal, newscreen 80 24 [97, 10] "txt" theme_doraemon, [])).2.1.cursors.Pairwise
            (fun p q => ¬(p.x = q.x ∧ p.y = q.y))) :=
  ⟨by decide, by decide,
   c8_cursor_invariant (newscreen 80 24 [97, 10] "txt" theme_doraemon) mode.normal
     { r := 106, special := key.not_special_key } [] _ (by decide) (by decide)⟩

end Turtle
